import Mathlib

/-!
# Questionnaire service: assignment lifecycle and company bindings

A shallow embedding of the Go services `AssignmentService`, `CompanyService` and
`ReportService` together with the repositories they call.  The MongoDB collections are lists of
documents in insertion order; `FindOne`, `UpdateOne` and `CountDocuments` act on
the first document (respectively all documents) matching the filter.  Errors are
the message strings built by `fmt.Errorf`.  `time.Time` is an integer number of
nanoseconds since the zero time, so `IsZero` is equality with `0`; each
operation receives the instant `now` observed by its `time.Now()` calls.
`primitive.NewObjectID()` draws from a counter kept with the store.  MongoDB keeps
`_id` unique within a collection; where a result depends on it, the theorem
states it as a hypothesis on the list of documents.
-/

namespace Questionarie

/-! ## Data model (package `models`) -/

/-- Identifier of a stored document (`primitive.ObjectID`). -/
abbrev ObjectID := Nat

/-- Instants (`time.Time`), counted from the zero time. -/
abbrev Time := Int

/-- Go `Time.IsZero`. -/
def Time.IsZero (t : Time) : Bool := t == 0

/-- Go `Time.After`. -/
def Time.After (t u : Time) : Bool := decide (u < t)

/-- Go `Time.Before`. -/
def Time.Before (t u : Time) : Bool := decide (t < u)

/-- Go `Time.Equal`. -/
def Time.Equal (t u : Time) : Bool := t == u

/-- The three values of `models.AssignmentStatus`. -/
inductive AssignmentStatus where
  | pending
  | inProgress
  | completed
deriving DecidableEq, Repr

/-- A decoded JSON payload (`interface{}`); the services never inspect it. -/
inductive JsonValue where
  | null
  | bool (b : Bool)
  | num (n : Int)
  | str (s : String)
deriving DecidableEq, Repr

/-- Embedded response, `models.Response`. -/
structure Response where
  questionID : String
  responseValue : List (String × JsonValue)
  answeredAt : Time
deriving DecidableEq, Repr

/-- Go `models.NewResponse`. -/
def NewResponse (questionID : String) (value : JsonValue) (now : Time) : Response :=
  { questionID := questionID, responseValue := [("value", value)], answeredAt := now }

/-- Go `Response.GetValue`: the entry "value" of the response map; `none` where the Go code
returns nil because the map has no such key. -/
def Response.GetValue (r : Response) : Option JsonValue :=
  r.responseValue.lookup "value"

/-- Embedded question, `models.Question` (the option map is left out). -/
structure Question where
  questionID : String
  questionText : String
  orderIndex : Int
  isRequired : Bool
deriving DecidableEq, Repr

/-- Document `models.Questionnaire`. -/
structure Questionnaire where
  id : ObjectID
  title : String
  isActive : Bool
  questions : List Question
deriving DecidableEq, Repr

/-- Document `models.CompanyQuestionnaire`: a questionnaire bound to a company for a period. -/
structure CompanyQuestionnaire where
  id : ObjectID
  companyID : ObjectID
  questionnaireID : ObjectID
  assignedBy : String
  assignedAt : Time
  periodStart : Time
  periodEnd : Time
  isActive : Bool
deriving DecidableEq, Repr

/-- Go `models.NewCompanyQuestionnaire`; `id` is the fresh `primitive.NewObjectID()`. -/
def NewCompanyQuestionnaire (id companyID questionnaireID : ObjectID) (assignedBy : String)
    (periodStart periodEnd now : Time) : CompanyQuestionnaire :=
  { id := id, companyID := companyID, questionnaireID := questionnaireID,
    assignedBy := assignedBy, assignedAt := now,
    periodStart := periodStart, periodEnd := periodEnd, isActive := true }

/-- Go `CompanyQuestionnaire.IsWithinPeriod`. -/
def CompanyQuestionnaire.IsWithinPeriod (cq : CompanyQuestionnaire) (now : Time) : Bool :=
  Time.After now cq.periodStart && Time.Before now cq.periodEnd

/-- Document `models.UserQuestionnaireAssignment`. -/
structure UserQuestionnaireAssignment where
  id : ObjectID
  companyQuestionnaireID : ObjectID
  userID : String
  assignedBy : String
  assignedAt : Time
  status : AssignmentStatus
  startedAt : Option Time
  completedAt : Option Time
  responses : List Response
deriving DecidableEq, Repr

/-- Go `models.NewUserQuestionnaireAssignment`; `id` is the fresh `primitive.NewObjectID()`. -/
def NewUserQuestionnaireAssignment (id companyQuestionnaireID : ObjectID)
    (userID assignedBy : String) (now : Time) : UserQuestionnaireAssignment :=
  { id := id, companyQuestionnaireID := companyQuestionnaireID, userID := userID,
    assignedBy := assignedBy, assignedAt := now, status := .pending,
    startedAt := none, completedAt := none, responses := [] }

/-- Document `models.UserMetadata`.  The field `supervisorID` is the stored `supervisor_id`:
`none` when the document has no such field, as after an insert with an empty supervisor
(`omitempty`), and `some s` once a `$set` has written it.  An empty `department` stands for
an omitted one. -/
structure UserMetadata where
  id : String
  companyID : ObjectID
  supervisorID : Option String
  department : String
deriving DecidableEq, Repr

/-- The Go field `SupervisorID` of a decoded document: empty when the field is absent. -/
def UserMetadata.SupervisorID (m : UserMetadata) : String := m.supervisorID.getD ""

/-- Document `models.Company`. -/
structure Company where
  id : ObjectID
  name : String
deriving DecidableEq, Repr

/-! ## Storage -/

/-- The five collections, each in insertion order, and the supply of fresh object ids. -/
structure DB where
  companies : List Company
  questionnaires : List Questionnaire
  companyQuestionnaires : List CompanyQuestionnaire
  usersMetadata : List UserMetadata
  assignments : List UserQuestionnaireAssignment
  nextObjectID : ObjectID
deriving DecidableEq, Repr

/-- Mongo `UpdateOne`: apply `f` to the first document satisfying the filter `p`;
the second component is `MatchedCount`. -/
def updateOne {α : Type} (p : α → Bool) (f : α → α) : List α → List α × Nat
  | [] => ([], 0)
  | x :: xs =>
    if p x then (f x :: xs, 1)
    else ((x :: (updateOne p f xs).1), (updateOne p f xs).2)

/-- Mongo positional operator `responses.$`: replace the first array element whose
`question_id` equals that of `r`. -/
def setFirstMatching (r : Response) : List Response → List Response
  | [] => []
  | x :: xs => if x.questionID == r.questionID then r :: xs else x :: setFirstMatching r xs

/-- Go `UserQuestionnaireAssignment.Start`. -/
def UserQuestionnaireAssignment.Start (a : UserQuestionnaireAssignment) (now : Time) :
    UserQuestionnaireAssignment :=
  if a.status = .pending then { a with startedAt := some now, status := .inProgress } else a

/-- Go `UserQuestionnaireAssignment.Complete`. -/
def UserQuestionnaireAssignment.Complete (a : UserQuestionnaireAssignment) (now : Time) :
    UserQuestionnaireAssignment :=
  if a.status = .inProgress then { a with completedAt := some now, status := .completed } else a

/-- Go `UserQuestionnaireAssignment.AddResponse`. -/
def UserQuestionnaireAssignment.AddResponse (a : UserQuestionnaireAssignment)
    (response : Response) (now : Time) : UserQuestionnaireAssignment :=
  if a.responses.any (fun r => r.questionID == response.questionID) then
    { a with responses := setFirstMatching response a.responses }
  else
    let added := { a with responses := a.responses ++ [response] }
    if added.status = .pending then added.Start now else added

/-! ## Repositories (package `repository`) -/

/-- Go `AssignmentRepository.GetByID`. -/
def AssignmentRepository.GetByID (db : DB) (id : ObjectID) :
    Except String UserQuestionnaireAssignment :=
  match db.assignments.find? (fun a => a.id == id) with
  | some a => .ok a
  | none => .error "assignment not found"

/-- Go `AssignmentRepository.GetByCompanyQuestionnaireID`. -/
def AssignmentRepository.GetByCompanyQuestionnaireID (db : DB) (cqID : ObjectID) :
    Except String (List UserQuestionnaireAssignment) :=
  .ok (db.assignments.filter (fun a => a.companyQuestionnaireID == cqID))

/-- Go `AssignmentRepository.Create`. -/
def AssignmentRepository.Create (db : DB) (a : UserQuestionnaireAssignment) :
    Except String Unit × DB :=
  (.ok (), { db with assignments := db.assignments ++ [a] })

/-- Go `AssignmentRepository.CheckDuplicate`. -/
def AssignmentRepository.CheckDuplicate (db : DB) (userID : String) (cqID : ObjectID) :
    Except String Bool :=
  .ok (decide ((db.assignments.filter
    (fun a => a.userID == userID && a.companyQuestionnaireID == cqID)).length > 0))

/-- The `$set` document built by `AssignmentRepository.UpdateStatus`, applied to a document. -/
def statusUpdate (status : AssignmentStatus) (now : Time)
    (a : UserQuestionnaireAssignment) : UserQuestionnaireAssignment :=
  if status = .inProgress then { a with status := status, startedAt := some now }
  else if status = .completed then { a with status := status, completedAt := some now }
  else { a with status := status }

/-- Go `AssignmentRepository.UpdateStatus`. -/
def AssignmentRepository.UpdateStatus (db : DB) (id : ObjectID) (status : AssignmentStatus)
    (now : Time) : Except String Unit × DB :=
  let result := updateOne (fun a => a.id == id) (statusUpdate status now) db.assignments
  if result.2 = 0 then (.error "assignment not found", db)
  else (.ok (), { db with assignments := result.1 })

/-- Go `AssignmentRepository.AddOrUpdateResponse`. -/
def AssignmentRepository.AddOrUpdateResponse (db : DB) (assignmentID : ObjectID)
    (response : Response) (now : Time) : Except String Unit × DB :=
  let result := updateOne
    (fun a => a.id == assignmentID && a.responses.any (fun r => r.questionID == response.questionID))
    (fun a => { a with responses := setFirstMatching response a.responses })
    db.assignments
  if result.2 = 0 then
    let pushed := updateOne (fun a => a.id == assignmentID)
      (fun a => { a with responses := a.responses ++ [response] }) db.assignments
    if pushed.2 = 0 then (.error "assignment not found", db)
    else
      let db1 : DB := { db with assignments := pushed.1 }
      (.ok (), (AssignmentRepository.UpdateStatus db1 assignmentID .inProgress now).2)
  else (.ok (), { db with assignments := result.1 })

/-- Go `CompanyQuestionnaireRepository.GetByID`. -/
def CompanyQuestionnaireRepository.GetByID (db : DB) (id : ObjectID) :
    Except String CompanyQuestionnaire :=
  match db.companyQuestionnaires.find? (fun c => c.id == id) with
  | some c => .ok c
  | none => .error "company questionnaire not found"

/-- Go `CompanyQuestionnaireRepository.Create`. -/
def CompanyQuestionnaireRepository.Create (db : DB) (cq : CompanyQuestionnaire) :
    Except String Unit × DB :=
  (.ok (), { db with companyQuestionnaires := db.companyQuestionnaires ++ [cq] })

/-- Go `CompanyQuestionnaireRepository.Update`. -/
def CompanyQuestionnaireRepository.Update (db : DB) (id : ObjectID) (cq : CompanyQuestionnaire) :
    Except String Unit × DB :=
  let result := updateOne (fun c => c.id == id)
    (fun c => { c with periodStart := cq.periodStart, periodEnd := cq.periodEnd,
                       isActive := cq.isActive })
    db.companyQuestionnaires
  if result.2 = 0 then (.error "company questionnaire not found", db)
  else (.ok (), { db with companyQuestionnaires := result.1 })

/-- Go `CompanyQuestionnaireRepository.Deactivate`. -/
def CompanyQuestionnaireRepository.Deactivate (db : DB) (id : ObjectID) :
    Except String Unit × DB :=
  let result := updateOne (fun c => c.id == id)
    (fun c => { c with isActive := false }) db.companyQuestionnaires
  if result.2 = 0 then (.error "company questionnaire not found", db)
  else (.ok (), { db with companyQuestionnaires := result.1 })

/-- The filter of `CompanyQuestionnaireRepository.CheckDuplicate`. -/
def overlapFilter (companyID questionnaireID : ObjectID) (periodStart periodEnd : Time)
    (c : CompanyQuestionnaire) : Bool :=
  c.companyID == companyID && c.questionnaireID == questionnaireID && c.isActive == true
    && (decide (c.periodStart ≤ periodEnd) && decide (c.periodEnd ≥ periodStart))

/-- Go `CompanyQuestionnaireRepository.CheckDuplicate`. -/
def CompanyQuestionnaireRepository.CheckDuplicate (db : DB) (companyID questionnaireID : ObjectID)
    (periodStart periodEnd : Time) : Except String Bool :=
  .ok (decide ((db.companyQuestionnaires.filter
    (overlapFilter companyID questionnaireID periodStart periodEnd)).length > 0))

/-- Go `QuestionnaireRepository.GetByID`. -/
def QuestionnaireRepository.GetByID (db : DB) (id : ObjectID) : Except String Questionnaire :=
  match db.questionnaires.find? (fun q => q.id == id) with
  | some q => .ok q
  | none => .error "questionnaire not found"

/-- Go `UserMetadataRepository.GetByID`. -/
def UserMetadataRepository.GetByID (db : DB) (userID : String) : Except String UserMetadata :=
  match db.usersMetadata.find? (fun u => u.id == userID) with
  | some u => .ok u
  | none => .error "user metadata not found"

/-- Go `CompanyRepository.GetByID`. -/
def CompanyRepository.GetByID (db : DB) (id : ObjectID) : Except String Company :=
  match db.companies.find? (fun c => c.id == id) with
  | some c => .ok c
  | none => .error "company not found"

/-- Go `primitive.NewObjectID()`: take the next unused identifier. -/
def DB.newObjectID (db : DB) : ObjectID × DB :=
  (db.nextObjectID, { db with nextObjectID := db.nextObjectID + 1 })

/-! ## Assignment service (package `services`) -/

/-- The loop of `AssignToUsers` that checks every target user against the assigner's company. -/
def verifyTargets (db : DB) (assignerCompany : ObjectID) : List String → Except String Unit
  | [] => .ok ()
  | targetUserID :: rest =>
    match UserMetadataRepository.GetByID db targetUserID with
    | .error e => .error ("user metadata not found for user " ++ targetUserID ++ ": " ++ e)
    | .ok targetMeta =>
      if targetMeta.companyID != assignerCompany then
        .error ("unauthorized: cannot assign to user " ++ targetUserID ++ " outside your company")
      else verifyTargets db assignerCompany rest

/-- The creation loop of `AssignToUsers`; `acc` is the slice `assignments` built so far. -/
def createAssignments (assignedBy : String) (cqID : ObjectID) (now : Time) :
    List String → DB → List UserQuestionnaireAssignment →
      Except String (List UserQuestionnaireAssignment) × DB
  | [], db, acc => (.ok acc, db)
  | userID :: rest, db, acc =>
    match AssignmentRepository.CheckDuplicate db userID cqID with
    | .error e => (.error ("failed to check duplicate for user " ++ userID ++ ": " ++ e), db)
    | .ok isDuplicate =>
      if isDuplicate then createAssignments assignedBy cqID now rest db acc
      else
        let fresh := db.newObjectID
        let assignment := NewUserQuestionnaireAssignment fresh.1 cqID userID assignedBy now
        match AssignmentRepository.Create fresh.2 assignment with
        | (.error e, db1) =>
          (.error ("failed to create assignment for user " ++ userID ++ ": " ++ e), db1)
        | (.ok _, db1) => createAssignments assignedBy cqID now rest db1 (acc ++ [assignment])

/-- The authorization block of `AssignToUsers` (lines 66-90). -/
def authorizeAssigner (db : DB) (assignedBy : String) (cq : CompanyQuestionnaire)
    (userIDs : List String) (isSuperAdmin : Bool) : Except String Unit :=
  if !isSuperAdmin then
    match UserMetadataRepository.GetByID db assignedBy with
    | .error e => .error ("assigner metadata not found: " ++ e)
    | .ok assignerMeta =>
      if cq.companyID != assignerMeta.companyID then
        .error "unauthorized: company questionnaire not in your company"
      else verifyTargets db assignerMeta.companyID userIDs
  else .ok ()

/-- Go `AssignmentService.AssignToUsers`. -/
def AssignmentService.AssignToUsers (db : DB) (assignedBy : String)
    (companyQuestionnaireID : ObjectID) (userIDs : List String) (isSuperAdmin : Bool)
    (now : Time) : Except String (List UserQuestionnaireAssignment) × DB :=
  if userIDs.length = 0 then (.error "user IDs list cannot be empty", db)
  else
    match CompanyQuestionnaireRepository.GetByID db companyQuestionnaireID with
    | .error e => (.error ("company questionnaire not found: " ++ e), db)
    | .ok cq =>
      if !cq.isActive then (.error "company questionnaire is not active", db)
      else
        match QuestionnaireRepository.GetByID db cq.questionnaireID with
        | .error e => (.error ("questionnaire not found: " ++ e), db)
        | .ok questionnaire =>
          if questionnaire.questions.length = 0 then (.error "questionnaire has no questions", db)
          else
            match authorizeAssigner db assignedBy cq userIDs isSuperAdmin with
            | .error e => (.error e, db)
            | .ok _ =>
              match createAssignments assignedBy companyQuestionnaireID now userIDs db [] with
              | (.error e, db1) => (.error e, db1)
              | (.ok assignments, db1) =>
                if assignments.length = 0 then
                  (.error "no new assignments created (all users already assigned)", db1)
                else (.ok assignments, db1)

/-- Go `AssignmentService.GetCompanyQuestionnaireAssignments`. -/
def AssignmentService.GetCompanyQuestionnaireAssignments (db : DB) (cqID : ObjectID) :
    Except String (List UserQuestionnaireAssignment) :=
  AssignmentRepository.GetByCompanyQuestionnaireID db cqID

/-- Go `AssignmentService.SaveResponse`. -/
def AssignmentService.SaveResponse (db : DB) (assignmentID : ObjectID) (userID : String)
    (questionID : String) (responseValue : JsonValue) (now : Time) : Except String Unit × DB :=
  match AssignmentRepository.GetByID db assignmentID with
  | .error e => (.error e, db)
  | .ok assignment =>
    if assignment.userID != userID then
      (.error "unauthorized: assignment does not belong to user", db)
    else if assignment.status = .completed then
      (.error "cannot modify completed assignment", db)
    else
      match CompanyQuestionnaireRepository.GetByID db assignment.companyQuestionnaireID with
      | .error e => (.error e, db)
      | .ok cq =>
        if !cq.IsWithinPeriod now then (.error "questionnaire period has expired", db)
        else
          AssignmentRepository.AddOrUpdateResponse db assignmentID
            (NewResponse questionID responseValue now) now

/-- The first counting loop of `SubmitAssignment`. -/
def countRequired (questions : List Question) : Nat :=
  questions.foldl (fun requiredCount q => if q.isRequired then requiredCount + 1 else requiredCount) 0

/-- The second counting loop of `SubmitAssignment`: the inner loop stops at the first
required question carrying the response's id, so each response counts at most once. -/
def countAnsweredRequired (responses : List Response) (questions : List Question) : Nat :=
  responses.foldl
    (fun answeredRequired response =>
      if questions.any (fun q => q.questionID == response.questionID && q.isRequired)
      then answeredRequired + 1 else answeredRequired) 0

/-- Go `AssignmentService.SubmitAssignment`. -/
def AssignmentService.SubmitAssignment (db : DB) (assignmentID : ObjectID) (userID : String)
    (now : Time) : Except String Unit × DB :=
  match AssignmentRepository.GetByID db assignmentID with
  | .error e => (.error e, db)
  | .ok assignment =>
    if assignment.userID != userID then
      (.error "unauthorized: assignment does not belong to user", db)
    else if assignment.status = .completed then
      (.error "assignment already completed", db)
    else
      match CompanyQuestionnaireRepository.GetByID db assignment.companyQuestionnaireID with
      | .error e => (.error e, db)
      | .ok cq =>
        match QuestionnaireRepository.GetByID db cq.questionnaireID with
        | .error e => (.error e, db)
        | .ok questionnaire =>
          let requiredCount := countRequired questionnaire.questions
          let answeredRequired := countAnsweredRequired assignment.responses questionnaire.questions
          if answeredRequired < requiredCount then
            (.error ("not all required questions answered (" ++ toString answeredRequired ++ "/"
              ++ toString requiredCount ++ ")"), db)
          else AssignmentRepository.UpdateStatus db assignmentID .completed now

/-! ## Company service -/

/-- Go `CompanyService.AssignQuestionnaireToCompany`. -/
def CompanyService.AssignQuestionnaireToCompany (db : DB) (companyID questionnaireID : ObjectID)
    (assignedBy : String) (periodStart periodEnd : Time) (now : Time) :
    Except String CompanyQuestionnaire × DB :=
  match CompanyRepository.GetByID db companyID with
  | .error e => (.error ("company not found: " ++ e), db)
  | .ok _ =>
    match QuestionnaireRepository.GetByID db questionnaireID with
    | .error e => (.error ("questionnaire not found: " ++ e), db)
    | .ok questionnaire =>
      if !questionnaire.isActive then (.error "questionnaire is not active", db)
      else if questionnaire.questions.length = 0 then (.error "questionnaire has no questions", db)
      else if Time.After periodStart periodEnd || Time.Equal periodStart periodEnd then
        (.error "period start must be before period end", db)
      else
        match CompanyQuestionnaireRepository.CheckDuplicate db companyID questionnaireID
            periodStart periodEnd with
        | .error e => (.error ("failed to check duplicate: " ++ e), db)
        | .ok isDuplicate =>
          if isDuplicate then
            (.error "questionnaire already assigned to this company for overlapping period", db)
          else
            let fresh := db.newObjectID
            let cq := NewCompanyQuestionnaire fresh.1 companyID questionnaireID assignedBy
              periodStart periodEnd now
            match CompanyQuestionnaireRepository.Create fresh.2 cq with
            | (.error e, db1) => (.error ("failed to assign questionnaire: " ++ e), db1)
            | (.ok _, db1) => (.ok cq, db1)

/-- Go `CompanyService.UpdateCompanyQuestionnaire`. -/
def CompanyService.UpdateCompanyQuestionnaire (db : DB) (id : ObjectID)
    (periodStart periodEnd : Time) (isActive : Bool) : Except String Unit × DB :=
  match CompanyQuestionnaireRepository.GetByID db id with
  | .error e => (.error e, db)
  | .ok cq =>
    if !Time.IsZero periodStart && !Time.IsZero periodEnd then
      if Time.After periodStart periodEnd || Time.Equal periodStart periodEnd then
        (.error "period start must be before period end", db)
      else
        CompanyQuestionnaireRepository.Update db id
          { cq with periodStart := periodStart, periodEnd := periodEnd, isActive := isActive }
    else
      CompanyQuestionnaireRepository.Update db id { cq with isActive := isActive }

/-- Go `CompanyService.DeactivateCompanyQuestionnaire`. -/
def CompanyService.DeactivateCompanyQuestionnaire (db : DB) (id : ObjectID) :
    Except String Unit × DB :=
  CompanyQuestionnaireRepository.Deactivate db id

/-! ## Report service

The `float64` results are exact rationals here; counters of type `int` and `int64` are
natural numbers.  A Mongo sort on `assigned_at` descending is a stable insertion sort. -/

/-- Go `UserMetadataRepository.GetByCompanyID`. -/
def UserMetadataRepository.GetByCompanyID (db : DB) (companyID : ObjectID) :
    Except String (List UserMetadata) :=
  .ok (db.usersMetadata.filter (fun u => u.companyID == companyID))

/-- Go `UserMetadataRepository.CountByCompany`. -/
def UserMetadataRepository.CountByCompany (db : DB) (companyID : ObjectID) : Except String Nat :=
  .ok (db.usersMetadata.filter (fun u => u.companyID == companyID)).length

/-- Go `CompanyQuestionnaireRepository.GetByCompanyID`. -/
def CompanyQuestionnaireRepository.GetByCompanyID (db : DB) (companyID : ObjectID)
    (activeOnly : Bool) : Except String (List CompanyQuestionnaire) :=
  .ok ((db.companyQuestionnaires.filter
      (fun c => c.companyID == companyID && (if activeOnly then c.isActive == true else true))).insertionSort
    (fun a b => a.assignedAt ≥ b.assignedAt))

/-- Go `CompanyQuestionnaireRepository.GetActiveByCompanyAndPeriod`. -/
def CompanyQuestionnaireRepository.GetActiveByCompanyAndPeriod (db : DB) (companyID : ObjectID)
    (now : Time) : Except String (List CompanyQuestionnaire) :=
  .ok (db.companyQuestionnaires.filter
    (fun c => c.companyID == companyID && c.isActive == true &&
      decide (c.periodStart ≤ now) && decide (c.periodEnd ≥ now)))

/-- Go `AssignmentRepository.GetByUserID`. -/
def AssignmentRepository.GetByUserID (db : DB) (userID : String)
    (status : Option AssignmentStatus) : Except String (List UserQuestionnaireAssignment) :=
  .ok ((db.assignments.filter
      (fun a => a.userID == userID &&
        (match status with
         | some st => a.status == st
         | none => true))).insertionSort
    (fun a b => a.assignedAt ≥ b.assignedAt))

/-- The rows of the `$group` stage of `GetCompletionStats`: one row per status that occurs
among the matched documents, with the number of documents. -/
def statusGroups (docs : List UserQuestionnaireAssignment) : List (AssignmentStatus × Nat) :=
  [AssignmentStatus.pending, AssignmentStatus.inProgress, AssignmentStatus.completed].filterMap
    (fun st =>
      if (docs.filter (fun a => a.status == st)).length > 0 then
        some (st, (docs.filter (fun a => a.status == st)).length)
      else none)

/-- Go `AssignmentRepository.GetCompletionStats`; the map `stats` is a function on the
status keys, initialised to zero and overwritten by each row. -/
def AssignmentRepository.GetCompletionStats (db : DB) (cqID : ObjectID) :
    Except String (AssignmentStatus → Nat) :=
  .ok ((statusGroups (db.assignments.filter (fun a => a.companyQuestionnaireID == cqID))).foldl
    (fun stats row => fun st => if st = row.1 then row.2 else stats st) (fun _ => 0))

/-- A stored date in milliseconds, the resolution of BSON dates. -/
def bsonMillis (t : Time) : Int := t / 1000000

/-- Go `AssignmentRepository.GetAverageCompletionTime`: the mean of
`completed_at - started_at` over the completed assignments with both dates, in minutes. -/
def AssignmentRepository.GetAverageCompletionTime (db : DB) (cqID : ObjectID) :
    Except String ℚ :=
  let durations : List ℚ := (db.assignments.filter
      (fun a => a.companyQuestionnaireID == cqID && a.status == AssignmentStatus.completed)).filterMap
    (fun a =>
      match a.startedAt, a.completedAt with
      | some st, some ct => some ((bsonMillis ct - bsonMillis st : Int) : ℚ)
      | _, _ => none)
  if durations.length = 0 then .ok 0
  else .ok (durations.sum / (durations.length : ℚ) / (1000 * 60))

/-- Go `services.DepartmentCompletionStat`. -/
structure DepartmentCompletionStat where
  department : String
  completed : Nat
  total : Nat
  percentage : ℚ
deriving DecidableEq, Repr

/-- Go `services.CompletionMetrics`; the two period fields hold the instants that the Go code
renders as `2006-01-02` strings. -/
structure CompletionMetrics where
  companyQuestionnaireID : ObjectID
  questionnaireTitle : String
  companyName : String
  periodStart : Time
  periodEnd : Time
  totalEmployees : Nat
  assigned : Nat
  pending : Nat
  inProgress : Nat
  completed : Nat
  notStarted : Nat
  completionPercentage : ℚ
  avgTimeToComplete : ℚ
  completionByDepartment : List DepartmentCompletionStat
deriving DecidableEq, Repr

/-- The first loop of `getCompletionByDepartment`: the map from user id to department, as a
function that is the empty string where the Go map has no key. -/
def userDepartments (users : List UserMetadata) : String → String :=
  users.foldl
    (fun userDepts user =>
      if user.department != "" then
        fun id => if id = user.id then user.department else userDepts id
      else userDepts)
    (fun _ => "")

/-- The bucket name of an assignment in `getCompletionByDepartment`. -/
def bucketName (userDepts : String → String) (a : UserQuestionnaireAssignment) : String :=
  if userDepts a.userID = "" then "Unassigned" else userDepts a.userID

/-- The statements `deptStats[dept].Total++` and, for a completed assignment,
`deptStats[dept].Completed++`, applied to one entry of the map. -/
def bumpStat (dept : String) (isCompleted : Bool) (st : DepartmentCompletionStat) :
    DepartmentCompletionStat :=
  if st.department == dept then
    { st with total := st.total + 1,
              completed := if isCompleted then st.completed + 1 else st.completed }
  else st

/-- One iteration of the counting loop of `getCompletionByDepartment`; the map `deptStats`
is the list of its entries in insertion order, with one entry per key. -/
def countAssignment (userDepts : String → String) (deptStats : List DepartmentCompletionStat)
    (a : UserQuestionnaireAssignment) : List DepartmentCompletionStat :=
  let dept := bucketName userDepts a
  let withEntry :=
    if deptStats.any (fun st => st.department == dept) then deptStats
    else deptStats ++ [{ department := dept, completed := 0, total := 0, percentage := 0 }]
  withEntry.map (bumpStat dept (a.status == AssignmentStatus.completed))

/-- The percentage step of `getCompletionByDepartment`. -/
def withPercentage (st : DepartmentCompletionStat) : DepartmentCompletionStat :=
  if st.total > 0 then { st with percentage := (st.completed : ℚ) / (st.total : ℚ) * 100 }
  else st

/-- Go `ReportService.getCompletionByDepartment`. -/
def ReportService.getCompletionByDepartment (db : DB) (companyID : ObjectID)
    (assignments : List UserQuestionnaireAssignment) :
    Except String (List DepartmentCompletionStat) :=
  match UserMetadataRepository.GetByCompanyID db companyID with
  | .error e => .error e
  | .ok users =>
    .ok ((assignments.foldl (countAssignment (userDepartments users)) []).map withPercentage)

/-- The authorization block that opens `GetCompanyOverview` and `GetEmployeeProgress` and
follows the binding lookup in `GetCompletionMetrics`, with the target company as argument. -/
def authorizeReport (db : DB) (companyID : ObjectID) (userID : String) (isSuperAdmin : Bool) :
    Except String Unit :=
  if !isSuperAdmin then
    match UserMetadataRepository.GetByID db userID with
    | .error e => .error ("user metadata not found: " ++ e)
    | .ok userMeta =>
      if companyID != userMeta.companyID then
        .error "unauthorized: cannot access reports from other companies"
      else .ok ()
  else .ok ()

/-- Go `ReportService.GetCompletionMetrics`. -/
def ReportService.GetCompletionMetrics (db : DB) (companyQuestionnaireID : ObjectID)
    (userID : String) (isSuperAdmin : Bool) : Except String CompletionMetrics :=
  match CompanyQuestionnaireRepository.GetByID db companyQuestionnaireID with
  | .error e => .error ("company questionnaire not found: " ++ e)
  | .ok cq =>
    match authorizeReport db cq.companyID userID isSuperAdmin with
    | .error e => .error e
    | .ok _ =>
      match CompanyRepository.GetByID db cq.companyID with
      | .error e => .error ("company not found: " ++ e)
      | .ok company =>
        match QuestionnaireRepository.GetByID db cq.questionnaireID with
        | .error e => .error ("questionnaire not found: " ++ e)
        | .ok questionnaire =>
          match UserMetadataRepository.CountByCompany db cq.companyID with
          | .error e => .error ("failed to count employees: " ++ e)
          | .ok totalEmployees =>
            match AssignmentRepository.GetByCompanyQuestionnaireID db companyQuestionnaireID with
            | .error e => .error ("failed to get assignments: " ++ e)
            | .ok assignments =>
              match AssignmentRepository.GetCompletionStats db companyQuestionnaireID with
              | .error e => .error ("failed to get completion stats: " ++ e)
              | .ok stats =>
                match AssignmentRepository.GetAverageCompletionTime db
                    companyQuestionnaireID with
                | .error e => .error ("failed to get average completion time: " ++ e)
                | .ok avgTime =>
                  let assigned := assignments.length
                  let pending := stats AssignmentStatus.pending
                  let inProgress := stats AssignmentStatus.inProgress
                  let completed := stats AssignmentStatus.completed
                  let notStarted := pending
                  let completionPercentage : ℚ :=
                    if assigned > 0 then (completed : ℚ) / (assigned : ℚ) * 100 else 0
                  let metrics : CompletionMetrics :=
                    { companyQuestionnaireID := companyQuestionnaireID,
                      questionnaireTitle := questionnaire.title,
                      companyName := company.name,
                      periodStart := cq.periodStart,
                      periodEnd := cq.periodEnd,
                      totalEmployees := totalEmployees,
                      assigned := assigned,
                      pending := pending,
                      inProgress := inProgress,
                      completed := completed,
                      notStarted := notStarted,
                      completionPercentage := completionPercentage,
                      avgTimeToComplete := avgTime,
                      completionByDepartment := [] }
                  match ReportService.getCompletionByDepartment db cq.companyID assignments with
                  | .ok deptStats => .ok { metrics with completionByDepartment := deptStats }
                  | .error _ => .ok metrics

/-- Go `services.QuestionnaireBreakdownStat`. -/
structure QuestionnaireBreakdownStat where
  questionnaireID : ObjectID
  questionnaireTitle : String
  assigned : Nat
  completed : Nat
  completionPercentage : ℚ
deriving DecidableEq, Repr

/-- Go `services.CompanyOverview`. -/
structure CompanyOverview where
  companyID : ObjectID
  companyName : String
  totalEmployees : Nat
  totalQuestionnaires : Nat
  activeQuestionnaires : Nat
  totalAssignments : Nat
  completedAssignments : Nat
  overallCompletion : ℚ
  questionnaireBreakdown : List QuestionnaireBreakdownStat
deriving DecidableEq, Repr

/-- The variables `breakdown`, `totalAssignments` and `totalCompleted` of the second loop of
`GetCompanyOverview`. -/
structure OverviewAcc where
  breakdown : List QuestionnaireBreakdownStat
  totalAssignments : Nat
  totalCompleted : Nat
deriving DecidableEq, Repr

/-- The counting loop `for _, a := range assignments` over completed assignments. -/
def countCompleted (assignments : List UserQuestionnaireAssignment) : Nat :=
  assignments.foldl
    (fun completed a => if a.status = AssignmentStatus.completed then completed + 1 else completed) 0

/-- One iteration of the second loop of `GetCompanyOverview`; a failed lookup is the
`continue` of the Go code. -/
def overviewStep (db : DB) (acc : OverviewAcc) (cq : CompanyQuestionnaire) : OverviewAcc :=
  match QuestionnaireRepository.GetByID db cq.questionnaireID with
  | .error _ => acc
  | .ok questionnaire =>
    match AssignmentRepository.GetByCompanyQuestionnaireID db cq.id with
    | .error _ => acc
    | .ok assignments =>
      let completed := countCompleted assignments
      let assigned := assignments.length
      let completionPct : ℚ :=
        if assigned > 0 then (completed : ℚ) / (assigned : ℚ) * 100 else 0
      { breakdown := acc.breakdown ++
          [{ questionnaireID := cq.questionnaireID,
             questionnaireTitle := questionnaire.title,
             assigned := assigned,
             completed := completed,
             completionPercentage := completionPct }],
        totalAssignments := acc.totalAssignments + assigned,
        totalCompleted := acc.totalCompleted + completed }

/-- Go `ReportService.GetCompanyOverview`. -/
def ReportService.GetCompanyOverview (db : DB) (companyID : ObjectID) (userID : String)
    (isSuperAdmin : Bool) : Except String CompanyOverview :=
  match authorizeReport db companyID userID isSuperAdmin with
  | .error e => .error e
  | .ok _ =>
    match CompanyRepository.GetByID db companyID with
    | .error e => .error ("company not found: " ++ e)
    | .ok company =>
      match UserMetadataRepository.CountByCompany db companyID with
      | .error e => .error ("failed to count employees: " ++ e)
      | .ok totalEmployees =>
        match CompanyQuestionnaireRepository.GetByCompanyID db companyID false with
        | .error e => .error ("failed to get company questionnaires: " ++ e)
        | .ok companyQuestionnaires =>
          let activeCount := companyQuestionnaires.foldl
            (fun activeCount cq => if cq.isActive then activeCount + 1 else activeCount) 0
          let acc := companyQuestionnaires.foldl (overviewStep db)
            { breakdown := [], totalAssignments := 0, totalCompleted := 0 }
          let overallCompletion : ℚ :=
            if acc.totalAssignments > 0 then
              (acc.totalCompleted : ℚ) / (acc.totalAssignments : ℚ) * 100
            else 0
          .ok { companyID := companyID,
                companyName := company.name,
                totalEmployees := totalEmployees,
                totalQuestionnaires := companyQuestionnaires.length,
                activeQuestionnaires := activeCount,
                totalAssignments := acc.totalAssignments,
                completedAssignments := acc.totalCompleted,
                overallCompletion := overallCompletion,
                questionnaireBreakdown := acc.breakdown }

/-- One entry of the result of `GetEmployeeProgress` (a map with these seven keys). -/
structure EmployeeProgress where
  userID : String
  department : String
  totalAssigned : Nat
  completed : Nat
  inProgress : Nat
  pending : Nat
  completionRate : ℚ
deriving DecidableEq, Repr

/-- The body of the employee loop of `GetEmployeeProgress` for one employee. -/
def employeeProgress (db : DB) (employee : UserMetadata) : Option EmployeeProgress :=
  match AssignmentRepository.GetByUserID db employee.id none with
  | .error _ => none
  | .ok assignments =>
    let totalAssignments := assignments.length
    let counts := assignments.foldl
      (fun (c : Nat × Nat × Nat) a =>
        match a.status with
        | .completed => (c.1 + 1, c.2.1, c.2.2)
        | .inProgress => (c.1, c.2.1 + 1, c.2.2)
        | .pending => (c.1, c.2.1, c.2.2 + 1)) (0, 0, 0)
    let completionRate : ℚ :=
      if totalAssignments > 0 then (counts.1 : ℚ) / (totalAssignments : ℚ) * 100 else 0
    some { userID := employee.id,
           department := employee.department,
           totalAssigned := totalAssignments,
           completed := counts.1,
           inProgress := counts.2.1,
           pending := counts.2.2,
           completionRate := completionRate }

/-- Go `ReportService.GetEmployeeProgress`. -/
def ReportService.GetEmployeeProgress (db : DB) (companyID : ObjectID) (userID : String)
    (isSuperAdmin : Bool) : Except String (List EmployeeProgress) :=
  match authorizeReport db companyID userID isSuperAdmin with
  | .error e => .error e
  | .ok _ =>
    match UserMetadataRepository.GetByCompanyID db companyID with
    | .error e => .error ("failed to get employees: " ++ e)
    | .ok employees => .ok (employees.filterMap (employeeProgress db))

/-! ## User metadata service and the remaining service operations -/

/-- Mongo `DeleteOne`: remove the first document satisfying the filter `p`; the second
component is `DeletedCount`. -/
def deleteOne {α : Type} (p : α → Bool) : List α → List α × Nat
  | [] => ([], 0)
  | x :: xs =>
    if p x then (xs, 1)
    else ((x :: (deleteOne p xs).1), (deleteOne p xs).2)

/-- Go `models.NewUserMetadata`. -/
def NewUserMetadata (userID : String) (companyID : ObjectID) : UserMetadata :=
  { id := userID, companyID := companyID, supervisorID := none, department := "" }

/-- Go `UserMetadata.SetSupervisor`. -/
def UserMetadata.SetSupervisor (m : UserMetadata) (supervisorID : String) : UserMetadata :=
  { m with supervisorID := some supervisorID }

/-- Go `UserMetadata.SetDepartment`. -/
def UserMetadata.SetDepartment (m : UserMetadata) (department : String) : UserMetadata :=
  { m with department := department }

/-- Go `UserMetadataRepository.Create`; the insert omits an empty `supervisor_id`.  The
service calls it only after `Exists` has answered false for the id. -/
def UserMetadataRepository.Create (db : DB) (metadata : UserMetadata) : Except String Unit × DB :=
  (.ok (), { db with usersMetadata := db.usersMetadata ++
    [{ metadata with
       supervisorID := if metadata.SupervisorID = "" then none else some metadata.SupervisorID }] })

/-- Go `UserMetadataRepository.Exists`. -/
def UserMetadataRepository.Exists (db : DB) (userID : String) : Except String Bool :=
  .ok (decide ((db.usersMetadata.filter (fun u => u.id == userID)).length > 0))

/-- Go `UserMetadataRepository.GetBySupervisorID`. -/
def UserMetadataRepository.GetBySupervisorID (db : DB) (supervisorID : String) :
    Except String (List UserMetadata) :=
  .ok (db.usersMetadata.filter (fun u => u.supervisorID == some supervisorID))

/-- Go `UserMetadataRepository.Update`. -/
def UserMetadataRepository.Update (db : DB) (userID : String) (metadata : UserMetadata) :
    Except String Unit × DB :=
  let result := updateOne (fun u => u.id == userID)
    (fun u => { u with companyID := metadata.companyID,
                       supervisorID := some metadata.SupervisorID,
                       department := metadata.department })
    db.usersMetadata
  if result.2 = 0 then (.error "user metadata not found", db)
  else (.ok (), { db with usersMetadata := result.1 })

/-- Go `UserMetadataRepository.UpdateSupervisor`. -/
def UserMetadataRepository.UpdateSupervisor (db : DB) (userID supervisorID : String) :
    Except String Unit × DB :=
  let result := updateOne (fun u => u.id == userID)
    (fun u => { u with supervisorID := some supervisorID }) db.usersMetadata
  if result.2 = 0 then (.error "user metadata not found", db)
  else (.ok (), { db with usersMetadata := result.1 })

/-- Go `UserMetadataRepository.Delete`. -/
def UserMetadataRepository.Delete (db : DB) (userID : String) : Except String Unit × DB :=
  let result := deleteOne (fun u => u.id == userID) db.usersMetadata
  if result.2 = 0 then (.error "user metadata not found", db)
  else (.ok (), { db with usersMetadata := result.1 })

/-- Go `UserMetadataService.CreateUserMetadata`. -/
def UserMetadataService.CreateUserMetadata (db : DB) (userID : String) (companyID : ObjectID)
    (supervisorID department : String) : Except String UserMetadata × DB :=
  if userID = "" then (.error "user ID is required", db)
  else
    match UserMetadataRepository.Exists db userID with
    | .error e => (.error ("failed to check metadata existence: " ++ e), db)
    | .ok exists_ =>
      if exists_ then (.error "user metadata already exists", db)
      else
        match CompanyRepository.GetByID db companyID with
        | .error e => (.error ("company not found: " ++ e), db)
        | .ok _ =>
          let supervisorCheck : Except String Unit :=
            if supervisorID != "" then
              match UserMetadataRepository.Exists db supervisorID with
              | .error e => .error ("failed to check supervisor existence: " ++ e)
              | .ok supervisorExists =>
                if !supervisorExists then .error "supervisor not found" else .ok ()
            else .ok ()
          match supervisorCheck with
          | .error e => (.error e, db)
          | .ok _ =>
            let metadata0 := NewUserMetadata userID companyID
            let metadata1 :=
              if supervisorID != "" then metadata0.SetSupervisor supervisorID else metadata0
            let metadata :=
              if department != "" then metadata1.SetDepartment department else metadata1
            match UserMetadataRepository.Create db metadata with
            | (.error e, db1) => (.error ("failed to create user metadata: " ++ e), db1)
            | (.ok _, db1) => (.ok metadata, db1)

/-- Go `UserMetadataService.UpdateUserMetadata`; the nil object id is `0`. -/
def UserMetadataService.UpdateUserMetadata (db : DB) (userID : String) (companyID : ObjectID)
    (supervisorID department : String) : Except String Unit × DB :=
  match UserMetadataRepository.GetByID db userID with
  | .error e => (.error e, db)
  | .ok metadata0 =>
    let companyStep : Except String UserMetadata :=
      if companyID != 0 && companyID != metadata0.companyID then
        match CompanyRepository.GetByID db companyID with
        | .error e => .error ("company not found: " ++ e)
        | .ok _ => .ok { metadata0 with companyID := companyID }
      else .ok metadata0
    match companyStep with
    | .error e => (.error e, db)
    | .ok metadata1 =>
      let supervisorStep : Except String UserMetadata :=
        if supervisorID != "" && supervisorID != metadata1.SupervisorID then
          match UserMetadataRepository.Exists db supervisorID with
          | .error e => .error ("failed to check supervisor existence: " ++ e)
          | .ok supervisorExists =>
            if !supervisorExists then .error "supervisor not found"
            else .ok (metadata1.SetSupervisor supervisorID)
        else .ok metadata1
      match supervisorStep with
      | .error e => (.error e, db)
      | .ok metadata2 =>
        let metadata :=
          if department != "" then metadata2.SetDepartment department else metadata2
        UserMetadataRepository.Update db userID metadata

/-- Go `UserMetadataService.DeleteUserMetadata`. -/
def UserMetadataService.DeleteUserMetadata (db : DB) (userID : String) :
    Except String Unit × DB :=
  match UserMetadataRepository.GetBySupervisorID db userID with
  | .error e => (.error ("failed to check supervised users: " ++ e), db)
  | .ok supervisedUsers =>
    if supervisedUsers.length > 0 then
      (.error "cannot delete user who supervises other users", db)
    else UserMetadataRepository.Delete db userID

/-- Go `UserMetadataService.AssignSupervisor`. -/
def UserMetadataService.AssignSupervisor (db : DB) (userID supervisorID : String) :
    Except String Unit × DB :=
  let validation : Except String Unit :=
    if supervisorID != "" then
      match UserMetadataRepository.Exists db supervisorID with
      | .error e => .error ("failed to check supervisor existence: " ++ e)
      | .ok supervisorExists =>
        if !supervisorExists then .error "supervisor not found"
        else if userID = supervisorID then .error "user cannot supervise themselves"
        else .ok ()
    else .ok ()
  match validation with
  | .error e => (.error e, db)
  | .ok _ => UserMetadataRepository.UpdateSupervisor db userID supervisorID

/-- Go `models.NewCompany`; `id` is the fresh `primitive.NewObjectID()`. -/
def NewCompany (id : ObjectID) (name : String) : Company := { id := id, name := name }

/-- Go `CompanyRepository.Create`. -/
def CompanyRepository.Create (db : DB) (company : Company) : Except String Unit × DB :=
  (.ok (), { db with companies := db.companies ++ [company] })

/-- Go `CompanyRepository.Update`. -/
def CompanyRepository.Update (db : DB) (id : ObjectID) (company : Company) :
    Except String Unit × DB :=
  let result := updateOne (fun c => c.id == id) (fun c => { c with name := company.name })
    db.companies
  if result.2 = 0 then (.error "company not found", db)
  else (.ok (), { db with companies := result.1 })

/-- Go `CompanyService.CreateCompany`; `len(name)` is the length in bytes. -/
def CompanyService.CreateCompany (db : DB) (name : String) : Except String Company × DB :=
  if name = "" then (.error "company name is required", db)
  else if name.utf8ByteSize < 3 then (.error "company name must be at least 3 characters", db)
  else
    let fresh := db.newObjectID
    let company := NewCompany fresh.1 name
    match CompanyRepository.Create fresh.2 company with
    | (.error e, db1) => (.error ("failed to create company: " ++ e), db1)
    | (.ok _, db1) => (.ok company, db1)

/-- Go `CompanyService.UpdateCompany`. -/
def CompanyService.UpdateCompany (db : DB) (id : ObjectID) (name : String) :
    Except String Unit × DB :=
  match CompanyRepository.GetByID db id with
  | .error e => (.error e, db)
  | .ok company0 =>
    let company := if name != "" then { company0 with name := name } else company0
    CompanyRepository.Update db id company

/-- Go `AssignmentRepository.Delete`. -/
def AssignmentRepository.Delete (db : DB) (id : ObjectID) : Except String Unit × DB :=
  let result := deleteOne (fun a => a.id == id) db.assignments
  if result.2 = 0 then (.error "assignment not found", db)
  else (.ok (), { db with assignments := result.1 })

/-- Go `AssignmentService.GetAssignmentByID`. -/
def AssignmentService.GetAssignmentByID (db : DB) (id : ObjectID) :
    Except String UserQuestionnaireAssignment :=
  AssignmentRepository.GetByID db id

/-- Go `AssignmentService.GetUserAssignments`. -/
def AssignmentService.GetUserAssignments (db : DB) (userID : String)
    (status : Option AssignmentStatus) : Except String (List UserQuestionnaireAssignment) :=
  AssignmentRepository.GetByUserID db userID status

/-- Go `AssignmentService.DeleteAssignment`. -/
def AssignmentService.DeleteAssignment (db : DB) (assignmentID : ObjectID) :
    Except String Unit × DB :=
  AssignmentRepository.Delete db assignmentID

/-- Go `AssignmentService.GetMyTeamAssignments`; a failed lookup for one user is the
`continue` of the loop. -/
def AssignmentService.GetMyTeamAssignments (db : DB) (supervisorID : String) :
    Except String (List UserQuestionnaireAssignment) :=
  match UserMetadataRepository.GetBySupervisorID db supervisorID with
  | .error e => .error e
  | .ok users =>
    if users.length = 0 then .ok []
    else
      .ok (users.foldl
        (fun allAssignments user =>
          match AssignmentRepository.GetByUserID db user.id none with
          | .error _ => allAssignments
          | .ok assignments => allAssignments ++ assignments) [])

/-- Go `AssignmentService.GetMyCompanyQuestionnaires`. -/
def AssignmentService.GetMyCompanyQuestionnaires (db : DB) (userID : String) :
    Except String (List CompanyQuestionnaire) :=
  match UserMetadataRepository.GetByID db userID with
  | .error e => .error ("user metadata not found: " ++ e)
  | .ok userMeta => CompanyQuestionnaireRepository.GetByCompanyID db userMeta.companyID true

/-! ## Transport layer (packages `middleware`, `utils`, `handlers` and the routes of `main`) -/

/-- The verified identity placed in the request context by the JWT middleware. -/
structure JWTClaims where
  sub : String
  roles : List String
deriving DecidableEq, Repr

/-- The check of Go `middleware.RequireRole`: the user holds one of the required roles. -/
def RequireRole (roles : List String) (claims : JWTClaims) : Bool :=
  roles.any (fun requiredRole => claims.roles.any (fun userRole => userRole == requiredRole))

/-- Go `middleware.RequireCompanyAdmin`. -/
def RequireCompanyAdmin (claims : JWTClaims) : Bool :=
  RequireRole ["super_admin", "company_admin"] claims

/-- Go `middleware.RequireSupervisor`. -/
def RequireSupervisor (claims : JWTClaims) : Bool :=
  RequireRole ["super_admin", "company_admin", "supervisor"] claims

/-- An HTTP answer: the `SuccessResponse` or the `ErrorResponse` envelope of `utils`. -/
inductive HTTPResponse (α : Type) where
  | success (code : Nat) (data : α) (message : String)
  | failure (code : Nat) (message : String)
deriving DecidableEq, Repr

/-- Go `utils.containsHelper`; strings are compared character by character, which for
valid UTF-8 finds the same substrings as the byte-wise loop. -/
def containsHelper (s substr : List Char) : Bool :=
  (List.range (s.length - substr.length + 1)).any
    (fun i => (s.drop i).take substr.length == substr)

/-- Go `utils.contains`. -/
def contains (s substr : String) : Bool :=
  decide (s.length ≥ substr.length) &&
    (s == substr || (decide (s.length > substr.length) && containsHelper s.data substr.data))

/-- Go `utils.HandleRepositoryError` for a non-nil error with message `errMsg`. -/
def HandleRepositoryError {α : Type} (errMsg : String) : HTTPResponse α :=
  if contains errMsg "not found" then .failure 404 errMsg
  else if contains errMsg "duplicate" || contains errMsg "already exists" then .failure 409 errMsg
  else if contains errMsg "unauthorized" then .failure 403 errMsg
  else if contains errMsg "invalid" || contains errMsg "validation" then .failure 422 errMsg
  else .failure 500 "An error occurred while processing your request"

/-- Go `AssignmentHandler.GetAssignmentsByCompanyQuestionnaire`, after the path parameter
has been validated as an object id. -/
def AssignmentHandler.GetAssignmentsByCompanyQuestionnaire (db : DB) (_claims : JWTClaims)
    (cqID : ObjectID) : HTTPResponse (List UserQuestionnaireAssignment) :=
  match AssignmentService.GetCompanyQuestionnaireAssignments db cqID with
  | .error e => HandleRepositoryError e
  | .ok assignments => .success 200 assignments ""

/-- The route `GET /api/v1/company-questionnaires/{cq_id}/assignments` of `main`: the
supervisor gate followed by the handler. -/
def routeGetAssignmentsByCompanyQuestionnaire (db : DB) (claims : JWTClaims) (cqID : ObjectID) :
    HTTPResponse (List UserQuestionnaireAssignment) :=
  if !RequireSupervisor claims then .failure 403 "Forbidden: insufficient permissions"
  else AssignmentHandler.GetAssignmentsByCompanyQuestionnaire db claims cqID

/-- Go `CompanyHandler.UpdateCompanyQuestionnaire`, after parsing: an absent date is the zero
time and an absent `is_active` is `none`. -/
def CompanyHandler.UpdateCompanyQuestionnaire (db : DB) (_claims : JWTClaims) (id : ObjectID)
    (periodStart periodEnd : Time) (reqIsActive : Option Bool) : HTTPResponse Unit × DB :=
  let isActive := match reqIsActive with
    | some b => b
    | none => true
  match CompanyService.UpdateCompanyQuestionnaire db id periodStart periodEnd isActive with
  | (.error e, db1) => (HandleRepositoryError e, db1)
  | (.ok _, db1) => (.success 200 () "Company questionnaire updated successfully", db1)

/-- The route `PUT /api/v1/company-questionnaires/{id}` of `main`: the company-admin gate
followed by the handler. -/
def routeUpdateCompanyQuestionnaire (db : DB) (claims : JWTClaims) (id : ObjectID)
    (periodStart periodEnd : Time) (reqIsActive : Option Bool) : HTTPResponse Unit × DB :=
  if !RequireCompanyAdmin claims then (.failure 403 "Forbidden: insufficient permissions", db)
  else CompanyHandler.UpdateCompanyQuestionnaire db claims id periodStart periodEnd reqIsActive

/-- Go `middleware.RequireSuperAdmin`. -/
def RequireSuperAdmin (claims : JWTClaims) : Bool :=
  RequireRole ["super_admin"] claims

/-- Go `middleware.RequireEmployee`. -/
def RequireEmployee (claims : JWTClaims) : Bool :=
  RequireRole ["super_admin", "company_admin", "supervisor", "employee"] claims

/-- Go `middleware.HasAnyRole` for a context that carries `claims`: the nested loops return
true at the first required role held by the user. -/
def HasAnyRole (claims : JWTClaims) (roles : List String) : Bool :=
  roles.any (fun requiredRole => claims.roles.any (fun userRole => userRole == requiredRole))

/-- Go `middleware.IsSupervisor`. -/
def IsSupervisor (claims : JWTClaims) : Bool :=
  HasAnyRole claims ["super_admin", "company_admin", "supervisor"]

/-- Go `CompanyHandler.AssignQuestionnaireToCompany`, after the ids and the two dates have
been parsed. -/
def CompanyHandler.AssignQuestionnaireToCompany (db : DB) (claims : JWTClaims)
    (companyID questionnaireID : ObjectID) (periodStart periodEnd now : Time) :
    HTTPResponse CompanyQuestionnaire × DB :=
  match CompanyService.AssignQuestionnaireToCompany db companyID questionnaireID claims.sub
      periodStart periodEnd now with
  | (.error e, db1) => (HandleRepositoryError e, db1)
  | (.ok cq, db1) =>
    (.success 201 cq "Questionnaire assigned to company successfully", db1)

/-! ## The services over fallible repositories

A service holds pointers to its repositories and sees of each call only what the call
returns.  Here a repository is a record of methods over an arbitrary store `σ`; every
method returns a result or an error together with the store after the call, so that any
call can fail (a lost connection, a failed decode), whatever the store holds.  The
operations of the assignment and report services are translated once more against these
records.  With the repositories of the storage model above they are the operations defined
before. -/

namespace Fallible

/-- The methods of Go `repository.AssignmentRepository` called by the services. -/
structure AssignmentRepository (σ : Type) where
  GetByID : σ → ObjectID → Except String UserQuestionnaireAssignment × σ
  GetByUserID : σ → String → Option AssignmentStatus →
    Except String (List UserQuestionnaireAssignment) × σ
  GetByCompanyQuestionnaireID : σ → ObjectID →
    Except String (List UserQuestionnaireAssignment) × σ
  Create : σ → UserQuestionnaireAssignment → Except String Unit × σ
  CheckDuplicate : σ → String → ObjectID → Except String Bool × σ
  UpdateStatus : σ → ObjectID → AssignmentStatus → Time → Except String Unit × σ
  AddOrUpdateResponse : σ → ObjectID → Response → Time → Except String Unit × σ
  Delete : σ → ObjectID → Except String Unit × σ
  GetCompletionStats : σ → ObjectID → Except String (AssignmentStatus → Nat) × σ
  GetAverageCompletionTime : σ → ObjectID → Except String ℚ × σ

/-- The methods of Go `repository.CompanyQuestionnaireRepository` called by the services. -/
structure CompanyQuestionnaireRepository (σ : Type) where
  GetByID : σ → ObjectID → Except String CompanyQuestionnaire × σ
  GetByCompanyID : σ → ObjectID → Bool → Except String (List CompanyQuestionnaire) × σ

/-- The methods of Go `repository.UserMetadataRepository` called by the services. -/
structure UserMetadataRepository (σ : Type) where
  GetByID : σ → String → Except String UserMetadata × σ
  GetByCompanyID : σ → ObjectID → Except String (List UserMetadata) × σ
  GetBySupervisorID : σ → String → Except String (List UserMetadata) × σ
  CountByCompany : σ → ObjectID → Except String Nat × σ

/-- The method of Go `repository.QuestionnaireRepository` called by the services. -/
structure QuestionnaireRepository (σ : Type) where
  GetByID : σ → ObjectID → Except String Questionnaire × σ

/-- The method of Go `repository.CompanyRepository` called by the services. -/
structure CompanyRepository (σ : Type) where
  GetByID : σ → ObjectID → Except String Company × σ

/-- Go struct `services.AssignmentService`, with the source of fresh object ids
(`primitive.NewObjectID`) used by `models.NewUserQuestionnaireAssignment`. -/
structure AssignmentService (σ : Type) where
  assignmentRepo : AssignmentRepository σ
  companyQuestionnaireRepo : CompanyQuestionnaireRepository σ
  userMetadataRepo : UserMetadataRepository σ
  questionnaireRepo : QuestionnaireRepository σ
  newObjectID : σ → ObjectID × σ

/-- Go struct `services.ReportService`. -/
structure ReportService (σ : Type) where
  assignmentRepo : AssignmentRepository σ
  companyQuestionnaireRepo : CompanyQuestionnaireRepository σ
  userMetadataRepo : UserMetadataRepository σ
  questionnaireRepo : QuestionnaireRepository σ
  companyRepo : CompanyRepository σ

/-- The loop of `AssignToUsers` that checks every target user against the assigner's
company. -/
def verifyTargets {σ : Type} (s : AssignmentService σ) (assignerCompany : ObjectID) :
    List String → σ → Except String Unit × σ
  | [], st => (.ok (), st)
  | targetUserID :: rest, st =>
    match s.userMetadataRepo.GetByID st targetUserID with
    | (.error e, st1) =>
      (.error ("user metadata not found for user " ++ targetUserID ++ ": " ++ e), st1)
    | (.ok targetMeta, st1) =>
      if targetMeta.companyID != assignerCompany then
        (.error ("unauthorized: cannot assign to user " ++ targetUserID ++
          " outside your company"), st1)
      else verifyTargets s assignerCompany rest st1

/-- The creation loop of `AssignToUsers`; `acc` is the slice `assignments` built so far. -/
def createAssignments {σ : Type} (s : AssignmentService σ) (assignedBy : String)
    (cqID : ObjectID) (now : Time) :
    List String → σ → List UserQuestionnaireAssignment →
      Except String (List UserQuestionnaireAssignment) × σ
  | [], st, acc => (.ok acc, st)
  | userID :: rest, st, acc =>
    match s.assignmentRepo.CheckDuplicate st userID cqID with
    | (.error e, st1) =>
      (.error ("failed to check duplicate for user " ++ userID ++ ": " ++ e), st1)
    | (.ok isDuplicate, st1) =>
      if isDuplicate then createAssignments s assignedBy cqID now rest st1 acc
      else
        match s.assignmentRepo.Create (s.newObjectID st1).2
            (NewUserQuestionnaireAssignment (s.newObjectID st1).1 cqID userID assignedBy now) with
        | (.error e, st2) =>
          (.error ("failed to create assignment for user " ++ userID ++ ": " ++ e), st2)
        | (.ok _, st2) =>
          createAssignments s assignedBy cqID now rest st2
            (acc ++ [NewUserQuestionnaireAssignment (s.newObjectID st1).1 cqID userID
              assignedBy now])

/-- The authorization block of `AssignToUsers` (lines 66-90). -/
def authorizeAssigner {σ : Type} (s : AssignmentService σ) (assignedBy : String)
    (cq : CompanyQuestionnaire) (userIDs : List String) (isSuperAdmin : Bool) (st : σ) :
    Except String Unit × σ :=
  if !isSuperAdmin then
    match s.userMetadataRepo.GetByID st assignedBy with
    | (.error e, st1) => (.error ("assigner metadata not found: " ++ e), st1)
    | (.ok assignerMeta, st1) =>
      if cq.companyID != assignerMeta.companyID then
        (.error "unauthorized: company questionnaire not in your company", st1)
      else verifyTargets s assignerMeta.companyID userIDs st1
  else (.ok (), st)

/-- Go `AssignmentService.AssignToUsers`. -/
def AssignmentService.AssignToUsers {σ : Type} (s : AssignmentService σ) (st : σ)
    (assignedBy : String) (companyQuestionnaireID : ObjectID) (userIDs : List String)
    (isSuperAdmin : Bool) (now : Time) :
    Except String (List UserQuestionnaireAssignment) × σ :=
  if userIDs.length = 0 then (.error "user IDs list cannot be empty", st)
  else
    match s.companyQuestionnaireRepo.GetByID st companyQuestionnaireID with
    | (.error e, st1) => (.error ("company questionnaire not found: " ++ e), st1)
    | (.ok cq, st1) =>
      if !cq.isActive then (.error "company questionnaire is not active", st1)
      else
        match s.questionnaireRepo.GetByID st1 cq.questionnaireID with
        | (.error e, st2) => (.error ("questionnaire not found: " ++ e), st2)
        | (.ok questionnaire, st2) =>
          if questionnaire.questions.length = 0 then
            (.error "questionnaire has no questions", st2)
          else
            match authorizeAssigner s assignedBy cq userIDs isSuperAdmin st2 with
            | (.error e, st3) => (.error e, st3)
            | (.ok _, st3) =>
              match createAssignments s assignedBy companyQuestionnaireID now userIDs st3 [] with
              | (.error e, st4) => (.error e, st4)
              | (.ok assignments, st4) =>
                if assignments.length = 0 then
                  (.error "no new assignments created (all users already assigned)", st4)
                else (.ok assignments, st4)

/-- Go `AssignmentService.GetAssignmentByID`. -/
def AssignmentService.GetAssignmentByID {σ : Type} (s : AssignmentService σ) (st : σ)
    (id : ObjectID) : Except String UserQuestionnaireAssignment × σ :=
  s.assignmentRepo.GetByID st id

/-- Go `AssignmentService.GetUserAssignments`. -/
def AssignmentService.GetUserAssignments {σ : Type} (s : AssignmentService σ) (st : σ)
    (userID : String) (status : Option AssignmentStatus) :
    Except String (List UserQuestionnaireAssignment) × σ :=
  s.assignmentRepo.GetByUserID st userID status

/-- Go `AssignmentService.GetCompanyQuestionnaireAssignments`. -/
def AssignmentService.GetCompanyQuestionnaireAssignments {σ : Type} (s : AssignmentService σ)
    (st : σ) (cqID : ObjectID) : Except String (List UserQuestionnaireAssignment) × σ :=
  s.assignmentRepo.GetByCompanyQuestionnaireID st cqID

/-- Go `AssignmentService.SaveResponse`. -/
def AssignmentService.SaveResponse {σ : Type} (s : AssignmentService σ) (st : σ)
    (assignmentID : ObjectID) (userID : String) (questionID : String)
    (responseValue : JsonValue) (now : Time) : Except String Unit × σ :=
  match s.assignmentRepo.GetByID st assignmentID with
  | (.error e, st1) => (.error e, st1)
  | (.ok assignment, st1) =>
    if assignment.userID != userID then
      (.error "unauthorized: assignment does not belong to user", st1)
    else if assignment.status = .completed then
      (.error "cannot modify completed assignment", st1)
    else
      match s.companyQuestionnaireRepo.GetByID st1 assignment.companyQuestionnaireID with
      | (.error e, st2) => (.error e, st2)
      | (.ok cq, st2) =>
        if !cq.IsWithinPeriod now then (.error "questionnaire period has expired", st2)
        else
          s.assignmentRepo.AddOrUpdateResponse st2 assignmentID
            (NewResponse questionID responseValue now) now

/-- Go `AssignmentService.SubmitAssignment`. -/
def AssignmentService.SubmitAssignment {σ : Type} (s : AssignmentService σ) (st : σ)
    (assignmentID : ObjectID) (userID : String) (now : Time) : Except String Unit × σ :=
  match s.assignmentRepo.GetByID st assignmentID with
  | (.error e, st1) => (.error e, st1)
  | (.ok assignment, st1) =>
    if assignment.userID != userID then
      (.error "unauthorized: assignment does not belong to user", st1)
    else if assignment.status = .completed then
      (.error "assignment already completed", st1)
    else
      match s.companyQuestionnaireRepo.GetByID st1 assignment.companyQuestionnaireID with
      | (.error e, st2) => (.error e, st2)
      | (.ok cq, st2) =>
        match s.questionnaireRepo.GetByID st2 cq.questionnaireID with
        | (.error e, st3) => (.error e, st3)
        | (.ok questionnaire, st3) =>
          if countAnsweredRequired assignment.responses questionnaire.questions <
              countRequired questionnaire.questions then
            (.error ("not all required questions answered (" ++
              toString (countAnsweredRequired assignment.responses questionnaire.questions)
              ++ "/" ++ toString (countRequired questionnaire.questions) ++ ")"), st3)
          else s.assignmentRepo.UpdateStatus st3 assignmentID .completed now

/-- Go `AssignmentService.DeleteAssignment`. -/
def AssignmentService.DeleteAssignment {σ : Type} (s : AssignmentService σ) (st : σ)
    (assignmentID : ObjectID) : Except String Unit × σ :=
  s.assignmentRepo.Delete st assignmentID

/-- One iteration of the loop of `GetMyTeamAssignments`; a failed lookup is the `continue`
of the Go code. -/
def teamStep {σ : Type} (s : AssignmentService σ)
    (p : List UserQuestionnaireAssignment × σ) (user : UserMetadata) :
    List UserQuestionnaireAssignment × σ :=
  match s.assignmentRepo.GetByUserID p.2 user.id none with
  | (.error _, st1) => (p.1, st1)
  | (.ok assignments, st1) => (p.1 ++ assignments, st1)

/-- Go `AssignmentService.GetMyTeamAssignments`. -/
def AssignmentService.GetMyTeamAssignments {σ : Type} (s : AssignmentService σ) (st : σ)
    (supervisorID : String) : Except String (List UserQuestionnaireAssignment) × σ :=
  match s.userMetadataRepo.GetBySupervisorID st supervisorID with
  | (.error e, st1) => (.error e, st1)
  | (.ok users, st1) =>
    if users.length = 0 then (.ok [], st1)
    else (.ok (users.foldl (teamStep s) ([], st1)).1, (users.foldl (teamStep s) ([], st1)).2)

/-- Go `AssignmentService.GetMyCompanyQuestionnaires`. -/
def AssignmentService.GetMyCompanyQuestionnaires {σ : Type} (s : AssignmentService σ)
    (st : σ) (userID : String) : Except String (List CompanyQuestionnaire) × σ :=
  match s.userMetadataRepo.GetByID st userID with
  | (.error e, st1) => (.error ("user metadata not found: " ++ e), st1)
  | (.ok userMeta, st1) => s.companyQuestionnaireRepo.GetByCompanyID st1 userMeta.companyID true

/-- The authorization block that opens `GetCompanyOverview` and `GetEmployeeProgress` and
follows the binding lookup in `GetCompletionMetrics`, with the target company as argument. -/
def authorizeReport {σ : Type} (s : ReportService σ) (companyID : ObjectID) (userID : String)
    (isSuperAdmin : Bool) (st : σ) : Except String Unit × σ :=
  if !isSuperAdmin then
    match s.userMetadataRepo.GetByID st userID with
    | (.error e, st1) => (.error ("user metadata not found: " ++ e), st1)
    | (.ok userMeta, st1) =>
      if companyID != userMeta.companyID then
        (.error "unauthorized: cannot access reports from other companies", st1)
      else (.ok (), st1)
  else (.ok (), st)

/-- Go `ReportService.getCompletionByDepartment`. -/
def ReportService.getCompletionByDepartment {σ : Type} (s : ReportService σ) (st : σ)
    (companyID : ObjectID) (assignments : List UserQuestionnaireAssignment) :
    Except String (List DepartmentCompletionStat) × σ :=
  match s.userMetadataRepo.GetByCompanyID st companyID with
  | (.error e, st1) => (.error e, st1)
  | (.ok users, st1) =>
    (.ok ((assignments.foldl (countAssignment (userDepartments users)) []).map withPercentage),
     st1)

/-- Go `ReportService.GetCompletionMetrics`. -/
def ReportService.GetCompletionMetrics {σ : Type} (s : ReportService σ) (st : σ)
    (companyQuestionnaireID : ObjectID) (userID : String) (isSuperAdmin : Bool) :
    Except String CompletionMetrics × σ :=
  match s.companyQuestionnaireRepo.GetByID st companyQuestionnaireID with
  | (.error e, st1) => (.error ("company questionnaire not found: " ++ e), st1)
  | (.ok cq, st1) =>
    match authorizeReport s cq.companyID userID isSuperAdmin st1 with
    | (.error e, st2) => (.error e, st2)
    | (.ok _, st2) =>
      match s.companyRepo.GetByID st2 cq.companyID with
      | (.error e, st3) => (.error ("company not found: " ++ e), st3)
      | (.ok company, st3) =>
        match s.questionnaireRepo.GetByID st3 cq.questionnaireID with
        | (.error e, st4) => (.error ("questionnaire not found: " ++ e), st4)
        | (.ok questionnaire, st4) =>
          match s.userMetadataRepo.CountByCompany st4 cq.companyID with
          | (.error e, st5) => (.error ("failed to count employees: " ++ e), st5)
          | (.ok totalEmployees, st5) =>
            match s.assignmentRepo.GetByCompanyQuestionnaireID st5 companyQuestionnaireID with
            | (.error e, st6) => (.error ("failed to get assignments: " ++ e), st6)
            | (.ok assignments, st6) =>
              match s.assignmentRepo.GetCompletionStats st6 companyQuestionnaireID with
              | (.error e, st7) => (.error ("failed to get completion stats: " ++ e), st7)
              | (.ok stats, st7) =>
                match s.assignmentRepo.GetAverageCompletionTime st7
                    companyQuestionnaireID with
                | (.error e, st8) =>
                  (.error ("failed to get average completion time: " ++ e), st8)
                | (.ok avgTime, st8) =>
                  let assigned := assignments.length
                  let pending := stats AssignmentStatus.pending
                  let inProgress := stats AssignmentStatus.inProgress
                  let completed := stats AssignmentStatus.completed
                  let notStarted := pending
                  let completionPercentage : ℚ :=
                    if assigned > 0 then (completed : ℚ) / (assigned : ℚ) * 100 else 0
                  let metrics : CompletionMetrics :=
                    { companyQuestionnaireID := companyQuestionnaireID,
                      questionnaireTitle := questionnaire.title,
                      companyName := company.name,
                      periodStart := cq.periodStart,
                      periodEnd := cq.periodEnd,
                      totalEmployees := totalEmployees,
                      assigned := assigned,
                      pending := pending,
                      inProgress := inProgress,
                      completed := completed,
                      notStarted := notStarted,
                      completionPercentage := completionPercentage,
                      avgTimeToComplete := avgTime,
                      completionByDepartment := [] }
                  match s.getCompletionByDepartment st8 cq.companyID assignments with
                  | (.ok deptStats, st9) =>
                    (.ok { metrics with completionByDepartment := deptStats }, st9)
                  | (.error _, st9) => (.ok metrics, st9)

/-- One iteration of the second loop of `GetCompanyOverview`; a failed lookup is the
`continue` of the Go code. -/
def overviewStep {σ : Type} (s : ReportService σ) (p : OverviewAcc × σ)
    (cq : CompanyQuestionnaire) : OverviewAcc × σ :=
  match s.questionnaireRepo.GetByID p.2 cq.questionnaireID with
  | (.error _, st1) => (p.1, st1)
  | (.ok questionnaire, st1) =>
    match s.assignmentRepo.GetByCompanyQuestionnaireID st1 cq.id with
    | (.error _, st2) => (p.1, st2)
    | (.ok assignments, st2) =>
      let completed := countCompleted assignments
      let assigned := assignments.length
      let completionPct : ℚ :=
        if assigned > 0 then (completed : ℚ) / (assigned : ℚ) * 100 else 0
      ({ breakdown := p.1.breakdown ++
          [{ questionnaireID := cq.questionnaireID,
             questionnaireTitle := questionnaire.title,
             assigned := assigned,
             completed := completed,
             completionPercentage := completionPct }],
         totalAssignments := p.1.totalAssignments + assigned,
         totalCompleted := p.1.totalCompleted + completed }, st2)

/-- Go `ReportService.GetCompanyOverview`. -/
def ReportService.GetCompanyOverview {σ : Type} (s : ReportService σ) (st : σ)
    (companyID : ObjectID) (userID : String) (isSuperAdmin : Bool) :
    Except String CompanyOverview × σ :=
  match authorizeReport s companyID userID isSuperAdmin st with
  | (.error e, st1) => (.error e, st1)
  | (.ok _, st1) =>
    match s.companyRepo.GetByID st1 companyID with
    | (.error e, st2) => (.error ("company not found: " ++ e), st2)
    | (.ok company, st2) =>
      match s.userMetadataRepo.CountByCompany st2 companyID with
      | (.error e, st3) => (.error ("failed to count employees: " ++ e), st3)
      | (.ok totalEmployees, st3) =>
        match s.companyQuestionnaireRepo.GetByCompanyID st3 companyID false with
        | (.error e, st4) => (.error ("failed to get company questionnaires: " ++ e), st4)
        | (.ok companyQuestionnaires, st4) =>
          let activeCount := companyQuestionnaires.foldl
            (fun activeCount cq => if cq.isActive then activeCount + 1 else activeCount) 0
          let acc := companyQuestionnaires.foldl (overviewStep s)
            ({ breakdown := [], totalAssignments := 0, totalCompleted := 0 }, st4)
          let overallCompletion : ℚ :=
            if acc.1.totalAssignments > 0 then
              (acc.1.totalCompleted : ℚ) / (acc.1.totalAssignments : ℚ) * 100
            else 0
          (.ok { companyID := companyID,
                 companyName := company.name,
                 totalEmployees := totalEmployees,
                 totalQuestionnaires := companyQuestionnaires.length,
                 activeQuestionnaires := activeCount,
                 totalAssignments := acc.1.totalAssignments,
                 completedAssignments := acc.1.totalCompleted,
                 overallCompletion := overallCompletion,
                 questionnaireBreakdown := acc.1.breakdown }, acc.2)

/-- The entry of `GetEmployeeProgress` computed from the assignments of one employee. -/
def progressEntry (employee : UserMetadata) (assignments : List UserQuestionnaireAssignment) :
    EmployeeProgress :=
  let totalAssignments := assignments.length
  let counts := assignments.foldl
    (fun (c : Nat × Nat × Nat) a =>
      match a.status with
      | .completed => (c.1 + 1, c.2.1, c.2.2)
      | .inProgress => (c.1, c.2.1 + 1, c.2.2)
      | .pending => (c.1, c.2.1, c.2.2 + 1)) (0, 0, 0)
  let completionRate : ℚ :=
    if totalAssignments > 0 then (counts.1 : ℚ) / (totalAssignments : ℚ) * 100 else 0
  { userID := employee.id,
    department := employee.department,
    totalAssigned := totalAssignments,
    completed := counts.1,
    inProgress := counts.2.1,
    pending := counts.2.2,
    completionRate := completionRate }

/-- One iteration of the employee loop of `GetEmployeeProgress`; a failed lookup is the
`continue` of the Go code. -/
def progressStep {σ : Type} (s : ReportService σ) (p : List EmployeeProgress × σ)
    (employee : UserMetadata) : List EmployeeProgress × σ :=
  match s.assignmentRepo.GetByUserID p.2 employee.id none with
  | (.error _, st1) => (p.1, st1)
  | (.ok assignments, st1) => (p.1 ++ [progressEntry employee assignments], st1)

/-- Go `ReportService.GetEmployeeProgress`. -/
def ReportService.GetEmployeeProgress {σ : Type} (s : ReportService σ) (st : σ)
    (companyID : ObjectID) (userID : String) (isSuperAdmin : Bool) :
    Except String (List EmployeeProgress) × σ :=
  match authorizeReport s companyID userID isSuperAdmin st with
  | (.error e, st1) => (.error e, st1)
  | (.ok _, st1) =>
    match s.userMetadataRepo.GetByCompanyID st1 companyID with
    | (.error e, st2) => (.error ("failed to get employees: " ++ e), st2)
    | (.ok employees, st2) =>
      (.ok (employees.foldl (progressStep s) ([], st2)).1,
       (employees.foldl (progressStep s) ([], st2)).2)

end Fallible

/-- The assignment repository of the storage model. -/
def mongoAssignmentRepository : Fallible.AssignmentRepository DB :=
  { GetByID := fun db id => (AssignmentRepository.GetByID db id, db),
    GetByUserID := fun db userID status => (AssignmentRepository.GetByUserID db userID status, db),
    GetByCompanyQuestionnaireID := fun db cqID =>
      (AssignmentRepository.GetByCompanyQuestionnaireID db cqID, db),
    Create := AssignmentRepository.Create,
    CheckDuplicate := fun db userID cqID =>
      (AssignmentRepository.CheckDuplicate db userID cqID, db),
    UpdateStatus := AssignmentRepository.UpdateStatus,
    AddOrUpdateResponse := AssignmentRepository.AddOrUpdateResponse,
    Delete := AssignmentRepository.Delete,
    GetCompletionStats := fun db cqID => (AssignmentRepository.GetCompletionStats db cqID, db),
    GetAverageCompletionTime := fun db cqID =>
      (AssignmentRepository.GetAverageCompletionTime db cqID, db) }

/-- The binding repository of the storage model. -/
def mongoCompanyQuestionnaireRepository : Fallible.CompanyQuestionnaireRepository DB :=
  { GetByID := fun db id => (CompanyQuestionnaireRepository.GetByID db id, db),
    GetByCompanyID := fun db companyID activeOnly =>
      (CompanyQuestionnaireRepository.GetByCompanyID db companyID activeOnly, db) }

/-- The user metadata repository of the storage model. -/
def mongoUserMetadataRepository : Fallible.UserMetadataRepository DB :=
  { GetByID := fun db userID => (UserMetadataRepository.GetByID db userID, db),
    GetByCompanyID := fun db companyID => (UserMetadataRepository.GetByCompanyID db companyID, db),
    GetBySupervisorID := fun db supervisorID =>
      (UserMetadataRepository.GetBySupervisorID db supervisorID, db),
    CountByCompany := fun db companyID => (UserMetadataRepository.CountByCompany db companyID, db) }

/-- The questionnaire repository of the storage model. -/
def mongoQuestionnaireRepository : Fallible.QuestionnaireRepository DB :=
  { GetByID := fun db id => (QuestionnaireRepository.GetByID db id, db) }

/-- The company repository of the storage model. -/
def mongoCompanyRepository : Fallible.CompanyRepository DB :=
  { GetByID := fun db id => (CompanyRepository.GetByID db id, db) }

/-- The assignment service wired to the repositories of the storage model. -/
def mongoAssignmentService : Fallible.AssignmentService DB :=
  { assignmentRepo := mongoAssignmentRepository,
    companyQuestionnaireRepo := mongoCompanyQuestionnaireRepository,
    userMetadataRepo := mongoUserMetadataRepository,
    questionnaireRepo := mongoQuestionnaireRepository,
    newObjectID := DB.newObjectID }

/-- The report service wired to the repositories of the storage model. -/
def mongoReportService : Fallible.ReportService DB :=
  { assignmentRepo := mongoAssignmentRepository,
    companyQuestionnaireRepo := mongoCompanyQuestionnaireRepository,
    userMetadataRepo := mongoUserMetadataRepository,
    questionnaireRepo := mongoQuestionnaireRepository,
    companyRepo := mongoCompanyRepository }

/-! ## Specification-side notions -/

/-- Identifiers of the required questions. -/
def requiredIDs (qs : List Question) : List String :=
  (qs.filter (fun q => q.isRequired)).map (fun q => q.questionID)

/-- Number of stored assignments of user `u` for the binding `cq`. -/
def pairCount (db : DB) (u : String) (cq : ObjectID) : Nat :=
  (db.assignments.filter (fun a => a.userID == u && a.companyQuestionnaireID == cq)).length

/-- Invariant: at most one assignment per (user_id, company_questionnaire_id) pair. -/
def AtMostOnePerPair (db : DB) : Prop := ∀ u cq, pairCount db u cq ≤ 1

/-- The distinct elements of a list, in the order of their first occurrence. -/
def firstOccurrences : List String → List String
  | [] => []
  | x :: xs => x :: (firstOccurrences xs).filter (fun y => y != x)

/-- The distinct target users that have no assignment for the binding yet, in the order of
their first occurrence in the target list. -/
def newTargets (db : DB) (cq : ObjectID) (userIDs : List String) : List String :=
  (firstOccurrences userIDs).filter (fun u => pairCount db u cq == 0)

/-- Pending assignments for the given users, with consecutive fresh identifiers from `n`. -/
def freshAssignments (assignedBy : String) (cq : ObjectID) (now : Time) :
    ObjectID → List String → List UserQuestionnaireAssignment
  | _, [] => []
  | n, u :: us =>
    NewUserQuestionnaireAssignment n cq u assignedBy now ::
      freshAssignments assignedBy cq now (n + 1) us

/-- The store after inserting the assignments `created`, each with a fresh identifier. -/
def DB.withCreated (db : DB) (created : List UserQuestionnaireAssignment) : DB :=
  { db with assignments := db.assignments ++ created,
            nextObjectID := db.nextObjectID + created.length }

/-- The company rule applied to a caller who is not super-admin: the caller has metadata,
the binding belongs to the caller's company, and so does every target user. -/
def SameCompany (db : DB) (assignedBy : String) (cq : CompanyQuestionnaire)
    (userIDs : List String) : Prop :=
  ∃ am, UserMetadataRepository.GetByID db assignedBy = .ok am ∧ cq.companyID = am.companyID ∧
    ∀ u ∈ userIDs, ∃ m, UserMetadataRepository.GetByID db u = .ok m ∧ m.companyID = am.companyID

/-- Rank of a status in the order pending < in_progress < completed. -/
def AssignmentStatus.rank : AssignmentStatus → Nat
  | .pending => 0
  | .inProgress => 1
  | .completed => 2

/-- The assignment `a'` is a later state of the assignment `a`: same identity, a status rank at
least as high, and every timestamp that was set is still set. -/
def NoRegress (a a' : UserQuestionnaireAssignment) : Prop :=
  a'.id = a.id ∧ a.status.rank ≤ a'.status.rank ∧
  (a.startedAt.isSome = true → a'.startedAt.isSome = true) ∧
  (a.completedAt.isSome = true → a'.completedAt.isSome = true)

/-- Replace-or-append of a response by question id, the effect of the two Mongo updates of
`AddOrUpdateResponse` on the response array. -/
def upsert (r : Response) (rs : List Response) : List Response :=
  if r.questionID ∈ rs.map (fun x => x.questionID) then setFirstMatching r rs else rs ++ [r]

/-- Two bindings block each other: same company and questionnaire, both active, and windows
with `a.start ≤ b.end` and `a.end ≥ b.start`. -/
def Overlapping (a b : CompanyQuestionnaire) : Prop :=
  a.companyID = b.companyID ∧ a.questionnaireID = b.questionnaireID ∧
  a.isActive = true ∧ b.isActive = true ∧
  a.periodStart ≤ b.periodEnd ∧ a.periodEnd ≥ b.periodStart

instance (a b : CompanyQuestionnaire) : Decidable (Overlapping a b) := by
  unfold Overlapping; infer_instance

/-- Invariant: no two stored bindings of one (company, questionnaire) are both active with
overlapping windows. -/
def NoOverlap (db : DB) : Prop :=
  db.companyQuestionnaires.Pairwise (fun a b => ¬ Overlapping a b)

instance (db : DB) : Decidable (NoOverlap db) := by
  unfold NoOverlap; infer_instance

/-- The loop invariant of `GetCompanyOverview`: the running totals are the sums over the
breakdown entries, and each entry carries its own percentage. -/
def OverviewInv (acc : OverviewAcc) : Prop :=
  acc.totalAssignments = (acc.breakdown.map (fun b => b.assigned)).sum ∧
  acc.totalCompleted = (acc.breakdown.map (fun b => b.completed)).sum ∧
  ∀ b ∈ acc.breakdown, b.completionPercentage =
    (if b.assigned > 0 then (b.completed : ℚ) / (b.assigned : ℚ) * 100 else 0)

/-- The bucket of a user in the department breakdown: the department of the user's metadata
among the users of the company, or "Unassigned" when that is empty or there is no such
metadata. -/
def departmentLabel (db : DB) (companyID : ObjectID) (userID : String) : String :=
  match (db.usersMetadata.filter (fun u => u.companyID == companyID)).find?
      (fun u => u.id == userID) with
  | some m => if m.department = "" then "Unassigned" else m.department
  | none => "Unassigned"

/-- The loop invariant of the counting loop of `getCompletionByDepartment` after the
assignments `pre`: one entry per bucket name met so far, each with the counts of its
assignments, and totals that add up. -/
def DeptInv (label : UserQuestionnaireAssignment → String)
    (pre : List UserQuestionnaireAssignment) (stats : List DepartmentCompletionStat) : Prop :=
  (stats.map (fun st => st.department)).Nodup ∧
  (∀ st ∈ stats,
    st.total = (pre.filter (fun a => label a == st.department)).length ∧
    st.completed = (pre.filter
      (fun a => label a == st.department && a.status == AssignmentStatus.completed)).length ∧
    1 ≤ st.total) ∧
  (∀ a ∈ pre, label a ∈ stats.map (fun st => st.department)) ∧
  (stats.map (fun st => st.total)).sum = pre.length ∧
  (stats.map (fun st => st.completed)).sum =
    (pre.filter (fun a => a.status == AssignmentStatus.completed)).length

/-- No record of the store names its own user as supervisor. -/
def NoSelfSupervision (db : DB) : Prop :=
  ∀ m ∈ db.usersMetadata, m.supervisorID ≠ some m.id

instance (db : DB) : Decidable (NoSelfSupervision db) := by
  unfold NoSelfSupervision; infer_instance

/-- Every non-empty stored supervisor is the id of a record of the same list. -/
def RefersToExisting (l : List UserMetadata) : Prop :=
  ∀ m ∈ l, ∀ s, m.supervisorID = some s → s ≠ "" → ∃ m' ∈ l, m'.id = s

/-- Supervisor referential integrity of a store. -/
def SupervisorsExist (db : DB) : Prop := RefersToExisting db.usersMetadata

/-- Every binding of the store starts strictly before it ends. -/
def StrictPeriods (db : DB) : Prop :=
  ∀ c ∈ db.companyQuestionnaires, c.periodStart < c.periodEnd

instance (db : DB) : Decidable (StrictPeriods db) := by
  unfold StrictPeriods; infer_instance

/-- The call returned an error. -/
def Failed {α : Type} (r : Except String α) : Prop := ∃ e, r = .error e

/-! ## Sample data -/

/-- One day in nanoseconds. -/
def day : Time := 86400 * 1000000000

/-- Midnight of 2024-01-01, which is 738885 days after the zero time. -/
def jan1 : Time := 738885 * day

/-- Midnight of 2024-03-15. -/
def mar15 : Time := jan1 + 74 * day

/-- Midnight of 2024-03-31. -/
def mar31 : Time := jan1 + 90 * day

/-- Midnight of 2024-04-01. -/
def apr1 : Time := jan1 + 91 * day

/-- Midnight of 2024-06-30. -/
def jun30 : Time := jan1 + 181 * day

/-- A questionnaire with one required and one optional question. -/
def sampleQuestionnaire : Questionnaire :=
  { id := 2, title := "Work climate", isActive := true,
    questions := [
      { questionID := "q-req", questionText := "How satisfied are you?", orderIndex := 0,
        isRequired := true },
      { questionID := "q-opt", questionText := "Anything to add?", orderIndex := 1,
        isRequired := false }] }

/-- Binding of the sample questionnaire to company 1 from 2024-01-01 to 2024-03-31. -/
def sampleBinding : CompanyQuestionnaire :=
  { id := 3, companyID := 1, questionnaireID := 2, assignedBy := "root", assignedAt := jan1,
    periodStart := jan1, periodEnd := mar31, isActive := true }

/-- An assignment of employee "alice" that answers only the optional question. -/
def optionalOnlyAssignment : UserQuestionnaireAssignment :=
  { id := 4, companyQuestionnaireID := 3, userID := "alice", assignedBy := "boss",
    assignedAt := jan1, status := .inProgress, startedAt := some (jan1 + 1), completedAt := none,
    responses := [{ questionID := "q-opt", responseValue := [("value", .str "no")],
                    answeredAt := jan1 + 1 }] }

/-- A store with one company, one questionnaire, one binding and one assignment. -/
def sampleDB : DB :=
  { companies := [{ id := 1, name := "Acme" }],
    questionnaires := [sampleQuestionnaire],
    companyQuestionnaires := [sampleBinding],
    usersMetadata := [{ id := "alice", companyID := 1, supervisorID := some "boss", department := "R&D" },
                      { id := "boss", companyID := 1, supervisorID := none, department := "R&D" }],
    assignments := [optionalOnlyAssignment],
    nextObjectID := 5 }

/-- The sample store with a second company 9 and its supervisor "mallory"; company 9 has
no binding of its own. -/
def twoCompanyDB : DB :=
  { sampleDB with
    companies := [{ id := 1, name := "Acme" }, { id := 9, name := "Globex" }],
    usersMetadata := [{ id := "alice", companyID := 1, supervisorID := some "boss", department := "R&D" },
                      { id := "boss", companyID := 1, supervisorID := none, department := "R&D" },
                      { id := "carol", companyID := 1, supervisorID := some "boss", department := "" },
                      { id := "mallory", companyID := 9, supervisorID := none, department := "Ops" }] }

/-- A completed assignment of "alice" with both questions answered. -/
def completedAssignment : UserQuestionnaireAssignment :=
  { id := 4, companyQuestionnaireID := 3, userID := "alice", assignedBy := "boss",
    assignedAt := jan1, status := .completed, startedAt := some (jan1 + 1),
    completedAt := some (jan1 + 2),
    responses := [{ questionID := "q-req", responseValue := [("value", .num 4)],
                    answeredAt := jan1 + 1 },
                  { questionID := "q-opt", responseValue := [("value", .str "no")],
                    answeredAt := jan1 + 1 }] }

/-- The sample store in which the assignment of "alice" is completed. -/
def completedDB : DB := { sampleDB with assignments := [completedAssignment] }

/-- A pending assignment of "alice" without responses. -/
def pendingAssignment : UserQuestionnaireAssignment :=
  NewUserQuestionnaireAssignment 4 3 "alice" "boss" jan1

/-- The sample store in which the assignment of "alice" is still pending. -/
def pendingDB : DB := { sampleDB with assignments := [pendingAssignment] }

/-- Second binding of the sample questionnaire to company 1, from 2024-04-01 to 2024-06-30. -/
def springBinding : CompanyQuestionnaire :=
  { id := 8, companyID := 1, questionnaireID := 2, assignedBy := "root", assignedAt := jan1,
    periodStart := apr1, periodEnd := jun30, isActive := true }

/-- The two-company store with both bindings of company 1; their windows are adjacent. -/
def twoBindingDB : DB :=
  { twoCompanyDB with companyQuestionnaires := [sampleBinding, springBinding], nextObjectID := 9 }

/-- A questionnaire whose only question is optional. -/
def optionalQuestionnaire : Questionnaire :=
  { id := 6, title := "Suggestions", isActive := true,
    questions := [
      { questionID := "q-idea", questionText := "Any suggestion?", orderIndex := 0,
        isRequired := false }] }

/-- Binding of the optional questionnaire to company 1 from 2024-01-01 to 2024-03-31. -/
def optionalBinding : CompanyQuestionnaire :=
  { id := 7, companyID := 1, questionnaireID := 6, assignedBy := "root", assignedAt := jan1,
    periodStart := jan1, periodEnd := mar31, isActive := true }

/-- A store in which "alice" has a pending, unanswered assignment 10 of the optional
questionnaire. -/
def optionalDB : DB :=
  { sampleDB with
    questionnaires := [sampleQuestionnaire, optionalQuestionnaire],
    companyQuestionnaires := [sampleBinding, optionalBinding],
    assignments := [NewUserQuestionnaireAssignment 10 7 "alice" "boss" jan1],
    nextObjectID := 11 }

/-- Ten assignments of binding 3: four completed, three in progress and three pending. -/
def tenAssignments : List UserQuestionnaireAssignment :=
  [(20, "e0", AssignmentStatus.completed), (21, "e1", AssignmentStatus.completed),
   (22, "e2", AssignmentStatus.completed), (23, "e3", AssignmentStatus.completed),
   (24, "e4", AssignmentStatus.inProgress), (25, "e5", AssignmentStatus.inProgress),
   (26, "e6", AssignmentStatus.inProgress), (27, "e7", AssignmentStatus.pending),
   (28, "e8", AssignmentStatus.pending), (29, "e9", AssignmentStatus.pending)].map
    (fun t => { NewUserQuestionnaireAssignment t.1 3 t.2.1 "boss" jan1 with status := t.2.2 })

/-- The two-company store holding the ten assignments of binding 3. -/
def metricsDB : DB := { twoCompanyDB with assignments := tenAssignments, nextObjectID := 30 }

/-- Ten completed assignments of binding 3 followed by ninety pending assignments of
binding 8. -/
def hundredAssignments : List UserQuestionnaireAssignment :=
  (List.range 10).map
    (fun i => { NewUserQuestionnaireAssignment (100 + i) 3 ("e" ++ toString i) "boss" jan1 with
                status := AssignmentStatus.completed, startedAt := some (jan1 + 1),
                completedAt := some (jan1 + 2) }) ++
  (List.range 90).map
    (fun i => NewUserQuestionnaireAssignment (200 + i) 8 ("f" ++ toString i) "boss" apr1)

/-- The two-binding store of company 1 with those hundred assignments. -/
def overviewDB : DB := { twoBindingDB with assignments := hundredAssignments, nextObjectID := 300 }

/-- Four assignments of binding 3: "alice" and "boss" of department R&D, "carol" whose
department is empty, and "ghost" who has no metadata. -/
def deptAssignments : List UserQuestionnaireAssignment :=
  [{ NewUserQuestionnaireAssignment 40 3 "alice" "boss" jan1 with
     status := AssignmentStatus.completed, startedAt := some (jan1 + 1),
     completedAt := some (jan1 + 2) },
   NewUserQuestionnaireAssignment 41 3 "boss" "boss" jan1,
   { NewUserQuestionnaireAssignment 42 3 "carol" "boss" jan1 with
     status := AssignmentStatus.completed, startedAt := some (jan1 + 1),
     completedAt := some (jan1 + 2) },
   NewUserQuestionnaireAssignment 43 3 "ghost" "boss" jan1]

/-- The two-company store holding those four assignments. -/
def deptDB : DB := { twoCompanyDB with assignments := deptAssignments, nextObjectID := 44 }

/-- A company name of 201 characters. -/
def longName : String := String.mk (List.replicate 201 'a')

/-- A binding of company 1 whose questionnaire 77 is not stored. -/
def orphanBinding : CompanyQuestionnaire :=
  { id := 12, companyID := 1, questionnaireID := 77, assignedBy := "root", assignedAt := jan1,
    periodStart := jan1, periodEnd := mar31, isActive := true }

/-- A binding of the sample questionnaire to company 42, which is not stored. -/
def strayBinding : CompanyQuestionnaire :=
  { id := 15, companyID := 42, questionnaireID := 2, assignedBy := "root", assignedAt := jan1,
    periodStart := jan1, periodEnd := mar31, isActive := true }

/-- An assignment of "alice" under the orphan binding. -/
def orphanAssignment : UserQuestionnaireAssignment :=
  NewUserQuestionnaireAssignment 13 12 "alice" "boss" jan1

/-- An assignment of "alice" whose binding 55 is not stored. -/
def danglingAssignment : UserQuestionnaireAssignment :=
  NewUserQuestionnaireAssignment 14 55 "alice" "boss" jan1

/-- The two-company store with the orphan and the stray binding and their assignments. -/
def orphanDB : DB :=
  { twoCompanyDB with
    companyQuestionnaires := [sampleBinding, orphanBinding, strayBinding],
    assignments := [optionalOnlyAssignment, orphanAssignment, danglingAssignment],
    nextObjectID := 20 }

/-- The report service of the storage model behind a connection that drops whenever the
employees of a company are counted. -/
def droppedCountReportService : Fallible.ReportService DB :=
  { mongoReportService with
    userMetadataRepo :=
      { mongoUserMetadataRepository with
        CountByCompany := fun db _ => (.error "connection reset", db) } }

/-- The report service of the storage model with a user query that fails whenever the
employees of a company are listed. -/
def noEmployeeListReportService : Fallible.ReportService DB :=
  { mongoReportService with
    userMetadataRepo :=
      { mongoUserMetadataRepository with
        GetByCompanyID := fun db _ => (.error "cursor closed", db) } }

/-- The assignment service of the storage model with inserts that always fail and per-user
queries that always fail. -/
def readOnlyAssignmentService : Fallible.AssignmentService DB :=
  { mongoAssignmentService with
    assignmentRepo :=
      { mongoAssignmentRepository with
        Create := fun db _ => (.error "write refused", db),
        GetByUserID := fun db _ _ => (.error "cursor closed", db) } }

/-! ## Auxiliary facts on lists and on `updateOne` -/

theorem foldl_count_eq {α : Type} (p : α → Bool) (l : List α) (k : Nat) :
    l.foldl (fun n x => if p x then n + 1 else n) k = k + (l.filter p).length := by
  induction l generalizing k with
  | nil => simp
  | cons x xs ih =>
    simp only [List.foldl_cons, List.filter_cons]
    by_cases hx : p x = true
    · simp only [hx, if_true, ih, List.length_cons]; omega
    · simp only [hx, ih]; simp

theorem countRequired_eq (qs : List Question) :
    countRequired qs = (qs.filter (fun q => q.isRequired)).length := by
  unfold countRequired
  rw [foldl_count_eq (fun q : Question => q.isRequired) qs 0]; simp

theorem countAnsweredRequired_eq (rs : List Response) (qs : List Question) :
    countAnsweredRequired rs qs =
      (rs.filter (fun r => qs.any (fun q => q.questionID == r.questionID && q.isRequired))).length := by
  unfold countAnsweredRequired
  rw [foldl_count_eq
    (fun r : Response => qs.any (fun q => q.questionID == r.questionID && q.isRequired)) rs 0]
  simp

theorem mem_requiredIDs (qs : List Question) (i : String) :
    i ∈ requiredIDs qs ↔ ∃ q ∈ qs, q.isRequired = true ∧ q.questionID = i := by
  simp [requiredIDs, and_assoc]

theorem requiredIDs_nodup (qs : List Question)
    (h : (qs.map (fun q => q.questionID)).Nodup) : (requiredIDs qs).Nodup :=
  h.sublist ((List.filter_sublist qs).map _)

theorem answered_eq_card (rs : List Response) (qs : List Question)
    (hr : (rs.map (fun r => r.questionID)).Nodup) :
    countAnsweredRequired rs qs =
      ((rs.map (fun r => r.questionID)).toFinset ∩ (requiredIDs qs).toFinset).card := by
  rw [countAnsweredRequired_eq]
  have h1 : (rs.filter (fun r => qs.any (fun q => q.questionID == r.questionID && q.isRequired))).length
      = ((rs.map (fun r => r.questionID)).filter (fun i => decide (i ∈ requiredIDs qs))).length := by
    rw [List.filter_map, List.length_map]
    congr 1
    apply List.filter_congr
    intro r _
    rw [Bool.eq_iff_iff]
    simp only [List.any_eq_true, Bool.and_eq_true, beq_iff_eq, Function.comp_apply,
      decide_eq_true_eq, mem_requiredIDs]
    constructor
    · rintro ⟨q, hq, h1, h2⟩; exact ⟨q, hq, h2, h1⟩
    · rintro ⟨q, hq, h1, h2⟩; exact ⟨q, hq, h2, h1⟩
  rw [h1, ← List.toFinset_card_of_nodup (hr.filter _), List.toFinset_filter]
  congr 1
  ext i
  simp

theorem required_eq_card (qs : List Question) (h : (qs.map (fun q => q.questionID)).Nodup) :
    countRequired qs = (requiredIDs qs).toFinset.card := by
  rw [countRequired_eq, List.toFinset_card_of_nodup (requiredIDs_nodup qs h)]
  simp [requiredIDs]

/-- With distinct ids on both sides, the two counters agree exactly when every required
question has a response. -/
theorem not_lt_iff_all_required (rs : List Response) (qs : List Question)
    (hr : (rs.map (fun r => r.questionID)).Nodup)
    (hq : (qs.map (fun q => q.questionID)).Nodup) :
    ¬ countAnsweredRequired rs qs < countRequired qs ↔
      ∀ q ∈ qs, q.isRequired = true → ∃ r ∈ rs, r.questionID = q.questionID := by
  rw [answered_eq_card rs qs hr, required_eq_card qs hq, not_lt]
  constructor
  · intro hle q hqm hreq
    have hsub : (requiredIDs qs).toFinset ⊆
        (rs.map (fun r => r.questionID)).toFinset ∩ (requiredIDs qs).toFinset := by
      have hsubset : (rs.map (fun r => r.questionID)).toFinset ∩ (requiredIDs qs).toFinset ⊆
          (requiredIDs qs).toFinset := Finset.inter_subset_right
      have := Finset.eq_of_subset_of_card_le hsubset hle
      rw [this]
    have hmem : q.questionID ∈ (requiredIDs qs).toFinset := by
      rw [List.mem_toFinset, mem_requiredIDs]; exact ⟨q, hqm, hreq, rfl⟩
    have := hsub hmem
    simp only [Finset.mem_inter, List.mem_toFinset, List.mem_map] at this
    obtain ⟨⟨r, hrm, hre⟩, _⟩ := this
    exact ⟨r, hrm, hre⟩
  · intro hall
    apply Finset.card_le_card
    intro i hi
    rw [List.mem_toFinset, mem_requiredIDs] at hi
    obtain ⟨q, hqm, hreq, rfl⟩ := hi
    obtain ⟨r, hrm, hre⟩ := hall q hqm hreq
    simp only [Finset.mem_inter, List.mem_toFinset, List.mem_map, mem_requiredIDs]
    exact ⟨⟨r, hrm, hre⟩, q, hqm, hreq, rfl⟩

theorem updateOne_matched_of_find {α : Type} (p : α → Bool) (f : α → α) (l : List α) (a : α)
    (h : l.find? p = some a) : (updateOne p f l).2 = 1 := by
  induction l with
  | nil => simp at h
  | cons x xs ih =>
    by_cases hx : p x = true
    · simp [updateOne, hx]
    · simp only [List.find?_cons, hx] at h
      simp only [updateOne, hx]
      exact ih h

theorem getByID_ok_find (db : DB) (id : ObjectID) (a : UserQuestionnaireAssignment)
    (h : AssignmentRepository.GetByID db id = .ok a) :
    db.assignments.find? (fun a => a.id == id) = some a := by
  unfold AssignmentRepository.GetByID at h
  split at h
  · rename_i b hb; rw [hb]; cases h; rfl
  · cases h

/-! ## Submission gate -/

/-- C1 (submission gate): for an assignment owned by the caller and not completed, with at
most one response per question id and pairwise distinct question ids, `SubmitAssignment`
succeeds exactly when every required question has a response with the same id; otherwise
it returns the error reporting the answered and required counts and leaves the store
unchanged.  Optional questions and responses to unknown ids do not occur in the criterion. -/
theorem submit_succeeds_iff_all_required_answered (db : DB) (assignmentID : ObjectID)
    (userID : String) (now : Time) (a : UserQuestionnaireAssignment)
    (cq : CompanyQuestionnaire) (qn : Questionnaire)
    (ha : AssignmentRepository.GetByID db assignmentID = .ok a)
    (hcq : CompanyQuestionnaireRepository.GetByID db a.companyQuestionnaireID = .ok cq)
    (hqn : QuestionnaireRepository.GetByID db cq.questionnaireID = .ok qn)
    (hown : a.userID = userID) (hstatus : a.status ≠ .completed)
    (hr : (a.responses.map (fun r => r.questionID)).Nodup)
    (hq : (qn.questions.map (fun q => q.questionID)).Nodup) :
    ((AssignmentService.SubmitAssignment db assignmentID userID now).1 = .ok () ↔
      ∀ q ∈ qn.questions, q.isRequired = true →
        ∃ r ∈ a.responses, r.questionID = q.questionID) ∧
    (¬ (∀ q ∈ qn.questions, q.isRequired = true →
        ∃ r ∈ a.responses, r.questionID = q.questionID) →
      AssignmentService.SubmitAssignment db assignmentID userID now =
        (.error ("not all required questions answered ("
          ++ toString (countAnsweredRequired a.responses qn.questions) ++ "/"
          ++ toString (countRequired qn.questions) ++ ")"), db)) := by
  have hcrit := not_lt_iff_all_required a.responses qn.questions hr hq
  have hmatch := updateOne_matched_of_find (fun b : UserQuestionnaireAssignment => b.id == assignmentID)
  have hfind := getByID_ok_find db assignmentID a ha
  by_cases hlt : countAnsweredRequired a.responses qn.questions < countRequired qn.questions
  · have hno : ¬ (∀ q ∈ qn.questions, q.isRequired = true →
        ∃ r ∈ a.responses, r.questionID = q.questionID) := fun h => (hcrit.mpr h) hlt
    have heq : AssignmentService.SubmitAssignment db assignmentID userID now =
        (.error ("not all required questions answered ("
          ++ toString (countAnsweredRequired a.responses qn.questions) ++ "/"
          ++ toString (countRequired qn.questions) ++ ")"), db) := by
      simp [AssignmentService.SubmitAssignment, ha, hcq, hqn, hown, hstatus, hlt]
    refine ⟨?_, fun _ => heq⟩
    rw [heq]
    constructor
    · intro h; cases h
    · intro h; exact absurd h hno
  · have hyes := hcrit.mp hlt
    refine ⟨?_, fun h => absurd hyes h⟩
    constructor
    · intro _; exact hyes
    · intro _
      simp [AssignmentService.SubmitAssignment, ha, hcq, hqn, hown, hstatus, hlt,
        AssignmentRepository.UpdateStatus, hmatch _ _ _ hfind]

/-- Witness for C1: with only the optional question answered and one required question,
submission fails with the counts 0/1 and the store is unchanged. -/
theorem submit_succeeds_iff_all_required_answered_witness :
    AssignmentService.SubmitAssignment sampleDB 4 "alice" (jan1 + 2) =
      (.error "not all required questions answered (0/1)", sampleDB) :=
  (submit_succeeds_iff_all_required_answered sampleDB 4 "alice" (jan1 + 2)
    optionalOnlyAssignment sampleBinding sampleQuestionnaire rfl rfl rfl rfl (by decide)
    (by decide) (by decide)).2 (by decide)

/-! ## The creation loop of `AssignToUsers` -/

theorem pairCount_withCreated (db : DB) (l : List UserQuestionnaireAssignment) (u : String)
    (cq : ObjectID) :
    pairCount (db.withCreated l) u cq = pairCount db u cq +
      (l.filter (fun a => a.userID == u && a.companyQuestionnaireID == cq)).length := by
  simp [pairCount, DB.withCreated]

theorem withCreated_nil (db : DB) : db.withCreated [] = db := by
  simp [DB.withCreated]

theorem withCreated_cons (db : DB) (a : UserQuestionnaireAssignment)
    (l : List UserQuestionnaireAssignment) :
    (db.withCreated [a]).withCreated l = db.withCreated (a :: l) := by
  simp [DB.withCreated, Nat.add_assoc, Nat.add_comm 1]

theorem freshAssignments_length (by_ : String) (cq : ObjectID) (now : Time) (n : ObjectID)
    (us : List String) : (freshAssignments by_ cq now n us).length = us.length := by
  induction us generalizing n with
  | nil => rfl
  | cons u us ih => simp [freshAssignments, ih]

theorem freshAssignments_userIDs (by_ : String) (cq : ObjectID) (now : Time) (n : ObjectID)
    (us : List String) : (freshAssignments by_ cq now n us).map (fun a => a.userID) = us := by
  induction us generalizing n with
  | nil => rfl
  | cons u us ih => simp [freshAssignments, ih, NewUserQuestionnaireAssignment]

theorem freshAssignments_shape (by_ : String) (cq : ObjectID) (now : Time) (n : ObjectID)
    (us : List String) :
    ∀ a ∈ freshAssignments by_ cq now n us,
      a.status = .pending ∧ a.responses = [] ∧ a.startedAt = none ∧ a.completedAt = none ∧
      a.companyQuestionnaireID = cq ∧ a.assignedBy = by_ ∧ a.assignedAt = now := by
  induction us generalizing n with
  | nil => intro a ha; simp [freshAssignments] at ha
  | cons u us ih =>
    intro a ha
    simp only [freshAssignments, List.mem_cons] at ha
    rcases ha with rfl | ha
    · simp [NewUserQuestionnaireAssignment]
    · exact ih _ a ha

theorem newTargets_cons_dup (db : DB) (cq : ObjectID) (u : String) (us : List String)
    (h : 0 < pairCount db u cq) : newTargets db cq (u :: us) = newTargets db cq us := by
  have hu : (pairCount db u cq == 0) = false := by
    simp only [beq_eq_false_iff_ne]; omega
  simp only [newTargets, firstOccurrences, List.filter_cons, hu, List.filter_filter]
  simp only [Bool.false_eq_true, if_false]
  apply List.filter_congr
  intro x _
  by_cases hx : x = u
  · subst hx; simp [hu]
  · simp [hx]

theorem newTargets_cons_new (db : DB) (cq : ObjectID) (u : String) (us : List String)
    (by_ : String) (now : Time) (h : pairCount db u cq = 0) :
    newTargets db cq (u :: us) =
      u :: newTargets (db.withCreated [NewUserQuestionnaireAssignment db.nextObjectID cq u by_ now])
        cq us := by
  have hu : (pairCount db u cq == 0) = true := by simp [h]
  simp only [newTargets, firstOccurrences, List.filter_cons, hu, if_true, List.filter_filter]
  congr 1
  apply List.filter_congr
  intro x _
  rw [pairCount_withCreated]
  by_cases hx : x = u
  · subst hx; simp [NewUserQuestionnaireAssignment]
  · have hx2 : ¬ u = x := fun e => hx e.symm
    simp [NewUserQuestionnaireAssignment, hx, hx2]

theorem createAssignments_cons_dup (by_ : String) (cq : ObjectID) (now : Time) (u : String)
    (us : List String) (db : DB) (acc : List UserQuestionnaireAssignment)
    (h : 0 < pairCount db u cq) :
    createAssignments by_ cq now (u :: us) db acc = createAssignments by_ cq now us db acc := by
  have hd : (db.assignments.filter
      (fun a => a.userID == u && a.companyQuestionnaireID == cq)).length > 0 := h
  simp only [createAssignments, AssignmentRepository.CheckDuplicate, hd, decide_True, if_true]

theorem createAssignments_cons_new (by_ : String) (cq : ObjectID) (now : Time) (u : String)
    (us : List String) (db : DB) (acc : List UserQuestionnaireAssignment)
    (h : pairCount db u cq = 0) :
    createAssignments by_ cq now (u :: us) db acc =
      createAssignments by_ cq now us
        (db.withCreated [NewUserQuestionnaireAssignment db.nextObjectID cq u by_ now])
        (acc ++ [NewUserQuestionnaireAssignment db.nextObjectID cq u by_ now]) := by
  have hd : ¬ (db.assignments.filter
      (fun a => a.userID == u && a.companyQuestionnaireID == cq)).length > 0 := by
    have : (db.assignments.filter
      (fun a => a.userID == u && a.companyQuestionnaireID == cq)).length = 0 := h
    omega
  simp only [createAssignments, AssignmentRepository.CheckDuplicate, hd, decide_False,
    Bool.false_eq_true, if_false, DB.newObjectID, AssignmentRepository.Create]
  rfl

/-- The creation loop appends one pending assignment per new target and nothing else. -/
theorem createAssignments_eq (by_ : String) (cq : ObjectID) (now : Time) (us : List String)
    (db : DB) (acc : List UserQuestionnaireAssignment) :
    createAssignments by_ cq now us db acc =
      (.ok (acc ++ freshAssignments by_ cq now db.nextObjectID (newTargets db cq us)),
       db.withCreated (freshAssignments by_ cq now db.nextObjectID (newTargets db cq us))) := by
  induction us generalizing db acc with
  | nil => simp [createAssignments, newTargets, firstOccurrences, freshAssignments, withCreated_nil]
  | cons u us ih =>
    by_cases hdup : 0 < pairCount db u cq
    · rw [createAssignments_cons_dup by_ cq now u us db acc hdup, ih,
        newTargets_cons_dup db cq u us hdup]
    · have h0 : pairCount db u cq = 0 := by omega
      rw [createAssignments_cons_new by_ cq now u us db acc h0, ih,
        newTargets_cons_new db cq u us by_ now h0]
      have hn : (db.withCreated [NewUserQuestionnaireAssignment db.nextObjectID cq u by_ now]).nextObjectID
          = db.nextObjectID + 1 := by simp [DB.withCreated]
      rw [hn]
      simp only [freshAssignments, List.append_assoc, List.singleton_append, withCreated_cons]

theorem verifyTargets_ok (db : DB) (c : ObjectID) (us : List String)
    (h : ∀ u ∈ us, ∃ m, UserMetadataRepository.GetByID db u = .ok m ∧ m.companyID = c) :
    verifyTargets db c us = .ok () := by
  induction us with
  | nil => rfl
  | cons u us ih =>
    obtain ⟨m, hm, hc⟩ := h u (List.mem_cons_self _ _)
    simp only [verifyTargets, hm, hc, bne_self_eq_false, Bool.false_eq_true, if_false]
    exact ih (fun v hv => h v (List.mem_cons_of_mem _ hv))

theorem verifyTargets_foreign (db : DB) (c : ObjectID) (us : List String)
    (hall : ∀ u ∈ us, ∃ m, UserMetadataRepository.GetByID db u = .ok m)
    (hex : ∃ u ∈ us, ∃ m, UserMetadataRepository.GetByID db u = .ok m ∧ m.companyID ≠ c) :
    ∃ u ∈ us, (∃ m, UserMetadataRepository.GetByID db u = .ok m ∧ m.companyID ≠ c) ∧
      verifyTargets db c us =
        .error ("unauthorized: cannot assign to user " ++ u ++ " outside your company") := by
  induction us with
  | nil => obtain ⟨u, hu, _⟩ := hex; simp at hu
  | cons v vs ih =>
    obtain ⟨m, hm⟩ := hall v (List.mem_cons_self _ _)
    by_cases hc : m.companyID = c
    · have hex2 : ∃ u ∈ vs, ∃ m, UserMetadataRepository.GetByID db u = .ok m ∧ m.companyID ≠ c := by
        obtain ⟨u, hu, m2, hm2, hc2⟩ := hex
        rcases List.mem_cons.mp hu with rfl | hu
        · rw [hm] at hm2; cases hm2; exact absurd hc hc2
        · exact ⟨u, hu, m2, hm2, hc2⟩
      obtain ⟨u, hu, hf, hres⟩ := ih (fun w hw => hall w (List.mem_cons_of_mem _ hw)) hex2
      refine ⟨u, List.mem_cons_of_mem _ hu, hf, ?_⟩
      simp only [verifyTargets, hm, hc, bne_self_eq_false, Bool.false_eq_true, if_false]
      exact hres
    · refine ⟨v, List.mem_cons_self _ _, ⟨m, hm, hc⟩, ?_⟩
      have hb : (m.companyID != c) = true := by simp [hc]
      simp only [verifyTargets, hm, hb, if_true]

theorem authorizeAssigner_ok (db : DB) (assignedBy : String) (cq : CompanyQuestionnaire)
    (userIDs : List String) (isSuperAdmin : Bool)
    (h : isSuperAdmin = true ∨ SameCompany db assignedBy cq userIDs) :
    authorizeAssigner db assignedBy cq userIDs isSuperAdmin = .ok () := by
  cases isSuperAdmin with
  | true => simp [authorizeAssigner]
  | false =>
    rcases h with h | ⟨am, ham, hc, hall⟩
    · cases h
    · simp only [authorizeAssigner, Bool.not_false, if_true, ham, hc, bne_self_eq_false,
        Bool.false_eq_true, if_false]
      exact verifyTargets_ok db am.companyID userIDs hall

/-- After the validation and authorization steps `AssignToUsers` is its creation loop. -/
theorem assignToUsers_validated (db : DB) (assignedBy : String) (cqID : ObjectID)
    (userIDs : List String) (isSuperAdmin : Bool) (now : Time)
    (cq : CompanyQuestionnaire) (qn : Questionnaire)
    (hne : userIDs ≠ [])
    (hcq : CompanyQuestionnaireRepository.GetByID db cqID = .ok cq) (hact : cq.isActive = true)
    (hqn : QuestionnaireRepository.GetByID db cq.questionnaireID = .ok qn)
    (hq : qn.questions ≠ [])
    (hauth : authorizeAssigner db assignedBy cq userIDs isSuperAdmin = .ok ()) :
    AssignmentService.AssignToUsers db assignedBy cqID userIDs isSuperAdmin now =
      if newTargets db cqID userIDs = [] then
        (.error "no new assignments created (all users already assigned)", db)
      else
        (.ok (freshAssignments assignedBy cqID now db.nextObjectID (newTargets db cqID userIDs)),
         db.withCreated
           (freshAssignments assignedBy cqID now db.nextObjectID (newTargets db cqID userIDs))) := by
  have h1 : ¬ userIDs.length = 0 := by simpa using hne
  have h2 : ¬ qn.questions.length = 0 := by simpa using hq
  simp only [AssignmentService.AssignToUsers, h1, if_false, hcq, hact, Bool.not_true,
    Bool.false_eq_true, hqn, h2, hauth, createAssignments_eq, List.nil_append,
    freshAssignments_length]
  by_cases hnt : newTargets db cqID userIDs = []
  · simp [hnt, freshAssignments, withCreated_nil]
  · have : ¬ (newTargets db cqID userIDs).length = 0 := by simpa using hnt
    simp [hnt, this]

/-! ## Distinct new targets -/

theorem mem_firstOccurrences (l : List String) (x : String) :
    x ∈ firstOccurrences l ↔ x ∈ l := by
  induction l with
  | nil => simp [firstOccurrences]
  | cons y ys ih =>
    simp only [firstOccurrences, List.mem_cons, List.mem_filter, ih, bne_iff_ne]
    by_cases h : x = y
    · simp [h]
    · simp [h]

theorem firstOccurrences_nodup (l : List String) : (firstOccurrences l).Nodup := by
  induction l with
  | nil => simp [firstOccurrences]
  | cons y ys ih =>
    simp only [firstOccurrences, List.nodup_cons, List.mem_filter, bne_self_eq_false,
      Bool.false_eq_true, and_false, not_false_eq_true, true_and]
    exact ih.filter _

theorem firstOccurrences_sublist (l : List String) : (firstOccurrences l).Sublist l := by
  induction l with
  | nil => simp [firstOccurrences]
  | cons y ys ih =>
    simp only [firstOccurrences]
    exact ((List.filter_sublist _).trans ih).cons₂ y

theorem newTargets_nodup (db : DB) (cq : ObjectID) (us : List String) :
    (newTargets db cq us).Nodup :=
  (firstOccurrences_nodup us).filter _

theorem newTargets_sublist (db : DB) (cq : ObjectID) (us : List String) :
    (newTargets db cq us).Sublist us :=
  (List.filter_sublist _).trans (firstOccurrences_sublist us)

theorem mem_newTargets (db : DB) (cq : ObjectID) (us : List String) (u : String) :
    u ∈ newTargets db cq us ↔ u ∈ us ∧ pairCount db u cq = 0 := by
  simp [newTargets, mem_firstOccurrences]

theorem freshAssignments_count (by_ : String) (cq : ObjectID) (now : Time) (n : ObjectID)
    (us : List String) (u : String) (c : ObjectID) :
    ((freshAssignments by_ cq now n us).filter
      (fun a => a.userID == u && a.companyQuestionnaireID == c)).length =
      if c = cq then us.count u else 0 := by
  induction us generalizing n with
  | nil => simp [freshAssignments]
  | cons v vs ih =>
    simp only [freshAssignments, List.filter_cons, NewUserQuestionnaireAssignment,
      List.count_cons]
    by_cases hc : c = cq
    · subst hc
      by_cases hv : v = u
      · subst hv; simp [ih]
      · simp [hv, ih]
    · have hc2 : ¬ cq = c := fun e => hc e.symm
      simp [hc, hc2, ih]

/-- Inserting one pending assignment per new target keeps the pairs distinct, and every
new target then has exactly one assignment. -/
theorem pairCount_after_creation (db : DB) (by_ : String) (cq : ObjectID) (now : Time)
    (us : List String) (u : String) (c : ObjectID) :
    pairCount (db.withCreated (freshAssignments by_ cq now db.nextObjectID (newTargets db cq us)))
      u c = if c = cq ∧ u ∈ us ∧ pairCount db u cq = 0 then 1 else pairCount db u c := by
  rw [pairCount_withCreated, freshAssignments_count]
  by_cases hc : c = cq
  · subst hc
    by_cases hm : u ∈ newTargets db c us
    · have h1 := List.count_eq_one_of_mem (newTargets_nodup db c us) hm
      have h2 := (mem_newTargets db c us u).mp hm
      simp [h1, h2]
    · have h1 := List.count_eq_zero_of_not_mem hm
      have h2 : ¬ (u ∈ us ∧ pairCount db u c = 0) := fun h => hm ((mem_newTargets db c us u).mpr h)
      simp [h1, h2]
  · simp [hc]

/-- The store after `AssignToUsers` is either the old one or the old one extended by the
pending assignments of the new targets. -/
theorem assignToUsers_store (db : DB) (assignedBy : String) (cqID : ObjectID)
    (userIDs : List String) (isSuperAdmin : Bool) (now : Time) :
    (AssignmentService.AssignToUsers db assignedBy cqID userIDs isSuperAdmin now).2 = db ∨
    (AssignmentService.AssignToUsers db assignedBy cqID userIDs isSuperAdmin now).2 =
      db.withCreated
        (freshAssignments assignedBy cqID now db.nextObjectID (newTargets db cqID userIDs)) := by
  unfold AssignmentService.AssignToUsers
  simp only [createAssignments_eq]
  repeat' split
  all_goals first
    | (left; rfl)
    | (right; rfl)

/-! ## Idempotent assignment -/

/-- C2 (idempotent assignment): `AssignToUsers` with any arguments preserves "at most one
assignment per (user_id, company_questionnaire_id)"; and when validation and authorization
pass, after the call every target user has exactly one assignment for the binding and a
second call with the same arguments fails with "no new assignments" and creates nothing. -/
theorem assignToUsers_keeps_one_assignment_per_pair (db : DB) (assignedBy : String)
    (cqID : ObjectID) (userIDs : List String) (isSuperAdmin : Bool) (now later : Time)
    (hinv : AtMostOnePerPair db) :
    AtMostOnePerPair
      (AssignmentService.AssignToUsers db assignedBy cqID userIDs isSuperAdmin now).2 ∧
    (∀ cq qn, userIDs ≠ [] →
      CompanyQuestionnaireRepository.GetByID db cqID = .ok cq → cq.isActive = true →
      QuestionnaireRepository.GetByID db cq.questionnaireID = .ok qn → qn.questions ≠ [] →
      (isSuperAdmin = true ∨ SameCompany db assignedBy cq userIDs) →
      (∀ u ∈ userIDs, pairCount
        (AssignmentService.AssignToUsers db assignedBy cqID userIDs isSuperAdmin now).2
        u cqID = 1) ∧
      AssignmentService.AssignToUsers
        (AssignmentService.AssignToUsers db assignedBy cqID userIDs isSuperAdmin now).2
        assignedBy cqID userIDs isSuperAdmin later =
        (.error "no new assignments created (all users already assigned)",
         (AssignmentService.AssignToUsers db assignedBy cqID userIDs isSuperAdmin now).2)) := by
  constructor
  · rcases assignToUsers_store db assignedBy cqID userIDs isSuperAdmin now with h | h
    · rw [h]; exact hinv
    · rw [h]
      intro u c
      rw [pairCount_after_creation]
      split
      · exact le_refl 1
      · exact hinv u c
  · intro cq qn hne hcq hact hqn hq hauth
    have hstore : (AssignmentService.AssignToUsers db assignedBy cqID userIDs isSuperAdmin now).2 =
        db.withCreated
          (freshAssignments assignedBy cqID now db.nextObjectID (newTargets db cqID userIDs)) := by
      rw [assignToUsers_validated db assignedBy cqID userIDs isSuperAdmin now cq qn hne hcq hact
        hqn hq (authorizeAssigner_ok db assignedBy cq userIDs isSuperAdmin hauth)]
      by_cases hnt : newTargets db cqID userIDs = []
      · simp [hnt, freshAssignments, withCreated_nil]
      · simp [hnt]
    rw [hstore]
    have hcount : ∀ u ∈ userIDs, pairCount (db.withCreated
        (freshAssignments assignedBy cqID now db.nextObjectID (newTargets db cqID userIDs)))
        u cqID = 1 := by
      intro u hu
      rw [pairCount_after_creation]
      by_cases h0 : pairCount db u cqID = 0
      · simp [hu, h0]
      · have := hinv u cqID
        simp only [h0, and_false, if_false]
        omega
    refine ⟨hcount, ?_⟩
    have hauth2 : isSuperAdmin = true ∨ SameCompany (db.withCreated
        (freshAssignments assignedBy cqID now db.nextObjectID (newTargets db cqID userIDs)))
        assignedBy cq userIDs := hauth
    have hcq2 : CompanyQuestionnaireRepository.GetByID (db.withCreated
        (freshAssignments assignedBy cqID now db.nextObjectID (newTargets db cqID userIDs)))
        cqID = .ok cq := hcq
    have hqn2 : QuestionnaireRepository.GetByID (db.withCreated
        (freshAssignments assignedBy cqID now db.nextObjectID (newTargets db cqID userIDs)))
        cq.questionnaireID = .ok qn := hqn
    rw [assignToUsers_validated _ assignedBy cqID userIDs isSuperAdmin later cq qn hne hcq2 hact
      hqn2 hq (authorizeAssigner_ok _ assignedBy cq userIDs isSuperAdmin hauth2)]
    have hnil : newTargets (db.withCreated
        (freshAssignments assignedBy cqID now db.nextObjectID (newTargets db cqID userIDs)))
        cqID userIDs = [] := by
      rw [List.eq_nil_iff_forall_not_mem]
      intro u hu
      rw [mem_newTargets] at hu
      have := hcount u hu.1
      omega
    simp [hnil]

/-- Witness for C2: in the two-company store "boss" assigns binding 3 to "alice" (already
assigned) and "carol" twice in one list; afterwards each has one assignment and the
repeated call creates nothing. -/
theorem assignToUsers_keeps_one_assignment_per_pair_witness :
    AtMostOnePerPair (AssignmentService.AssignToUsers twoCompanyDB "boss" 3
      ["carol", "alice", "carol"] false (jan1 + 5)).2 ∧
    pairCount (AssignmentService.AssignToUsers twoCompanyDB "boss" 3
      ["carol", "alice", "carol"] false (jan1 + 5)).2 "carol" 3 = 1 :=
  have hinv : AtMostOnePerPair twoCompanyDB := fun u cq =>
    (List.length_filter_le _ _).trans (by decide)
  have h := assignToUsers_keeps_one_assignment_per_pair twoCompanyDB "boss" 3
    ["carol", "alice", "carol"] false (jan1 + 5) (jan1 + 6) hinv
  ⟨h.1, (h.2 sampleBinding sampleQuestionnaire (by decide) rfl rfl rfl (by decide)
    (Or.inr ⟨{ id := "boss", companyID := 1, supervisorID := none, department := "R&D" },
      rfl, rfl, by
        intro u hu
        simp only [List.mem_cons, List.mem_singleton, List.not_mem_nil, or_false] at hu
        rcases hu with rfl | rfl | rfl
        · exact ⟨_, rfl, rfl⟩
        · exact ⟨_, rfl, rfl⟩
        · exact ⟨_, rfl, rfl⟩⟩)).1 "carol" (by decide)⟩

/-! ## Result of `AssignToUsers` -/

/-- C10 (result of `AssignToUsers`): when the binding exists and is active, its questionnaire
is non-empty and the caller is super-admin or passes the company rule, the assignments
created are one per distinct target without an assignment for the binding, in the order of
first occurrence; each is pending with no responses and no timestamps and carries the
target, the binding and the caller; the call fails exactly when there is no such target,
leaving the store unchanged, and otherwise returns the created list and appends it to the
store; the number created never exceeds the number requested. -/
theorem assignToUsers_creates_exactly_new_targets (db : DB) (assignedBy : String)
    (cqID : ObjectID) (userIDs : List String) (isSuperAdmin : Bool) (now : Time)
    (cq : CompanyQuestionnaire) (qn : Questionnaire)
    (hcq : CompanyQuestionnaireRepository.GetByID db cqID = .ok cq) (hact : cq.isActive = true)
    (hqn : QuestionnaireRepository.GetByID db cq.questionnaireID = .ok qn)
    (hq : qn.questions ≠ [])
    (hauth : isSuperAdmin = true ∨ SameCompany db assignedBy cq userIDs) :
    (freshAssignments assignedBy cqID now db.nextObjectID (newTargets db cqID userIDs)).map
        (fun a => a.userID) = newTargets db cqID userIDs ∧
    (newTargets db cqID userIDs).Nodup ∧
    (newTargets db cqID userIDs).Sublist userIDs ∧
    (∀ u, u ∈ newTargets db cqID userIDs ↔ u ∈ userIDs ∧ pairCount db u cqID = 0) ∧
    (∀ a ∈ freshAssignments assignedBy cqID now db.nextObjectID (newTargets db cqID userIDs),
      a.status = .pending ∧ a.responses = [] ∧ a.startedAt = none ∧ a.completedAt = none ∧
      a.companyQuestionnaireID = cqID ∧ a.assignedBy = assignedBy ∧ a.assignedAt = now) ∧
    (freshAssignments assignedBy cqID now db.nextObjectID (newTargets db cqID userIDs)).length
      ≤ userIDs.length ∧
    (newTargets db cqID userIDs = [] →
      (∃ e, (AssignmentService.AssignToUsers db assignedBy cqID userIDs isSuperAdmin now).1
        = .error e) ∧
      (AssignmentService.AssignToUsers db assignedBy cqID userIDs isSuperAdmin now).2 = db) ∧
    (newTargets db cqID userIDs ≠ [] →
      AssignmentService.AssignToUsers db assignedBy cqID userIDs isSuperAdmin now =
        (.ok (freshAssignments assignedBy cqID now db.nextObjectID (newTargets db cqID userIDs)),
         { db with
           assignments := db.assignments ++
             freshAssignments assignedBy cqID now db.nextObjectID (newTargets db cqID userIDs),
           nextObjectID := db.nextObjectID + (newTargets db cqID userIDs).length })) := by
  refine ⟨freshAssignments_userIDs _ _ _ _ _, newTargets_nodup _ _ _, newTargets_sublist _ _ _,
    mem_newTargets _ _ _, freshAssignments_shape _ _ _ _ _, ?_, ?_, ?_⟩
  · rw [freshAssignments_length]
    exact (newTargets_sublist db cqID userIDs).length_le
  · intro hnil
    by_cases hne : userIDs = []
    · subst hne
      simp [AssignmentService.AssignToUsers]
    · rw [assignToUsers_validated db assignedBy cqID userIDs isSuperAdmin now cq qn hne hcq hact
        hqn hq (authorizeAssigner_ok db assignedBy cq userIDs isSuperAdmin hauth)]
      simp [hnil]
  · intro hnn
    have hne : userIDs ≠ [] := by
      intro h; subst h; exact hnn (by simp [newTargets, firstOccurrences])
    rw [assignToUsers_validated db assignedBy cqID userIDs isSuperAdmin now cq qn hne hcq hact
      hqn hq (authorizeAssigner_ok db assignedBy cq userIDs isSuperAdmin hauth)]
    simp [hnn, DB.withCreated, freshAssignments_length]

/-- Witness for C10: "boss" assigns binding 3 to carol, alice (already assigned) and carol
again; exactly one pending assignment, for carol, is created with the next identifier. -/
theorem assignToUsers_creates_exactly_new_targets_witness :
    AssignmentService.AssignToUsers twoCompanyDB "boss" 3 ["carol", "alice", "carol"] false
        (jan1 + 5) =
      (.ok [NewUserQuestionnaireAssignment 5 3 "carol" "boss" (jan1 + 5)],
       { twoCompanyDB with
         assignments := twoCompanyDB.assignments ++
           [NewUserQuestionnaireAssignment 5 3 "carol" "boss" (jan1 + 5)],
         nextObjectID := 6 }) :=
  (assignToUsers_creates_exactly_new_targets twoCompanyDB "boss" 3 ["carol", "alice", "carol"]
    false (jan1 + 5) sampleBinding sampleQuestionnaire rfl rfl rfl (by decide)
    (Or.inr ⟨{ id := "boss", companyID := 1, supervisorID := none, department := "R&D" },
      rfl, rfl, by
        intro u hu
        simp only [List.mem_cons, List.mem_singleton, List.not_mem_nil, or_false] at hu
        rcases hu with rfl | rfl | rfl
        · exact ⟨_, rfl, rfl⟩
        · exact ⟨_, rfl, rfl⟩
        · exact ⟨_, rfl, rfl⟩⟩)).2.2.2.2.2.2.2 (by decide)

/-! ## Authorization of `AssignToUsers` -/

/-- C7 as stated fails on an empty target list: a caller of company 9 names binding 3 of
company 1 with no targets; all stated preconditions hold, yet the error is the empty-list
error, issued before any company check. -/
theorem assignToUsers_empty_list_not_unauthorized :
    UserMetadataRepository.GetByID twoCompanyDB "mallory" =
      .ok { id := "mallory", companyID := 9, supervisorID := none, department := "Ops" } ∧
    CompanyQuestionnaireRepository.GetByID twoCompanyDB 3 = .ok sampleBinding ∧
    sampleBinding.isActive = true ∧ sampleBinding.companyID ≠ 9 ∧
    QuestionnaireRepository.GetByID twoCompanyDB sampleBinding.questionnaireID =
      .ok sampleQuestionnaire ∧
    sampleQuestionnaire.questions ≠ [] ∧
    (∀ u ∈ ([] : List String), ∃ m, UserMetadataRepository.GetByID twoCompanyDB u = .ok m) ∧
    AssignmentService.AssignToUsers twoCompanyDB "mallory" 3 [] false (jan1 + 5) =
      (.error "user IDs list cannot be empty", twoCompanyDB) ∧
    "user IDs list cannot be empty" ≠ "unauthorized: company questionnaire not in your company" := by
  refine ⟨rfl, rfl, rfl, by decide, rfl, by decide, ?_, rfl, by decide⟩
  intro u hu
  cases hu

/-- C7 (amended): for a non-empty target list, an active binding and a non-empty
questionnaire: a caller who is not super-admin, with metadata present for the caller and
every target, gets an "unauthorized" error and the store is unchanged whenever the binding's
company or some target's company differs from the caller's; a super-admin caller gets the
outcome of the creation loop, with no company check. -/
theorem assignToUsers_company_check (db : DB) (assignedBy : String)
    (cqID : ObjectID) (userIDs : List String) (isSuperAdmin : Bool) (now : Time)
    (cq : CompanyQuestionnaire) (qn : Questionnaire)
    (hne : userIDs ≠ [])
    (hcq : CompanyQuestionnaireRepository.GetByID db cqID = .ok cq) (hact : cq.isActive = true)
    (hqn : QuestionnaireRepository.GetByID db cq.questionnaireID = .ok qn)
    (hq : qn.questions ≠ []) :
    (isSuperAdmin = false → ∀ am, UserMetadataRepository.GetByID db assignedBy = .ok am →
      (∀ u ∈ userIDs, ∃ m, UserMetadataRepository.GetByID db u = .ok m) →
      (cq.companyID ≠ am.companyID ∨
        ∃ u ∈ userIDs, ∃ m, UserMetadataRepository.GetByID db u = .ok m ∧
          m.companyID ≠ am.companyID) →
      (AssignmentService.AssignToUsers db assignedBy cqID userIDs isSuperAdmin now).2 = db ∧
      ((AssignmentService.AssignToUsers db assignedBy cqID userIDs isSuperAdmin now).1 =
          .error "unauthorized: company questionnaire not in your company" ∨
        ∃ u ∈ userIDs,
          (∃ m, UserMetadataRepository.GetByID db u = .ok m ∧ m.companyID ≠ am.companyID) ∧
          (AssignmentService.AssignToUsers db assignedBy cqID userIDs isSuperAdmin now).1 =
            .error ("unauthorized: cannot assign to user " ++ u ++ " outside your company"))) ∧
    (isSuperAdmin = true →
      AssignmentService.AssignToUsers db assignedBy cqID userIDs isSuperAdmin now =
        if newTargets db cqID userIDs = [] then
          (.error "no new assignments created (all users already assigned)", db)
        else
          (.ok (freshAssignments assignedBy cqID now db.nextObjectID (newTargets db cqID userIDs)),
           db.withCreated
             (freshAssignments assignedBy cqID now db.nextObjectID
               (newTargets db cqID userIDs)))) := by
  have h1 : ¬ userIDs.length = 0 := by simpa using hne
  have h2 : ¬ qn.questions.length = 0 := by simpa using hq
  constructor
  · intro hsa am ham hall hbad
    subst hsa
    by_cases hc : cq.companyID = am.companyID
    · have hex : ∃ u ∈ userIDs, ∃ m, UserMetadataRepository.GetByID db u = .ok m ∧
          m.companyID ≠ am.companyID := by
        rcases hbad with h | h
        · exact absurd hc h
        · exact h
      obtain ⟨u, hu, hf, hres⟩ := verifyTargets_foreign db am.companyID userIDs hall hex
      have hr : AssignmentService.AssignToUsers db assignedBy cqID userIDs false now =
          (.error ("unauthorized: cannot assign to user " ++ u ++ " outside your company"),
            db) := by
        simp only [AssignmentService.AssignToUsers, h1, if_false, hcq, hact, Bool.not_true,
          Bool.false_eq_true, hqn, h2, authorizeAssigner, Bool.not_false, if_true, ham, hc,
          bne_self_eq_false, hres]
      rw [hr]
      exact ⟨rfl, Or.inr ⟨u, hu, hf, rfl⟩⟩
    · have hb : (cq.companyID != am.companyID) = true := by simp [hc]
      have hr : AssignmentService.AssignToUsers db assignedBy cqID userIDs false now =
          (.error "unauthorized: company questionnaire not in your company", db) := by
        simp only [AssignmentService.AssignToUsers, h1, if_false, hcq, hact, Bool.not_true,
          Bool.false_eq_true, hqn, h2, authorizeAssigner, Bool.not_false, if_true, ham, hb]
      rw [hr]
      exact ⟨rfl, Or.inl rfl⟩
  · intro hsa
    exact assignToUsers_validated db assignedBy cqID userIDs isSuperAdmin now cq qn hne hcq hact
      hqn hq (authorizeAssigner_ok db assignedBy cq userIDs isSuperAdmin (Or.inl hsa))

/-- Witness for C7 (amended): "boss" of company 1 lists alice and carol of company 1 and
then mallory of company 9; nothing is created, not even for carol. -/
theorem assignToUsers_company_check_witness :
    (AssignmentService.AssignToUsers twoCompanyDB "boss" 3 ["alice", "carol", "mallory"] false
      (jan1 + 5)).2 = twoCompanyDB :=
  ((assignToUsers_company_check twoCompanyDB "boss" 3 ["alice", "carol", "mallory"] false
    (jan1 + 5) sampleBinding sampleQuestionnaire (by decide) rfl rfl rfl (by decide)).1 rfl
    { id := "boss", companyID := 1, supervisorID := none, department := "R&D" } rfl
    (by
      intro u hu
      simp only [List.mem_cons, List.mem_singleton, List.not_mem_nil, or_false] at hu
      rcases hu with rfl | rfl | rfl
      · exact ⟨_, rfl⟩
      · exact ⟨_, rfl⟩
      · exact ⟨_, rfl⟩)
    (Or.inr ⟨"mallory", by decide,
      { id := "mallory", companyID := 9, supervisorID := none, department := "Ops" },
      rfl, by decide⟩)).1

/-! ## Facts on `updateOne` -/

theorem updateOne_append_hit {α : Type} (p : α → Bool) (f : α → α) (l1 l2 : List α) (a : α)
    (h1 : ∀ x ∈ l1, p x = false) (ha : p a = true) :
    updateOne p f (l1 ++ a :: l2) = (l1 ++ f a :: l2, 1) := by
  induction l1 with
  | nil => simp [updateOne, ha]
  | cons x xs ih =>
    have hx : p x = false := h1 x (List.mem_cons_self _ _)
    have := ih (fun y hy => h1 y (List.mem_cons_of_mem _ hy))
    simp [updateOne, hx, this]

theorem updateOne_append_skip {α : Type} (p : α → Bool) (f : α → α) (l1 l2 : List α) (a : α)
    (h1 : ∀ x ∈ l1, p x = false) (ha : p a = false) :
    updateOne p f (l1 ++ a :: l2) =
      (l1 ++ a :: (updateOne p f l2).1, (updateOne p f l2).2) := by
  induction l1 with
  | nil => simp [updateOne, ha]
  | cons x xs ih =>
    have hx : p x = false := h1 x (List.mem_cons_self _ _)
    have := ih (fun y hy => h1 y (List.mem_cons_of_mem _ hy))
    simp [updateOne, hx, this]

theorem updateOne_none {α : Type} (p : α → Bool) (f : α → α) (l : List α)
    (h : ∀ x ∈ l, p x = false) : updateOne p f l = (l, 0) := by
  induction l with
  | nil => rfl
  | cons x xs ih =>
    have hx : p x = false := h x (List.mem_cons_self _ _)
    have := ih (fun y hy => h y (List.mem_cons_of_mem _ hy))
    simp [updateOne, hx, this]

theorem updateOne_forall₂ {α : Type} (R : α → α → Prop) (p : α → Bool) (f : α → α)
    (hrefl : ∀ x, R x x) (hf : ∀ x, R x (f x)) (l : List α) :
    List.Forall₂ R l (updateOne p f l).1 := by
  induction l with
  | nil => exact List.Forall₂.nil
  | cons x xs ih =>
    by_cases hx : p x = true
    · simp only [updateOne, hx, if_true]
      exact List.Forall₂.cons (hf x) (List.forall₂_same.mpr (fun y _ => hrefl y))
    · simp only [updateOne, hx]
      exact List.Forall₂.cons (hrefl x) ih

theorem forall₂_replace {α : Type} (R : α → α → Prop) (hrefl : ∀ x, R x x) (l1 l2 : List α)
    (a b : α) (hab : R a b) : List.Forall₂ R (l1 ++ a :: l2) (l1 ++ b :: l2) := by
  induction l1 with
  | nil => exact List.Forall₂.cons hab (List.forall₂_same.mpr (fun y _ => hrefl y))
  | cons x xs ih => exact List.Forall₂.cons (hrefl x) ih

/-- A successful `GetByID` splits the collection around the first document with that id. -/
theorem getByID_split (db : DB) (id : ObjectID) (a : UserQuestionnaireAssignment)
    (h : AssignmentRepository.GetByID db id = .ok a) :
    a.id = id ∧ ∃ l1 l2, db.assignments = l1 ++ a :: l2 ∧
      ∀ x ∈ l1, (x.id == id) = false := by
  have hf := getByID_ok_find db id a h
  rw [List.find?_eq_some] at hf
  obtain ⟨hid, l1, l2, hl, hfree⟩ := hf
  refine ⟨by simpa using hid, l1, l2, hl, ?_⟩
  intro x hx
  simpa using hfree x hx

theorem NoRegress.refl (a : UserQuestionnaireAssignment) : NoRegress a a :=
  ⟨rfl, le_refl _, fun h => h, fun h => h⟩

/-! ## Completed is terminal -/

/-- C5 (completed is terminal): on a completed assignment, `SaveResponse` and
`SubmitAssignment` called by the owner both return an error and leave the whole store,
hence the assignment's status, timestamps and responses, unchanged. -/
theorem completed_assignment_rejects_writes (db : DB) (assignmentID : ObjectID)
    (a : UserQuestionnaireAssignment) (questionID : String) (value : JsonValue) (now : Time)
    (ha : AssignmentRepository.GetByID db assignmentID = .ok a)
    (hdone : a.status = .completed) :
    AssignmentService.SaveResponse db assignmentID a.userID questionID value now =
      (.error "cannot modify completed assignment", db) ∧
    AssignmentService.SubmitAssignment db assignmentID a.userID now =
      (.error "assignment already completed", db) ∧
    AssignmentRepository.GetByID
      (AssignmentService.SaveResponse db assignmentID a.userID questionID value now).2
      assignmentID = .ok a ∧
    AssignmentRepository.GetByID
      (AssignmentService.SubmitAssignment db assignmentID a.userID now).2
      assignmentID = .ok a := by
  have h1 : AssignmentService.SaveResponse db assignmentID a.userID questionID value now =
      (.error "cannot modify completed assignment", db) := by
    simp [AssignmentService.SaveResponse, ha, hdone]
  have h2 : AssignmentService.SubmitAssignment db assignmentID a.userID now =
      (.error "assignment already completed", db) := by
    simp [AssignmentService.SubmitAssignment, ha, hdone]
  refine ⟨h1, h2, ?_, ?_⟩
  · rw [h1]; exact ha
  · rw [h2]; exact ha

/-- Witness for C5: the completed assignment 4 of "alice" rejects a further response. -/
theorem completed_assignment_rejects_writes_witness :
    AssignmentService.SaveResponse completedDB 4 "alice" "q-opt" (.str "yes") (jan1 + 3) =
      (.error "cannot modify completed assignment", completedDB) :=
  (completed_assignment_rejects_writes completedDB 4 completedAssignment "q-opt" (.str "yes")
    (jan1 + 3) rfl rfl).1

/-! ## State monotonicity -/

theorem updateStatus_eq (db : DB) (id : ObjectID) (status : AssignmentStatus) (now : Time)
    (a : UserQuestionnaireAssignment) (l1 l2 : List UserQuestionnaireAssignment)
    (hl : db.assignments = l1 ++ a :: l2) (h1 : ∀ x ∈ l1, (x.id == id) = false)
    (ha : a.id = id) :
    AssignmentRepository.UpdateStatus db id status now =
      (.ok (), { db with assignments := l1 ++ statusUpdate status now a :: l2 }) := by
  have hp : (fun b : UserQuestionnaireAssignment => b.id == id) a = true := by simp [ha]
  simp [AssignmentRepository.UpdateStatus, hl,
    updateOne_append_hit (fun b : UserQuestionnaireAssignment => b.id == id) _ l1 l2 a h1 hp]

theorem statusUpdate_id (status : AssignmentStatus) (now : Time)
    (a : UserQuestionnaireAssignment) : (statusUpdate status now a).id = a.id := by
  unfold statusUpdate; split
  · rfl
  · split <;> rfl

theorem statusUpdate_responses (status : AssignmentStatus) (now : Time)
    (a : UserQuestionnaireAssignment) :
    (statusUpdate status now a).responses = a.responses := by
  unfold statusUpdate; split
  · rfl
  · split <;> rfl

theorem addOrUpdateResponse_noRegress (db : DB) (id : ObjectID) (r : Response) (now : Time)
    (a : UserQuestionnaireAssignment)
    (ha : AssignmentRepository.GetByID db id = .ok a) (hnc : a.status ≠ .completed) :
    List.Forall₂ NoRegress db.assignments
      (AssignmentRepository.AddOrUpdateResponse db id r now).2.assignments := by
  obtain ⟨hid, l1, l2, hl, hfree⟩ := getByID_split db id a ha
  have hp : (fun b : UserQuestionnaireAssignment => b.id == id) a = true := by simp [hid]
  unfold AssignmentRepository.AddOrUpdateResponse
  simp only
  split
  · rw [hl, updateOne_append_hit (fun b : UserQuestionnaireAssignment => b.id == id) _ l1 l2 a
      hfree hp]
    simp only [one_ne_zero, if_false]
    rw [updateStatus_eq _ id .inProgress now { a with responses := a.responses ++ [r] } l1 l2 rfl
      hfree hid]
    apply forall₂_replace NoRegress NoRegress.refl
    refine ⟨rfl, ?_, fun _ => rfl, fun h => h⟩
    show a.status.rank ≤ 1
    cases hs : a.status with
    | pending => simp [AssignmentStatus.rank]
    | inProgress => simp [AssignmentStatus.rank]
    | completed => exact absurd hs hnc
  · show List.Forall₂ NoRegress db.assignments
      (updateOne (fun b : UserQuestionnaireAssignment =>
          b.id == id && b.responses.any (fun x => x.questionID == r.questionID))
        (fun b => { b with responses := setFirstMatching r b.responses }) db.assignments).1
    apply updateOne_forall₂ NoRegress _ _ NoRegress.refl
    intro x
    exact ⟨rfl, le_refl _, fun h => h, fun h => h⟩

/-- C4 (state monotonicity): for every store and every call of `SaveResponse` or
`SubmitAssignment`, successful or failing, the assignments after the call are, position by
position, the assignments before it with a status rank at least as high (pending <
in_progress < completed) and with every `started_at` and `completed_at` that was set still
set. -/
theorem status_never_regresses (db : DB) (assignmentID : ObjectID) (userID questionID : String)
    (value : JsonValue) (now : Time) :
    List.Forall₂ NoRegress db.assignments
      (AssignmentService.SaveResponse db assignmentID userID questionID value now).2.assignments ∧
    List.Forall₂ NoRegress db.assignments
      (AssignmentService.SubmitAssignment db assignmentID userID now).2.assignments := by
  have hrefl : List.Forall₂ NoRegress db.assignments db.assignments :=
    List.forall₂_same.mpr (fun x _ => NoRegress.refl x)
  constructor
  · unfold AssignmentService.SaveResponse
    split
    · exact hrefl
    · rename_i a ha
      split
      · exact hrefl
      · split
        · exact hrefl
        · rename_i hnc
          split
          · exact hrefl
          · split
            · exact hrefl
            · exact addOrUpdateResponse_noRegress db assignmentID _ now a ha hnc
  · unfold AssignmentService.SubmitAssignment
    split
    · exact hrefl
    · rename_i a ha
      split
      · exact hrefl
      · split
        · exact hrefl
        · split
          · exact hrefl
          · split
            · exact hrefl
            · simp only
              split
              · exact hrefl
              · obtain ⟨hid, l1, l2, hl, hfree⟩ := getByID_split db assignmentID a ha
                rw [updateStatus_eq db assignmentID .completed now a l1 l2 hl hfree hid, hl]
                apply forall₂_replace NoRegress NoRegress.refl
                refine ⟨rfl, ?_, fun h => h, fun _ => rfl⟩
                show a.status.rank ≤ 2
                cases a.status <;> simp [AssignmentStatus.rank]

/-! ## Response upsert -/

theorem setFirstMatching_ids (r : Response) (rs : List Response) :
    (setFirstMatching r rs).map (fun x => x.questionID) = rs.map (fun x => x.questionID) := by
  induction rs with
  | nil => rfl
  | cons x xs ih =>
    by_cases hx : x.questionID = r.questionID
    · simp [setFirstMatching, hx]
    · simp [setFirstMatching, hx, ih]

theorem setFirstMatching_length (r : Response) (rs : List Response) :
    (setFirstMatching r rs).length = rs.length := by
  have := congrArg List.length (setFirstMatching_ids r rs)
  simpa using this

theorem setFirstMatching_filter_ne (r : Response) (rs : List Response) :
    (setFirstMatching r rs).filter (fun x => x.questionID != r.questionID) =
      rs.filter (fun x => x.questionID != r.questionID) := by
  induction rs with
  | nil => rfl
  | cons x xs ih =>
    by_cases hx : x.questionID = r.questionID
    · simp [setFirstMatching, hx]
    · simp [setFirstMatching, hx, ih]

theorem filter_eq_nil_of_not_mem_ids (q : String) (rs : List Response)
    (h : q ∉ rs.map (fun x => x.questionID)) :
    rs.filter (fun x => x.questionID == q) = [] := by
  rw [List.filter_eq_nil_iff]
  intro x hx hq
  exact h (List.mem_map.mpr ⟨x, hx, by simpa using hq⟩)

theorem setFirstMatching_filter_eq (r : Response) (rs : List Response)
    (hn : (rs.map (fun x => x.questionID)).Nodup)
    (hm : r.questionID ∈ rs.map (fun x => x.questionID)) :
    (setFirstMatching r rs).filter (fun x => x.questionID == r.questionID) = [r] := by
  induction rs with
  | nil => simp at hm
  | cons x xs ih =>
    simp only [List.map_cons, List.nodup_cons] at hn
    by_cases hx : x.questionID = r.questionID
    · have hnot : r.questionID ∉ xs.map (fun x => x.questionID) := hx ▸ hn.1
      simp [setFirstMatching, hx, filter_eq_nil_of_not_mem_ids r.questionID xs hnot]
    · have hm2 : r.questionID ∈ xs.map (fun x => x.questionID) := by
        simp only [List.map_cons, List.mem_cons] at hm
        rcases hm with h | h
        · exact absurd h.symm hx
        · exact h
      simp [setFirstMatching, hx, ih hn.2 hm2]

/-- With distinct document ids, `AddOrUpdateResponse` rewrites exactly the addressed document:
it replaces the answer in place when the question was answered, and otherwise appends the
answer and applies the in-progress status update. -/
theorem addOrUpdateResponse_eq (db : DB) (id : ObjectID) (r : Response) (now : Time)
    (a : UserQuestionnaireAssignment) (l1 l2 : List UserQuestionnaireAssignment)
    (hl : db.assignments = l1 ++ a :: l2) (h1 : ∀ x ∈ l1, (x.id == id) = false)
    (h2 : ∀ x ∈ l2, (x.id == id) = false) (ha : a.id = id) :
    AssignmentRepository.AddOrUpdateResponse db id r now =
      (.ok (), { db with assignments := l1 ++
        (if a.responses.any (fun x => x.questionID == r.questionID) = true then
          { a with responses := setFirstMatching r a.responses }
        else statusUpdate .inProgress now { a with responses := a.responses ++ [r] }) :: l2 }) := by
  have hp : (fun b : UserQuestionnaireAssignment => b.id == id) a = true := by simp [ha]
  by_cases hany : a.responses.any (fun x => x.questionID == r.questionID) = true
  · have hq : (fun b : UserQuestionnaireAssignment =>
        b.id == id && b.responses.any (fun x => x.questionID == r.questionID)) a = true := by
      simp only [Bool.and_eq_true]; exact ⟨hp, hany⟩
    have hq1 : ∀ x ∈ l1, (fun b : UserQuestionnaireAssignment =>
        b.id == id && b.responses.any (fun x => x.questionID == r.questionID)) x = false := by
      intro x hx; simp only [h1 x hx, Bool.false_and]
    unfold AssignmentRepository.AddOrUpdateResponse
    simp only [hl, updateOne_append_hit _ _ l1 l2 a hq1 hq, one_ne_zero, if_false, hany, if_true]
  · have hq : (fun b : UserQuestionnaireAssignment =>
        b.id == id && b.responses.any (fun x => x.questionID == r.questionID)) a = false := by
      simp only [Bool.and_eq_false_iff]; right; simpa using hany
    have hq1 : ∀ x ∈ l1, (fun b : UserQuestionnaireAssignment =>
        b.id == id && b.responses.any (fun x => x.questionID == r.questionID)) x = false := by
      intro x hx; simp only [h1 x hx, Bool.false_and]
    have hq2 : ∀ x ∈ l2, (fun b : UserQuestionnaireAssignment =>
        b.id == id && b.responses.any (fun x => x.questionID == r.questionID)) x = false := by
      intro x hx; simp only [h2 x hx, Bool.false_and]
    unfold AssignmentRepository.AddOrUpdateResponse
    simp only [hl, updateOne_append_skip _ _ l1 l2 a hq1 hq, updateOne_none _ _ l2 hq2,
      if_true, updateOne_append_hit (fun b : UserQuestionnaireAssignment => b.id == id) _ l1 l2 a
        h1 hp, one_ne_zero, if_false, hany]
    rw [updateStatus_eq _ id .inProgress now { a with responses := a.responses ++ [r] } l1 l2 rfl
      h1 ha]
    simp [hany]

theorem saveResponse_ok_eq (db : DB) (id : ObjectID) (userID q : String) (v : JsonValue)
    (now : Time)
    (hok : (AssignmentService.SaveResponse db id userID q v now).1 = .ok ()) :
    AssignmentService.SaveResponse db id userID q v now =
      AssignmentRepository.AddOrUpdateResponse db id (NewResponse q v now) now := by
  unfold AssignmentService.SaveResponse at hok ⊢
  split
  · rename_i e he; rw [he] at hok; cases hok
  · rename_i a ha
    rw [ha] at hok
    simp only at hok ⊢
    split
    · rename_i h; rw [if_pos h] at hok; cases hok
    · rename_i h
      rw [if_neg h] at hok
      split
      · rename_i h3; rw [if_pos h3] at hok; cases hok
      · rename_i h3
        rw [if_neg h3] at hok
        split
        · rename_i e he; rw [he] at hok; cases hok
        · rename_i cq hcq
          rw [hcq] at hok
          simp only at hok ⊢
          split
          · rename_i h5; rw [if_pos h5] at hok; cases hok
          · rfl

theorem upsert_props (r : Response) (rs : List Response)
    (hn : (rs.map (fun x => x.questionID)).Nodup) :
    (upsert r rs).filter (fun x => x.questionID == r.questionID) = [r] ∧
    (upsert r rs).filter (fun x => x.questionID != r.questionID) =
      rs.filter (fun x => x.questionID != r.questionID) ∧
    (upsert r rs).length =
      (if r.questionID ∈ rs.map (fun x => x.questionID) then rs.length else rs.length + 1) ∧
    ((upsert r rs).map (fun x => x.questionID)).Nodup ∧
    r.questionID ∈ (upsert r rs).map (fun x => x.questionID) := by
  unfold upsert
  by_cases hm : r.questionID ∈ rs.map (fun x => x.questionID)
  · simp only [hm, if_true]
    refine ⟨setFirstMatching_filter_eq r rs hn hm, setFirstMatching_filter_ne r rs,
      setFirstMatching_length r rs, ?_, ?_⟩
    · rw [setFirstMatching_ids]; exact hn
    · rw [setFirstMatching_ids]; exact hm
  · simp only [hm, if_false]
    refine ⟨?_, ?_, ?_, ?_, ?_⟩
    · rw [List.filter_append, filter_eq_nil_of_not_mem_ids r.questionID rs hm]; simp
    · rw [List.filter_append]; simp
    · simp
    · rw [List.map_append, List.nodup_append]
      refine ⟨hn, by simp, ?_⟩
      intro x hx hx2
      simp only [List.map_cons, List.map_nil, List.mem_singleton] at hx2
      exact hm (hx2 ▸ hx)
    · simp

theorem getByID_of_split (db : DB) (id : ObjectID) (a : UserQuestionnaireAssignment)
    (l1 l2 : List UserQuestionnaireAssignment) (hl : db.assignments = l1 ++ a :: l2)
    (h1 : ∀ x ∈ l1, (x.id == id) = false) (ha : a.id = id) :
    AssignmentRepository.GetByID db id = .ok a := by
  have hf : db.assignments.find? (fun b => b.id == id) = some a := by
    rw [List.find?_eq_some]
    refine ⟨by simp [ha], l1, l2, hl, ?_⟩
    intro x hx
    simp [h1 x hx]
  simp [AssignmentRepository.GetByID, hf]

/-- One successful `SaveResponse` on a store with distinct document ids. -/
theorem saveResponse_upsert_core (db : DB) (id : ObjectID) (userID q : String) (v : JsonValue)
    (now : Time) (a : UserQuestionnaireAssignment)
    (hids : (db.assignments.map (fun x => x.id)).Nodup)
    (ha : AssignmentRepository.GetByID db id = .ok a)
    (hok : (AssignmentService.SaveResponse db id userID q v now).1 = .ok ()) :
    ∃ b, AssignmentRepository.GetByID
        (AssignmentService.SaveResponse db id userID q v now).2 id = .ok b ∧
      b.responses = upsert (NewResponse q v now) a.responses ∧
      ((AssignmentService.SaveResponse db id userID q v now).2.assignments.map
        (fun x => x.id)).Nodup := by
  obtain ⟨hid, l1, l2, hl, h1⟩ := getByID_split db id a ha
  have h2 : ∀ x ∈ l2, (x.id == id) = false := by
    intro x hx
    rw [hl, List.map_append, List.map_cons, List.nodup_append, List.nodup_cons] at hids
    have hne : x.id ≠ a.id := by
      intro he
      exact hids.2.1.1 (List.mem_map.mpr ⟨x, hx, he⟩)
    simpa [hid] using hne
  rw [saveResponse_ok_eq db id userID q v now hok,
    addOrUpdateResponse_eq db id (NewResponse q v now) now a l1 l2 hl h1 h2 hid]
  have hmem : (a.responses.any (fun x => x.questionID == (NewResponse q v now).questionID) = true)
      ↔ (NewResponse q v now).questionID ∈ a.responses.map (fun x => x.questionID) := by
    simp only [List.any_eq_true, beq_iff_eq, List.mem_map]
  by_cases hany : a.responses.any (fun x => x.questionID == (NewResponse q v now).questionID) = true
  · simp only [hany, if_true]
    refine ⟨_, getByID_of_split _ id _ l1 l2 rfl h1 hid, ?_, ?_⟩
    · simp only [upsert, hmem.mp hany, if_true]
    · rw [hl] at hids; simpa using hids
  · simp only [hany, Bool.false_eq_true, if_false]
    refine ⟨_, getByID_of_split _ id _ l1 l2 rfl h1 ?_, ?_, ?_⟩
    · rw [statusUpdate_id]; exact hid
    · rw [statusUpdate_responses]
      have : ¬ (NewResponse q v now).questionID ∈ a.responses.map (fun x => x.questionID) :=
        fun h => hany (hmem.mpr h)
      simp only [upsert, this, if_false]
    · rw [hl] at hids
      simpa [statusUpdate_id] using hids

/-- C3 (response upsert): on a store with distinct document ids and an assignment with at
most one response per question id, a successful `SaveResponse` for question `q` with value
`v` leaves exactly one response for `q`; that response has question id `q`, its response
map is the single entry "value" ↦ `v` (so `GetValue` returns `v`), and its `answered_at` is
the time of the call at the store's millisecond resolution.  The responses for other
questions are unchanged and keep their order; the number of responses is unchanged when `q`
was answered and grows by one otherwise; and a second successful save for `q` with value
`w` leaves again one response for `q`, now carrying `w`, the other responses as they were,
and the same number of responses. -/
theorem saveResponse_upserts_response (db : DB) (id : ObjectID) (userID q : String)
    (v : JsonValue) (now : Time) (a : UserQuestionnaireAssignment)
    (hids : (db.assignments.map (fun x => x.id)).Nodup)
    (ha : AssignmentRepository.GetByID db id = .ok a)
    (hr : (a.responses.map (fun x => x.questionID)).Nodup)
    (hok : (AssignmentService.SaveResponse db id userID q v now).1 = .ok ()) :
    ∃ b, AssignmentRepository.GetByID
        (AssignmentService.SaveResponse db id userID q v now).2 id = .ok b ∧
      (∃ r, b.responses.filter (fun x => x.questionID == q) = [r] ∧
        r.questionID = q ∧ r.responseValue = [("value", v)] ∧ r.GetValue = some v ∧
        bsonMillis r.answeredAt = bsonMillis now) ∧
      b.responses.filter (fun x => x.questionID != q) =
        a.responses.filter (fun x => x.questionID != q) ∧
      b.responses.length =
        (if q ∈ a.responses.map (fun x => x.questionID) then a.responses.length
         else a.responses.length + 1) ∧
      (b.responses.map (fun x => x.questionID)).Nodup ∧
      ∀ (w : JsonValue) (later : Time),
        (AssignmentService.SaveResponse
          (AssignmentService.SaveResponse db id userID q v now).2 id userID q w later).1
          = .ok () →
        ∃ c, AssignmentRepository.GetByID
            (AssignmentService.SaveResponse
              (AssignmentService.SaveResponse db id userID q v now).2 id userID q w later).2 id
            = .ok c ∧
          (∃ r, c.responses.filter (fun x => x.questionID == q) = [r] ∧
            r.questionID = q ∧ r.responseValue = [("value", w)] ∧ r.GetValue = some w ∧
            bsonMillis r.answeredAt = bsonMillis later) ∧
          c.responses.filter (fun x => x.questionID != q) =
            a.responses.filter (fun x => x.questionID != q) ∧
          c.responses.length = b.responses.length := by
  have hval : ∀ (u : JsonValue) (t : Time), (NewResponse q u t).GetValue = some u := by
    intro u t
    simp [Response.GetValue, NewResponse, List.lookup]
  obtain ⟨b, hb, hbr, hbids⟩ := saveResponse_upsert_core db id userID q v now a hids ha hok
  obtain ⟨p1, p2, p3, p4, p5⟩ := upsert_props (NewResponse q v now) a.responses hr
  refine ⟨b, hb, ?_, ?_, ?_, ?_, ?_⟩
  · exact ⟨NewResponse q v now, by rw [hbr]; exact p1, rfl, rfl, hval v now, rfl⟩
  · rw [hbr]; exact p2
  · rw [hbr]; exact p3
  · rw [hbr]; exact p4
  · intro w later hok2
    obtain ⟨c, hc, hcr, _⟩ := saveResponse_upsert_core _ id userID q w later b hbids hb hok2
    have hbn : (b.responses.map (fun x => x.questionID)).Nodup := by rw [hbr]; exact p4
    have hbm : (NewResponse q w later).questionID ∈ b.responses.map (fun x => x.questionID) := by
      rw [hbr]; exact p5
    obtain ⟨s1, s2, s3, _, _⟩ := upsert_props (NewResponse q w later) b.responses hbn
    refine ⟨c, hc, ?_, ?_, ?_⟩
    · exact ⟨NewResponse q w later, by rw [hcr]; exact s1, rfl, rfl, hval w later, rfl⟩
    · rw [hcr]
      have : (upsert (NewResponse q w later) b.responses).filter (fun x => x.questionID != q) =
          b.responses.filter (fun x => x.questionID != q) := s2
      rw [this, hbr]; exact p2
    · rw [hcr, s3, if_pos hbm]

/-- Witness for C3: "alice" answers the required question with 5 on her pending assignment
inside the period; the save succeeds and the stored assignment holds exactly one response,
for that question and with the value 5; she then answers it again with 2, and the stored
assignment holds one response, with the value 2. -/
theorem saveResponse_upserts_response_witness :
    ∃ b, AssignmentRepository.GetByID
        (AssignmentService.SaveResponse pendingDB 4 "alice" "q-req" (.num 5) (jan1 + 3)).2 4
        = .ok b ∧
      (∃ r, b.responses.filter (fun x => x.questionID == "q-req") = [r] ∧
        r.questionID = "q-req" ∧ r.responseValue = [("value", .num 5)] ∧
        r.GetValue = some (.num 5) ∧ bsonMillis r.answeredAt = bsonMillis (jan1 + 3)) ∧
      b.responses.length = 1 ∧
      ∃ c, AssignmentRepository.GetByID
          (AssignmentService.SaveResponse
            (AssignmentService.SaveResponse pendingDB 4 "alice" "q-req" (.num 5) (jan1 + 3)).2
            4 "alice" "q-req" (.num 2) (jan1 + 5)).2 4 = .ok c ∧
        (∃ r, c.responses.filter (fun x => x.questionID == "q-req") = [r] ∧
          r.questionID = "q-req" ∧ r.responseValue = [("value", .num 2)] ∧
          r.GetValue = some (.num 2) ∧ bsonMillis r.answeredAt = bsonMillis (jan1 + 5)) ∧
        c.responses.filter (fun x => x.questionID != "q-req") =
          pendingAssignment.responses.filter (fun x => x.questionID != "q-req") ∧
        c.responses.length = b.responses.length :=
  have h := saveResponse_upserts_response pendingDB 4 "alice" "q-req" (.num 5) (jan1 + 3)
    pendingAssignment (by decide) rfl (by decide) (by rfl)
  h.elim (fun b hb => ⟨b, hb.1, hb.2.1, hb.2.2.2.1,
    hb.2.2.2.2.2 (.num 2) (jan1 + 5) (by rfl)⟩)

/-! ## Period overlap -/

theorem checkDuplicate_true_iff (db : DB) (companyID questionnaireID : ObjectID)
    (periodStart periodEnd : Time) :
    (db.companyQuestionnaires.filter
      (overlapFilter companyID questionnaireID periodStart periodEnd)).length > 0 ↔
    ∃ c ∈ db.companyQuestionnaires, c.companyID = companyID ∧
      c.questionnaireID = questionnaireID ∧ c.isActive = true ∧
      c.periodStart ≤ periodEnd ∧ c.periodEnd ≥ periodStart := by
  rw [gt_iff_lt, List.length_pos, ne_eq, List.filter_eq_nil_iff]
  simp only [overlapFilter, Bool.and_eq_true, beq_iff_eq, decide_eq_true_eq, not_forall,
    Classical.not_not, and_assoc, exists_prop]

/-- C8 (period overlap rejection): for an existing company, an active non-empty
questionnaire and `periodStart < periodEnd`, `AssignQuestionnaireToCompany` fails with the
overlapping-period error exactly when some active binding of the same company and
questionnaire has `start ≤ periodEnd` and `end ≥ periodStart`; it then leaves the store
unchanged, and otherwise it succeeds and appends the new active binding. -/
theorem assignQuestionnaireToCompany_rejects_iff_overlap (db : DB)
    (companyID questionnaireID : ObjectID) (assignedBy : String)
    (periodStart periodEnd now : Time) (co : Company) (qn : Questionnaire)
    (hco : CompanyRepository.GetByID db companyID = .ok co)
    (hqn : QuestionnaireRepository.GetByID db questionnaireID = .ok qn)
    (hact : qn.isActive = true) (hq : qn.questions ≠ [])
    (hper : periodStart < periodEnd) :
    ((CompanyService.AssignQuestionnaireToCompany db companyID questionnaireID assignedBy
        periodStart periodEnd now).1 =
        .error "questionnaire already assigned to this company for overlapping period" ↔
      ∃ c ∈ db.companyQuestionnaires, c.companyID = companyID ∧
        c.questionnaireID = questionnaireID ∧ c.isActive = true ∧
        c.periodStart ≤ periodEnd ∧ c.periodEnd ≥ periodStart) ∧
    ((∃ c ∈ db.companyQuestionnaires, c.companyID = companyID ∧
        c.questionnaireID = questionnaireID ∧ c.isActive = true ∧
        c.periodStart ≤ periodEnd ∧ c.periodEnd ≥ periodStart) →
      (CompanyService.AssignQuestionnaireToCompany db companyID questionnaireID assignedBy
        periodStart periodEnd now).2 = db) ∧
    ((¬ ∃ c ∈ db.companyQuestionnaires, c.companyID = companyID ∧
        c.questionnaireID = questionnaireID ∧ c.isActive = true ∧
        c.periodStart ≤ periodEnd ∧ c.periodEnd ≥ periodStart) →
      CompanyService.AssignQuestionnaireToCompany db companyID questionnaireID assignedBy
        periodStart periodEnd now =
        (.ok (NewCompanyQuestionnaire db.nextObjectID companyID questionnaireID assignedBy
            periodStart periodEnd now),
         { db with
           companyQuestionnaires := db.companyQuestionnaires ++
             [NewCompanyQuestionnaire db.nextObjectID companyID questionnaireID assignedBy
               periodStart periodEnd now],
           nextObjectID := db.nextObjectID + 1 })) := by
  have h2 : ¬ qn.questions.length = 0 := by simpa using hq
  have h3 : Time.After periodStart periodEnd = false := by
    simp only [Time.After, decide_eq_false_iff_not, not_lt]; exact le_of_lt hper
  have h4 : Time.Equal periodStart periodEnd = false := by
    simp only [Time.Equal, beq_eq_false_iff_ne]; exact ne_of_lt hper
  have hiff := checkDuplicate_true_iff db companyID questionnaireID periodStart periodEnd
  by_cases hdup : (db.companyQuestionnaires.filter
      (overlapFilter companyID questionnaireID periodStart periodEnd)).length > 0
  · have hex := hiff.mp hdup
    have hr : CompanyService.AssignQuestionnaireToCompany db companyID questionnaireID assignedBy
        periodStart periodEnd now =
        (.error "questionnaire already assigned to this company for overlapping period", db) := by
      simp only [CompanyService.AssignQuestionnaireToCompany, hco, hqn, hact, Bool.not_true,
        Bool.false_eq_true, if_false, h2, h3, h4, Bool.or_self,
        CompanyQuestionnaireRepository.CheckDuplicate, hdup, decide_True, if_true]
    rw [hr]
    exact ⟨⟨fun _ => hex, fun _ => rfl⟩, fun _ => rfl, fun h => absurd hex h⟩
  · have hnex := fun h => hdup (hiff.mpr h)
    have hr : CompanyService.AssignQuestionnaireToCompany db companyID questionnaireID assignedBy
        periodStart periodEnd now =
        (.ok (NewCompanyQuestionnaire db.nextObjectID companyID questionnaireID assignedBy
            periodStart periodEnd now),
         { db with
           companyQuestionnaires := db.companyQuestionnaires ++
             [NewCompanyQuestionnaire db.nextObjectID companyID questionnaireID assignedBy
               periodStart periodEnd now],
           nextObjectID := db.nextObjectID + 1 }) := by
      simp only [CompanyService.AssignQuestionnaireToCompany, hco, hqn, hact, Bool.not_true,
        Bool.false_eq_true, if_false, h2, h3, h4, Bool.or_self,
        CompanyQuestionnaireRepository.CheckDuplicate, hdup, decide_False,
        DB.newObjectID, CompanyQuestionnaireRepository.Create]
    rw [hr]
    refine ⟨⟨fun h => ?_, fun h => absurd h hnex⟩, fun h => absurd h hnex, fun _ => rfl⟩
    cases h

/-- Witness for C8: with the binding [Jan 1, Mar 31] stored, [Mar 15, Jun 30] is rejected
as overlapping and [Apr 1, Jun 30] is accepted. -/
theorem assignQuestionnaireToCompany_rejects_iff_overlap_witness :
    (CompanyService.AssignQuestionnaireToCompany sampleDB 1 2 "root" mar15 jun30 jan1).1 =
      .error "questionnaire already assigned to this company for overlapping period" ∧
    (CompanyService.AssignQuestionnaireToCompany sampleDB 1 2 "root" apr1 jun30 jan1).1 =
      .ok (NewCompanyQuestionnaire 5 1 2 "root" apr1 jun30 jan1) :=
  ⟨(assignQuestionnaireToCompany_rejects_iff_overlap sampleDB 1 2 "root" mar15 jun30 jan1
      { id := 1, name := "Acme" } sampleQuestionnaire rfl rfl rfl (by decide) (by decide)).1.mpr
      ⟨sampleBinding, by decide, rfl, rfl, rfl, by decide, by decide⟩,
   congrArg Prod.fst
    ((assignQuestionnaireToCompany_rejects_iff_overlap sampleDB 1 2 "root" apr1 jun30 jan1
      { id := 1, name := "Acme" } sampleQuestionnaire rfl rfl rfl (by decide)
      (by decide)).2.2 (by decide))⟩

/-! ## The no-overlap invariant -/

theorem assignQuestionnaireToCompany_store (db : DB) (companyID questionnaireID : ObjectID)
    (assignedBy : String) (periodStart periodEnd now : Time) :
    (CompanyService.AssignQuestionnaireToCompany db companyID questionnaireID assignedBy
      periodStart periodEnd now).2 = db ∨
    (¬ (db.companyQuestionnaires.filter
        (overlapFilter companyID questionnaireID periodStart periodEnd)).length > 0 ∧
      (CompanyService.AssignQuestionnaireToCompany db companyID questionnaireID assignedBy
        periodStart periodEnd now).2 =
        { db with
          companyQuestionnaires := db.companyQuestionnaires ++
            [NewCompanyQuestionnaire db.nextObjectID companyID questionnaireID assignedBy
              periodStart periodEnd now],
          nextObjectID := db.nextObjectID + 1 }) := by
  unfold CompanyService.AssignQuestionnaireToCompany
  split
  · left; rfl
  · split
    · left; rfl
    · split
      · left; rfl
      · split
        · left; rfl
        · split
          · left; rfl
          · by_cases hdup : (db.companyQuestionnaires.filter
                (overlapFilter companyID questionnaireID periodStart periodEnd)).length > 0
            · left
              simp [CompanyQuestionnaireRepository.CheckDuplicate, hdup]
            · right
              refine ⟨hdup, ?_⟩
              simp [CompanyQuestionnaireRepository.CheckDuplicate, hdup, DB.newObjectID,
                CompanyQuestionnaireRepository.Create]

/-- The create path keeps the no-overlap invariant, for all arguments. -/
theorem assignQuestionnaireToCompany_preserves_noOverlap (db : DB)
    (companyID questionnaireID : ObjectID) (assignedBy : String)
    (periodStart periodEnd now : Time) (hinv : NoOverlap db) :
    NoOverlap (CompanyService.AssignQuestionnaireToCompany db companyID questionnaireID
      assignedBy periodStart periodEnd now).2 := by
  rcases assignQuestionnaireToCompany_store db companyID questionnaireID assignedBy
    periodStart periodEnd now with h | ⟨hdup, h⟩
  · rw [h]; exact hinv
  · rw [h]
    unfold NoOverlap at hinv ⊢
    simp only
    rw [List.pairwise_append]
    refine ⟨hinv, List.pairwise_singleton _ _, ?_⟩
    intro c hc b hb hov
    rw [List.mem_singleton] at hb
    subst hb
    apply hdup
    rw [checkDuplicate_true_iff]
    obtain ⟨h1, h2, h3, _, h5, h6⟩ := hov
    exact ⟨c, hc, h1, h2, h3, h5, h6⟩

theorem updateOne_mem {α : Type} (p : α → Bool) (f : α → α) (l : List α) (y : α)
    (hy : y ∈ (updateOne p f l).1) : y ∈ l ∨ ∃ z ∈ l, y = f z := by
  induction l with
  | nil => simp [updateOne] at hy
  | cons z zs ih =>
    by_cases hz : p z = true
    · simp only [updateOne, hz, if_true, List.mem_cons] at hy
      rcases hy with rfl | hy
      · exact Or.inr ⟨z, List.mem_cons_self _ _, rfl⟩
      · exact Or.inl (List.mem_cons_of_mem _ hy)
    · simp only [updateOne, hz, Bool.false_eq_true, if_false, List.mem_cons] at hy
      rcases hy with rfl | hy
      · exact Or.inl (List.mem_cons_self _ _)
      · rcases ih hy with h1 | ⟨w, hw, rfl⟩
        · exact Or.inl (List.mem_cons_of_mem _ h1)
        · exact Or.inr ⟨w, List.mem_cons_of_mem _ hw, rfl⟩

theorem updateOne_pairwise {α : Type} (R : α → α → Prop) (p : α → Bool) (f : α → α)
    (hf1 : ∀ x y, R x y → R (f x) y) (hf2 : ∀ x y, R x y → R x (f y))
    (l : List α) (h : l.Pairwise R) : (updateOne p f l).1.Pairwise R := by
  induction l with
  | nil => exact List.Pairwise.nil
  | cons x xs ih =>
    rw [List.pairwise_cons] at h
    by_cases hx : p x = true
    · simp only [updateOne, hx, if_true]
      rw [List.pairwise_cons]
      exact ⟨fun y hy => hf1 x y (h.1 y hy), h.2⟩
    · simp only [updateOne, hx, Bool.false_eq_true, if_false]
      rw [List.pairwise_cons]
      refine ⟨?_, ih h.2⟩
      intro y hy
      rcases updateOne_mem p f xs y hy with h1 | ⟨z, hz, rfl⟩
      · exact h.1 y h1
      · exact hf2 x z (h.1 z hz)

/-- Deactivation keeps the no-overlap invariant, for all arguments. -/
theorem deactivateCompanyQuestionnaire_preserves_noOverlap (db : DB) (id : ObjectID)
    (hinv : NoOverlap db) :
    NoOverlap (CompanyService.DeactivateCompanyQuestionnaire db id).2 := by
  unfold CompanyService.DeactivateCompanyQuestionnaire CompanyQuestionnaireRepository.Deactivate
  simp only
  split
  · exact hinv
  · unfold NoOverlap at hinv ⊢
    apply updateOne_pairwise _ _ _ _ _ _ hinv
    · intro x y _ hov
      obtain ⟨_, _, h3, _⟩ := hov
      cases h3
    · intro x y _ hov
      obtain ⟨_, _, _, h4, _⟩ := hov
      cases h4

/-- C9 fails on the code for `UpdateCompanyQuestionnaire`: in a store whose two active bindings
of company 1 and questionnaire 2 cover [Jan 1, Mar 31] and [Apr 1, Jun 30], moving the second
to [Mar 15, Jun 30] succeeds and leaves two active overlapping bindings; no overlap check
is made on this path. -/
theorem updateCompanyQuestionnaire_breaks_noOverlap :
    NoOverlap twoBindingDB ∧
    (CompanyService.UpdateCompanyQuestionnaire twoBindingDB 8 mar15 jun30 true).1 = .ok () ∧
    DB.companyQuestionnaires
      (CompanyService.UpdateCompanyQuestionnaire twoBindingDB 8 mar15 jun30 true).2 =
      [sampleBinding, { springBinding with periodStart := mar15 }] ∧
    ¬ NoOverlap (CompanyService.UpdateCompanyQuestionnaire twoBindingDB 8 mar15 jun30 true).2 := by
  refine ⟨by decide, by rfl, by rfl, by decide⟩

/-! ## Tenant isolation on binding-scoped routes -/

/-- C6 fails on the code: "mallory" belongs to company 9 and is not super-admin, binding 3
belongs to company 1.  As a supervisor she lists the assignments of binding 3 and receives
status 200 with the assignment of "alice"; as a company admin she deactivates binding 3 and
receives status 200.  Neither the service functions nor the handlers compare companies. -/
theorem foreign_binding_routes_are_not_isolated :
    UserMetadataRepository.GetByID twoCompanyDB "mallory" =
      .ok { id := "mallory", companyID := 9, supervisorID := none, department := "Ops" } ∧
    CompanyQuestionnaireRepository.GetByID twoCompanyDB 3 = .ok sampleBinding ∧
    sampleBinding.companyID = 1 ∧
    routeGetAssignmentsByCompanyQuestionnaire twoCompanyDB
      { sub := "mallory", roles := ["supervisor"] } 3 =
      .success 200 [optionalOnlyAssignment] "" ∧
    AssignmentService.GetCompanyQuestionnaireAssignments twoCompanyDB 3 =
      .ok [optionalOnlyAssignment] ∧
    routeUpdateCompanyQuestionnaire twoCompanyDB
      { sub := "mallory", roles := ["company_admin"] } 3 0 0 (some false) =
      (.success 200 () "Company questionnaire updated successfully",
       { twoCompanyDB with
         companyQuestionnaires := [{ sampleBinding with isActive := false }] }) := by
  refine ⟨by rfl, by rfl, by rfl, by rfl, by rfl, by rfl⟩

/-! ## Ownership of writes -/

/-- C11 (ownership of writes): for an existing assignment and a caller different from its
user, `SaveResponse` and `SubmitAssignment` both return the "unauthorized" error, which
the error handler answers with status 403, and leave the store unchanged; this holds for
every status of the assignment and every period of its binding, so the ownership check
precedes the status and period checks, and neither operation has a role argument. -/
theorem writes_require_ownership (db : DB) (assignmentID : ObjectID)
    (a : UserQuestionnaireAssignment) (caller questionID : String) (value : JsonValue)
    (now : Time)
    (ha : AssignmentRepository.GetByID db assignmentID = .ok a)
    (hcaller : caller ≠ a.userID) :
    AssignmentService.SaveResponse db assignmentID caller questionID value now =
      (.error "unauthorized: assignment does not belong to user", db) ∧
    AssignmentService.SubmitAssignment db assignmentID caller now =
      (.error "unauthorized: assignment does not belong to user", db) ∧
    (HandleRepositoryError "unauthorized: assignment does not belong to user" :
      HTTPResponse Unit) = .failure 403 "unauthorized: assignment does not belong to user" := by
  have hne : a.userID ≠ caller := fun h => hcaller h.symm
  refine ⟨?_, ?_, by rfl⟩
  · simp [AssignmentService.SaveResponse, ha, hne]
  · simp [AssignmentService.SubmitAssignment, ha, hne]

/-- Witness for C11: "boss" tries to answer on the completed assignment of "alice" long after
the period; the answer is the ownership error, not the status or period error. -/
theorem writes_require_ownership_witness :
    AssignmentService.SaveResponse completedDB 4 "boss" "q-req" (.num 1) (jun30 + 1) =
      (.error "unauthorized: assignment does not belong to user", completedDB) :=
  (writes_require_ownership completedDB 4 completedAssignment "boss" "q-req" (.num 1)
    (jun30 + 1) rfl (by decide)).1

/-! ## Preconditions of `AssignToUsers` -/

/-- C15 (preconditions of `AssignToUsers`): for every caller, super-admin or not, every store
of user metadata and every non-empty target list, the call returns the not-found error when
the binding is missing, the not-active error when the binding is inactive and the
no-questions error when the bound questionnaire is empty; the store is unchanged in each
case.  No hypothesis mentions the caller's metadata, so these checks come first. -/
theorem assignToUsers_preconditions (db : DB) (assignedBy : String) (cqID : ObjectID)
    (userIDs : List String) (isSuperAdmin : Bool) (now : Time) (hne : userIDs ≠ []) :
    ((∀ c ∈ db.companyQuestionnaires, c.id ≠ cqID) →
      AssignmentService.AssignToUsers db assignedBy cqID userIDs isSuperAdmin now =
        (.error "company questionnaire not found: company questionnaire not found", db)) ∧
    (∀ cq, CompanyQuestionnaireRepository.GetByID db cqID = .ok cq → cq.isActive = false →
      AssignmentService.AssignToUsers db assignedBy cqID userIDs isSuperAdmin now =
        (.error "company questionnaire is not active", db)) ∧
    (∀ cq qn, CompanyQuestionnaireRepository.GetByID db cqID = .ok cq → cq.isActive = true →
      QuestionnaireRepository.GetByID db cq.questionnaireID = .ok qn → qn.questions = [] →
      AssignmentService.AssignToUsers db assignedBy cqID userIDs isSuperAdmin now =
        (.error "questionnaire has no questions", db)) := by
  have h1 : ¬ userIDs.length = 0 := by simpa using hne
  refine ⟨?_, ?_, ?_⟩
  · intro hmissing
    have hfind : db.companyQuestionnaires.find? (fun c => c.id == cqID) = none := by
      rw [List.find?_eq_none]
      intro c hc
      simpa using hmissing c hc
    simp [AssignmentService.AssignToUsers, h1, CompanyQuestionnaireRepository.GetByID, hfind]
  · intro cq hcq hinactive
    simp [AssignmentService.AssignToUsers, h1, hcq, hinactive]
  · intro cq qn hcq hact hqn hempty
    simp [AssignmentService.AssignToUsers, h1, hcq, hact, hqn, hempty]

/-- Witness for C15: binding 42 does not exist in the sample store. -/
theorem assignToUsers_preconditions_witness :
    AssignmentService.AssignToUsers sampleDB "nobody" 42 ["alice"] false jan1 =
      (.error "company questionnaire not found: company questionnaire not found", sampleDB) :=
  (assignToUsers_preconditions sampleDB "nobody" 42 ["alice"] false jan1 (by decide)).1
    (by decide)

/-! ## Authorization and missing targets of the reports -/

theorem authorizeReport_foreign (db : DB) (companyID : ObjectID) (caller : String)
    (m : UserMetadata) (hm : UserMetadataRepository.GetByID db caller = .ok m)
    (hne : companyID ≠ m.companyID) :
    authorizeReport db companyID caller false =
      .error "unauthorized: cannot access reports from other companies" := by
  simp [authorizeReport, hm, hne]

theorem authorizeReport_same (db : DB) (companyID : ObjectID) (caller : String)
    (m : UserMetadata) (hm : UserMetadataRepository.GetByID db caller = .ok m)
    (heq : m.companyID = companyID) :
    authorizeReport db companyID caller false = .ok () := by
  simp [authorizeReport, hm, heq]

/-- C19 (report authorization): for a caller with metadata who is not super-admin, each of
the three report operations returns the "unauthorized" error, and hence no report data,
whenever the caller's company differs from the binding's company, respectively from the
requested company; for a super-admin caller the company check always passes. -/
theorem reports_require_same_company (db : DB) (caller : String) (m : UserMetadata)
    (hm : UserMetadataRepository.GetByID db caller = .ok m) :
    (∀ cqID cq, CompanyQuestionnaireRepository.GetByID db cqID = .ok cq →
      cq.companyID ≠ m.companyID →
      ReportService.GetCompletionMetrics db cqID caller false =
        .error "unauthorized: cannot access reports from other companies") ∧
    (∀ companyID, companyID ≠ m.companyID →
      ReportService.GetCompanyOverview db companyID caller false =
        .error "unauthorized: cannot access reports from other companies" ∧
      ReportService.GetEmployeeProgress db companyID caller false =
        .error "unauthorized: cannot access reports from other companies") ∧
    (∀ companyID anyone, authorizeReport db companyID anyone true = .ok ()) := by
  refine ⟨?_, ?_, ?_⟩
  · intro cqID cq hcq hne
    simp [ReportService.GetCompletionMetrics, hcq, authorizeReport_foreign db _ caller m hm hne]
  · intro companyID hne
    constructor
    · simp [ReportService.GetCompanyOverview, authorizeReport_foreign db _ caller m hm hne]
    · simp [ReportService.GetEmployeeProgress, authorizeReport_foreign db _ caller m hm hne]
  · intro companyID anyone
    simp [authorizeReport]

/-- Witness for C19: "mallory" of company 9 asks for the completion metrics of binding 3 of
company 1. -/
theorem reports_require_same_company_witness :
    ReportService.GetCompletionMetrics twoCompanyDB 3 "mallory" false =
      .error "unauthorized: cannot access reports from other companies" :=
  (reports_require_same_company twoCompanyDB "mallory"
    { id := "mallory", companyID := 9, supervisorID := none, department := "Ops" } rfl).1
    3 sampleBinding rfl (by decide)

/-- C20 as stated fails: company 77 does not exist; "mallory", who is not super-admin, gets
the "unauthorized" error from `GetCompanyOverview`, because the company check comes
before the company lookup, and a super-admin gets an empty list without error from
`GetEmployeeProgress`, which makes no company lookup. -/
theorem reports_unknown_company_not_always_not_found :
    (∀ c ∈ twoCompanyDB.companies, c.id ≠ 77) ∧
    ReportService.GetCompanyOverview twoCompanyDB 77 "mallory" false =
      .error "unauthorized: cannot access reports from other companies" ∧
    ReportService.GetEmployeeProgress twoCompanyDB 77 "root" true = .ok [] := by
  refine ⟨by decide, by rfl, by rfl⟩

/-- C20 (amended): `GetCompletionMetrics` returns the binding-not-found error for an unknown
binding id and every caller, super-admin or not; `GetCompanyOverview` returns the
company-not-found error for an unknown company id when the caller is super-admin or is a
caller whose metadata names that company. -/
theorem reports_missing_target_not_found (db : DB) (caller : String) :
    (∀ cqID isSuperAdmin, (∀ c ∈ db.companyQuestionnaires, c.id ≠ cqID) →
      ReportService.GetCompletionMetrics db cqID caller isSuperAdmin =
        .error "company questionnaire not found: company questionnaire not found") ∧
    (∀ companyID, (∀ c ∈ db.companies, c.id ≠ companyID) →
      ReportService.GetCompanyOverview db companyID caller true =
        .error "company not found: company not found" ∧
      (∀ m, UserMetadataRepository.GetByID db caller = .ok m → m.companyID = companyID →
        ReportService.GetCompanyOverview db companyID caller false =
          .error "company not found: company not found")) := by
  constructor
  · intro cqID isSuperAdmin hmissing
    have hfind : db.companyQuestionnaires.find? (fun c => c.id == cqID) = none := by
      rw [List.find?_eq_none]
      intro c hc
      simpa using hmissing c hc
    simp [ReportService.GetCompletionMetrics, CompanyQuestionnaireRepository.GetByID, hfind]
  · intro companyID hmissing
    have hfind : db.companies.find? (fun c => c.id == companyID) = none := by
      rw [List.find?_eq_none]
      intro c hc
      simpa using hmissing c hc
    constructor
    · simp [ReportService.GetCompanyOverview, authorizeReport, CompanyRepository.GetByID, hfind]
    · intro m hm heq
      simp [ReportService.GetCompanyOverview, authorizeReport_same db companyID caller m hm heq,
        CompanyRepository.GetByID, hfind]

/-- Witness for C20 (amended): binding 42 and company 77 do not exist in the two-company
store. -/
theorem reports_missing_target_not_found_witness :
    ReportService.GetCompletionMetrics twoCompanyDB 42 "mallory" false =
      .error "company questionnaire not found: company questionnaire not found" ∧
    ReportService.GetCompanyOverview twoCompanyDB 77 "mallory" true =
      .error "company not found: company not found" :=
  ⟨(reports_missing_target_not_found twoCompanyDB "mallory").1 42 false (by decide),
   ((reports_missing_target_not_found twoCompanyDB "mallory").2 77 (by decide)).1⟩

/-! ## The period check of `SaveResponse` -/

theorem addOrUpdateResponse_result (db : DB) (id : ObjectID) (r : Response) (now : Time) :
    (AssignmentRepository.AddOrUpdateResponse db id r now).1 = .ok () ∨
    (AssignmentRepository.AddOrUpdateResponse db id r now).1 = .error "assignment not found" := by
  unfold AssignmentRepository.AddOrUpdateResponse
  simp only
  split
  · split
    · right; rfl
    · left; rfl
  · left; rfl

/-- What the code does: for an owned, not completed assignment whose binding loads,
`SaveResponse` returns the period error exactly when the instant is not strictly between
`period_start` and `period_end`. -/
theorem saveResponse_period_error_iff (db : DB) (assignmentID : ObjectID)
    (a : UserQuestionnaireAssignment) (cq : CompanyQuestionnaire) (questionID : String)
    (value : JsonValue) (now : Time)
    (ha : AssignmentRepository.GetByID db assignmentID = .ok a)
    (hnc : a.status ≠ .completed)
    (hcq : CompanyQuestionnaireRepository.GetByID db a.companyQuestionnaireID = .ok cq) :
    (AssignmentService.SaveResponse db assignmentID a.userID questionID value now).1 =
      .error "questionnaire period has expired" ↔
    ¬ (cq.periodStart < now ∧ now < cq.periodEnd) := by
  by_cases hin : cq.periodStart < now ∧ now < cq.periodEnd
  · have hw : cq.IsWithinPeriod now = true := by
      simp [CompanyQuestionnaire.IsWithinPeriod, Time.After, Time.Before, hin.1, hin.2]
    have hr : AssignmentService.SaveResponse db assignmentID a.userID questionID value now =
        AssignmentRepository.AddOrUpdateResponse db assignmentID
          (NewResponse questionID value now) now := by
      simp [AssignmentService.SaveResponse, ha, hnc, hcq, hw]
    rw [hr]
    constructor
    · intro h
      rcases addOrUpdateResponse_result db assignmentID (NewResponse questionID value now) now
        with h1 | h1
      · rw [h1] at h; cases h
      · rw [h1] at h
        have : "assignment not found" = "questionnaire period has expired" := by
          injection h
        exact absurd this (by decide)
    · intro h; exact absurd hin h
  · have hw : cq.IsWithinPeriod now = false := by
      simp only [CompanyQuestionnaire.IsWithinPeriod, Time.After, Time.Before,
        Bool.and_eq_false_iff, decide_eq_false_iff_not]
      by_cases h1 : cq.periodStart < now
      · right; exact fun h2 => hin ⟨h1, h2⟩
      · left; exact h1
    have hr : AssignmentService.SaveResponse db assignmentID a.userID questionID value now =
        (.error "questionnaire period has expired", db) := by
      simp [AssignmentService.SaveResponse, ha, hnc, hcq, hw]
    rw [hr]
    exact ⟨fun _ => hin, fun _ => rfl⟩

/-- C12 fails on the code at both ends of the period: binding 3 runs from 2024-01-01 to
2024-03-31; at exactly either instant the repository query for the bindings within the
current period (bounds `$lte`, `$gte`) lists it, yet `SaveResponse` on the pending
assignment of "alice" returns the period error, because `IsWithinPeriod` compares with
`After` and `Before`. -/
theorem saveResponse_rejects_period_endpoints :
    sampleBinding.periodStart = jan1 ∧ sampleBinding.periodEnd = mar31 ∧
    CompanyQuestionnaireRepository.GetActiveByCompanyAndPeriod pendingDB 1 jan1 =
      .ok [sampleBinding] ∧
    CompanyQuestionnaireRepository.GetActiveByCompanyAndPeriod pendingDB 1 mar31 =
      .ok [sampleBinding] ∧
    AssignmentService.SaveResponse pendingDB 4 "alice" "q-req" (.num 5) jan1 =
      (.error "questionnaire period has expired", pendingDB) ∧
    AssignmentService.SaveResponse pendingDB 4 "alice" "q-req" (.num 5) mar31 =
      (.error "questionnaire period has expired", pendingDB) ∧
    (AssignmentService.SaveResponse pendingDB 4 "alice" "q-req" (.num 5) (jan1 + 1)).1 =
      .ok () := by
  refine ⟨by rfl, by rfl, by rfl, by rfl, by rfl, by rfl, by rfl⟩

/-! ## Auto-start and allowed transitions -/

/-- What the code does on a store with distinct document ids: a successful `SaveResponse`
leaves status and `started_at` unchanged when the question already had a response, and
otherwise sets the status to in progress and `started_at` to the current instant, whatever
they were before. -/
theorem saveResponse_status_effect (db : DB) (id : ObjectID) (userID q : String) (v : JsonValue)
    (now : Time) (a : UserQuestionnaireAssignment)
    (hids : (db.assignments.map (fun x => x.id)).Nodup)
    (ha : AssignmentRepository.GetByID db id = .ok a)
    (hok : (AssignmentService.SaveResponse db id userID q v now).1 = .ok ()) :
    ∃ b, AssignmentRepository.GetByID
        (AssignmentService.SaveResponse db id userID q v now).2 id = .ok b ∧
      (q ∈ a.responses.map (fun x => x.questionID) →
        b.status = a.status ∧ b.startedAt = a.startedAt) ∧
      (q ∉ a.responses.map (fun x => x.questionID) →
        b.status = .inProgress ∧ b.startedAt = some now) := by
  obtain ⟨hid, l1, l2, hl, h1⟩ := getByID_split db id a ha
  have h2 : ∀ x ∈ l2, (x.id == id) = false := by
    intro x hx
    rw [hl, List.map_append, List.map_cons, List.nodup_append, List.nodup_cons] at hids
    have hne : x.id ≠ a.id := by
      intro he
      exact hids.2.1.1 (List.mem_map.mpr ⟨x, hx, he⟩)
    simpa [hid] using hne
  rw [saveResponse_ok_eq db id userID q v now hok,
    addOrUpdateResponse_eq db id (NewResponse q v now) now a l1 l2 hl h1 h2 hid]
  have hmem : (a.responses.any (fun x => x.questionID == (NewResponse q v now).questionID) = true)
      ↔ q ∈ a.responses.map (fun x => x.questionID) := by
    simp only [List.any_eq_true, beq_iff_eq, List.mem_map, NewResponse]
  by_cases hany : a.responses.any (fun x => x.questionID == (NewResponse q v now).questionID) = true
  · simp only [hany, if_true]
    refine ⟨_, getByID_of_split _ id _ l1 l2 rfl h1 hid, fun _ => ⟨rfl, rfl⟩, ?_⟩
    intro hnot
    exact absurd (hmem.mp hany) hnot
  · simp only [hany, Bool.false_eq_true, if_false]
    refine ⟨_, getByID_of_split _ id _ l1 l2 rfl h1 ?_, ?_, fun _ => ⟨rfl, rfl⟩⟩
    · rw [statusUpdate_id]; exact hid
    · intro hin
      exact absurd (hmem.mpr hin) hany

/-- C13 fails on the code: the assignment of "alice" is in progress since `jan1 + 1` with
one response; saving a response to a second, different question at `jan1 + 5` succeeds and
overwrites `started_at` with `jan1 + 5`, because `AddOrUpdateResponse` calls
`UpdateStatus(in_progress)` after every push.  The model method `AddResponse` leaves
`started_at` alone on the same input. -/
theorem saveResponse_restamps_started_at :
    optionalOnlyAssignment.status = .inProgress ∧
    optionalOnlyAssignment.startedAt = some (jan1 + 1) ∧
    (AssignmentService.SaveResponse sampleDB 4 "alice" "q-req" (.num 4) (jan1 + 5)).1 = .ok () ∧
    AssignmentRepository.GetByID
      (AssignmentService.SaveResponse sampleDB 4 "alice" "q-req" (.num 4) (jan1 + 5)).2 4 =
      .ok { optionalOnlyAssignment with
            responses := optionalOnlyAssignment.responses ++
              [NewResponse "q-req" (.num 4) (jan1 + 5)],
            startedAt := some (jan1 + 5) } ∧
    (optionalOnlyAssignment.AddResponse (NewResponse "q-req" (.num 4) (jan1 + 5))
      (jan1 + 5)).startedAt = some (jan1 + 1) := by
  refine ⟨by rfl, by rfl, by rfl, by rfl, by rfl⟩

/-- C14 fails on the code: assignment 10 of "alice" is pending and unanswered, and its
questionnaire has no required question; `SubmitAssignment` succeeds and stores it as
completed with `completed_at` set and `started_at` still absent.  The model method
`Complete` changes nothing on a pending assignment. -/
theorem submitAssignment_completes_pending :
    AssignmentRepository.GetByID optionalDB 10 =
      .ok (NewUserQuestionnaireAssignment 10 7 "alice" "boss" jan1) ∧
    (AssignmentService.SubmitAssignment optionalDB 10 "alice" (jan1 + 2)).1 = .ok () ∧
    AssignmentRepository.GetByID
      (AssignmentService.SubmitAssignment optionalDB 10 "alice" (jan1 + 2)).2 10 =
      .ok { NewUserQuestionnaireAssignment 10 7 "alice" "boss" jan1 with
            status := .completed, completedAt := some (jan1 + 2), startedAt := none } ∧
    (NewUserQuestionnaireAssignment 10 7 "alice" "boss" jan1).Complete (jan1 + 2) =
      NewUserQuestionnaireAssignment 10 7 "alice" "boss" jan1 := by
  refine ⟨by rfl, by rfl, by rfl, by rfl⟩

/-! ## Completion metrics -/

theorem completionStats_eq (docs : List UserQuestionnaireAssignment) (st : AssignmentStatus) :
    (statusGroups docs).foldl
      (fun stats row => fun s => if s = row.1 then row.2 else stats s) (fun _ => 0) st =
    (docs.filter (fun a => a.status == st)).length := by
  unfold statusGroups
  simp only [List.filterMap_cons, List.filterMap_nil]
  by_cases h1 : (docs.filter (fun a => a.status == AssignmentStatus.pending)).length > 0 <;>
  by_cases h2 : (docs.filter (fun a => a.status == AssignmentStatus.inProgress)).length > 0 <;>
  by_cases h3 : (docs.filter (fun a => a.status == AssignmentStatus.completed)).length > 0 <;>
  cases st <;>
  simp only [h1, h2, h3, if_true, if_false, List.foldl_cons, List.foldl_nil, reduceCtorEq] <;>
  omega

theorem filter_filter_length (l : List UserQuestionnaireAssignment) (cqID : ObjectID)
    (st : AssignmentStatus) :
    ((l.filter (fun a => a.companyQuestionnaireID == cqID)).filter
      (fun a => a.status == st)).length =
    (l.filter (fun a => a.companyQuestionnaireID == cqID && a.status == st)).length := by
  rw [List.filter_filter]
  congr 1
  apply List.filter_congr
  intro a _
  exact Bool.and_comm _ _

theorem authorizeReport_ok (db : DB) (companyID : ObjectID) (caller : String)
    (isSuperAdmin : Bool)
    (hauth : isSuperAdmin = true ∨
      ∃ m, UserMetadataRepository.GetByID db caller = .ok m ∧ m.companyID = companyID) :
    authorizeReport db companyID caller isSuperAdmin = .ok () := by
  rcases hauth with h | ⟨m, hm, heq⟩
  · subst h; simp [authorizeReport]
  · cases isSuperAdmin
    · exact authorizeReport_same db companyID caller m hm heq
    · simp [authorizeReport]

/-- The successful path of `GetCompletionMetrics`, field by field. -/
theorem getCompletionMetrics_eq (db : DB) (cqID : ObjectID) (caller : String)
    (isSuperAdmin : Bool) (cq : CompanyQuestionnaire) (co : Company) (qn : Questionnaire)
    (avg : ℚ)
    (hcq : CompanyQuestionnaireRepository.GetByID db cqID = .ok cq)
    (hauth : isSuperAdmin = true ∨
      ∃ m, UserMetadataRepository.GetByID db caller = .ok m ∧ m.companyID = cq.companyID)
    (hco : CompanyRepository.GetByID db cq.companyID = .ok co)
    (hqn : QuestionnaireRepository.GetByID db cq.questionnaireID = .ok qn)
    (havg : AssignmentRepository.GetAverageCompletionTime db cqID = .ok avg) :
    ReportService.GetCompletionMetrics db cqID caller isSuperAdmin =
      .ok { companyQuestionnaireID := cqID,
            questionnaireTitle := qn.title,
            companyName := co.name,
            periodStart := cq.periodStart,
            periodEnd := cq.periodEnd,
            totalEmployees := (db.usersMetadata.filter (fun u => u.companyID == cq.companyID)).length,
            assigned := (db.assignments.filter (fun a => a.companyQuestionnaireID == cqID)).length,
            pending := (db.assignments.filter
              (fun a => a.companyQuestionnaireID == cqID && a.status == .pending)).length,
            inProgress := (db.assignments.filter
              (fun a => a.companyQuestionnaireID == cqID && a.status == .inProgress)).length,
            completed := (db.assignments.filter
              (fun a => a.companyQuestionnaireID == cqID && a.status == .completed)).length,
            notStarted := (db.assignments.filter
              (fun a => a.companyQuestionnaireID == cqID && a.status == .pending)).length,
            completionPercentage :=
              (if (db.assignments.filter (fun a => a.companyQuestionnaireID == cqID)).length > 0
               then (((db.assignments.filter
                  (fun a => a.companyQuestionnaireID == cqID && a.status == .completed)).length : Nat) : ℚ)
                  / (((db.assignments.filter
                    (fun a => a.companyQuestionnaireID == cqID)).length : Nat) : ℚ) * 100
               else 0),
            avgTimeToComplete := avg,
            completionByDepartment :=
              ((db.assignments.filter (fun a => a.companyQuestionnaireID == cqID)).foldl
                (countAssignment (userDepartments
                  (db.usersMetadata.filter (fun u => u.companyID == cq.companyID)))) []).map
                withPercentage } := by
  have ha := authorizeReport_ok db cq.companyID caller isSuperAdmin hauth
  simp only [ReportService.GetCompletionMetrics, hcq, ha, hco, hqn, havg,
    UserMetadataRepository.CountByCompany, AssignmentRepository.GetByCompanyQuestionnaireID,
    AssignmentRepository.GetCompletionStats, ReportService.getCompletionByDepartment,
    UserMetadataRepository.GetByCompanyID, completionStats_eq, filter_filter_length]

theorem getAverageCompletionTime_ok (db : DB) (cqID : ObjectID) :
    ∃ avg, AssignmentRepository.GetAverageCompletionTime db cqID = .ok avg := by
  unfold AssignmentRepository.GetAverageCompletionTime
  simp only
  split
  · exact ⟨_, rfl⟩
  · exact ⟨_, rfl⟩

/-- C16 (completion metrics arithmetic): when the binding, its company and its questionnaire
exist and the caller is super-admin or of the binding's company, `GetCompletionMetrics`
succeeds with `assigned` the number of assignments of the binding, `pending`,
`in_progress` and `completed` the numbers of those assignments with that status,
`not_started = pending`, and `completion_percentage = completed / assigned * 100` as an
exact rational when `assigned > 0`, else 0. -/
theorem completionMetrics_arithmetic (db : DB) (cqID : ObjectID) (caller : String)
    (isSuperAdmin : Bool) (cq : CompanyQuestionnaire) (co : Company) (qn : Questionnaire)
    (hcq : CompanyQuestionnaireRepository.GetByID db cqID = .ok cq)
    (hauth : isSuperAdmin = true ∨
      ∃ m, UserMetadataRepository.GetByID db caller = .ok m ∧ m.companyID = cq.companyID)
    (hco : CompanyRepository.GetByID db cq.companyID = .ok co)
    (hqn : QuestionnaireRepository.GetByID db cq.questionnaireID = .ok qn) :
    ∃ m, ReportService.GetCompletionMetrics db cqID caller isSuperAdmin = .ok m ∧
      m.assigned = (db.assignments.filter (fun a => a.companyQuestionnaireID == cqID)).length ∧
      m.pending = (db.assignments.filter
        (fun a => a.companyQuestionnaireID == cqID && a.status == .pending)).length ∧
      m.inProgress = (db.assignments.filter
        (fun a => a.companyQuestionnaireID == cqID && a.status == .inProgress)).length ∧
      m.completed = (db.assignments.filter
        (fun a => a.companyQuestionnaireID == cqID && a.status == .completed)).length ∧
      m.notStarted = m.pending ∧
      m.completionPercentage =
        (if m.assigned > 0 then (m.completed : ℚ) / (m.assigned : ℚ) * 100 else 0) := by
  obtain ⟨avg, havg⟩ := getAverageCompletionTime_ok db cqID
  exact ⟨_, getCompletionMetrics_eq db cqID caller isSuperAdmin cq co qn avg hcq hauth hco hqn
    havg, rfl, rfl, rfl, rfl, rfl, rfl⟩

/-- Witness for C16: ten assignments of binding 3 with four completed, three in progress and
three pending give a completion percentage of 40 and three not started. -/
theorem completionMetrics_arithmetic_witness :
    ∃ m, ReportService.GetCompletionMetrics metricsDB 3 "boss" false = .ok m ∧
      m.assigned = 10 ∧ m.completed = 4 ∧ m.inProgress = 3 ∧ m.pending = 3 ∧
      m.notStarted = 3 ∧ m.completionPercentage = 40 := by
  obtain ⟨m, hm, h1, h2, h3, h4, h5, h6⟩ := completionMetrics_arithmetic metricsDB 3 "boss" false
    sampleBinding { id := 1, name := "Acme" } sampleQuestionnaire rfl
    (Or.inr ⟨{ id := "boss", companyID := 1, supervisorID := none, department := "R&D" },
      rfl, rfl⟩) rfl rfl
  have e1 : m.assigned = 10 := h1.trans (by rfl)
  have e2 : m.pending = 3 := h2.trans (by rfl)
  have e3 : m.inProgress = 3 := h3.trans (by rfl)
  have e4 : m.completed = 4 := h4.trans (by rfl)
  refine ⟨m, hm, e1, e4, e3, e2, h5.trans e2, ?_⟩
  rw [h6, e1, e4]
  norm_num

/-! ## Company overview -/

theorem foldl_invariant {α β : Type} (P : β → Prop) (f : β → α → β)
    (hstep : ∀ acc x, P acc → P (f acc x)) (l : List α) (init : β) (h : P init) :
    P (l.foldl f init) := by
  induction l generalizing init with
  | nil => exact h
  | cons x xs ih => exact ih (f init x) (hstep init x h)

theorem countCompleted_eq (l : List UserQuestionnaireAssignment) :
    countCompleted l = (l.filter (fun a => a.status == AssignmentStatus.completed)).length := by
  have h := foldl_count_eq (fun a : UserQuestionnaireAssignment =>
    a.status == AssignmentStatus.completed) l 0
  simp only [beq_iff_eq, Nat.zero_add] at h
  exact h

theorem activeCount_eq (l : List CompanyQuestionnaire) :
    l.foldl (fun activeCount cq => if cq.isActive = true then activeCount + 1 else activeCount) 0 =
      (l.filter (fun c => c.isActive)).length := by
  have h := foldl_count_eq (fun c : CompanyQuestionnaire => c.isActive) l 0
  simp only [Nat.zero_add] at h
  exact h

theorem overviewStep_inv (db : DB) (acc : OverviewAcc) (cq : CompanyQuestionnaire)
    (h : OverviewInv acc) : OverviewInv (overviewStep db acc cq) := by
  unfold overviewStep
  split
  · exact h
  · split
    · exact h
    · obtain ⟨h1, h2, h3⟩ := h
      refine ⟨?_, ?_, ?_⟩
      · simp [h1]
      · simp [h2]
      · intro b hb
        simp only [List.mem_append, List.mem_singleton] at hb
        rcases hb with hb | rfl
        · exact h3 b hb
        · rfl

theorem overviewStep_found (db : DB) (acc : OverviewAcc) (c : CompanyQuestionnaire)
    (q : Questionnaire) (hq : QuestionnaireRepository.GetByID db c.questionnaireID = .ok q) :
    overviewStep db acc c =
      { breakdown := acc.breakdown ++
          [{ questionnaireID := c.questionnaireID,
             questionnaireTitle := q.title,
             assigned := (db.assignments.filter (fun a => a.companyQuestionnaireID == c.id)).length,
             completed := (db.assignments.filter
               (fun a => a.companyQuestionnaireID == c.id && a.status == .completed)).length,
             completionPercentage :=
               (if (db.assignments.filter (fun a => a.companyQuestionnaireID == c.id)).length > 0
                then (((db.assignments.filter
                    (fun a => a.companyQuestionnaireID == c.id && a.status == .completed)).length
                    : Nat) : ℚ) /
                  (((db.assignments.filter
                    (fun a => a.companyQuestionnaireID == c.id)).length : Nat) : ℚ) * 100
                else 0) }],
        totalAssignments := acc.totalAssignments +
          (db.assignments.filter (fun a => a.companyQuestionnaireID == c.id)).length,
        totalCompleted := acc.totalCompleted +
          (db.assignments.filter
            (fun a => a.companyQuestionnaireID == c.id && a.status == .completed)).length } := by
  simp only [overviewStep, hq, AssignmentRepository.GetByCompanyQuestionnaireID,
    countCompleted_eq, filter_filter_length]

theorem overview_fold_all_found (db : DB) (l : List CompanyQuestionnaire) (acc : OverviewAcc)
    (h : ∀ c ∈ l, ∃ q, QuestionnaireRepository.GetByID db c.questionnaireID = .ok q) :
    (l.foldl (overviewStep db) acc).totalAssignments = acc.totalAssignments +
      (l.map (fun c =>
        (db.assignments.filter (fun a => a.companyQuestionnaireID == c.id)).length)).sum ∧
    (l.foldl (overviewStep db) acc).totalCompleted = acc.totalCompleted +
      (l.map (fun c => (db.assignments.filter
        (fun a => a.companyQuestionnaireID == c.id && a.status == .completed)).length)).sum ∧
    (l.foldl (overviewStep db) acc).breakdown.length = acc.breakdown.length + l.length := by
  induction l generalizing acc with
  | nil => simp
  | cons c cs ih =>
    obtain ⟨q, hq⟩ := h c (List.mem_cons_self _ _)
    have ih2 := ih (overviewStep db acc c) (fun d hd => h d (List.mem_cons_of_mem _ hd))
    rw [overviewStep_found db acc c q hq] at ih2
    simp only [List.foldl_cons]
    rw [overviewStep_found db acc c q hq]
    obtain ⟨i1, i2, i3⟩ := ih2
    refine ⟨?_, ?_, ?_⟩
    · rw [i1]; simp only [List.map_cons, List.sum_cons, Nat.add_assoc]
    · rw [i2]; simp only [List.map_cons, List.sum_cons, Nat.add_assoc]
    · rw [i3]
      simp only [List.length_append, List.length_singleton, List.length_cons, List.length_nil]
      omega

/-- C17 (company overview roll-up): when the company exists and the caller is super-admin or
of that company, `GetCompanyOverview` succeeds; `total_questionnaires` counts every
binding of the company and `active_questionnaires` the active ones; `total_assignments` and
`completed_assignments` are the sums of the per-binding `assigned` and `completed` of the
breakdown, each entry carrying its own percentage; the overall percentage is
`completed_assignments / total_assignments * 100`, or 0 when nothing is assigned; and when
every binding's questionnaire exists the breakdown has one entry per binding and the totals
are the numbers of assignments, respectively completed assignments, of all bindings. -/
theorem companyOverview_rollup (db : DB) (companyID : ObjectID) (caller : String)
    (isSuperAdmin : Bool) (co : Company)
    (hauth : isSuperAdmin = true ∨
      ∃ m, UserMetadataRepository.GetByID db caller = .ok m ∧ m.companyID = companyID)
    (hco : CompanyRepository.GetByID db companyID = .ok co) :
    ∃ ov, ReportService.GetCompanyOverview db companyID caller isSuperAdmin = .ok ov ∧
      ov.totalQuestionnaires =
        (db.companyQuestionnaires.filter (fun c => c.companyID == companyID)).length ∧
      ov.activeQuestionnaires =
        (db.companyQuestionnaires.filter
          (fun c => c.companyID == companyID && c.isActive)).length ∧
      ov.totalAssignments = (ov.questionnaireBreakdown.map (fun b => b.assigned)).sum ∧
      ov.completedAssignments = (ov.questionnaireBreakdown.map (fun b => b.completed)).sum ∧
      (∀ b ∈ ov.questionnaireBreakdown, b.completionPercentage =
        (if b.assigned > 0 then (b.completed : ℚ) / (b.assigned : ℚ) * 100 else 0)) ∧
      ov.overallCompletion =
        (if ov.totalAssignments > 0 then
          (ov.completedAssignments : ℚ) / (ov.totalAssignments : ℚ) * 100 else 0) ∧
      ((∀ c ∈ db.companyQuestionnaires, c.companyID = companyID →
          ∃ q, QuestionnaireRepository.GetByID db c.questionnaireID = .ok q) →
        ov.questionnaireBreakdown.length =
          (db.companyQuestionnaires.filter (fun c => c.companyID == companyID)).length ∧
        ov.totalAssignments =
          ((db.companyQuestionnaires.filter (fun c => c.companyID == companyID)).map
            (fun c => (db.assignments.filter
              (fun a => a.companyQuestionnaireID == c.id)).length)).sum ∧
        ov.completedAssignments =
          ((db.companyQuestionnaires.filter (fun c => c.companyID == companyID)).map
            (fun c => (db.assignments.filter
              (fun a => a.companyQuestionnaireID == c.id && a.status == .completed)).length)).sum) := by
  have ha := authorizeReport_ok db companyID caller isSuperAdmin hauth
  have hfilter : db.companyQuestionnaires.filter
      (fun c => c.companyID == companyID && (if false = true then c.isActive == true else true)) =
      db.companyQuestionnaires.filter (fun c => c.companyID == companyID) := by
    apply List.filter_congr
    intro c _
    simp
  have hperm := List.perm_insertionSort (fun a b : CompanyQuestionnaire => a.assignedAt ≥ b.assignedAt)
    (db.companyQuestionnaires.filter (fun c => c.companyID == companyID))
  have hinv := foldl_invariant OverviewInv (overviewStep db) (overviewStep_inv db)
    ((db.companyQuestionnaires.filter (fun c => c.companyID == companyID)).insertionSort
      (fun a b => a.assignedAt ≥ b.assignedAt))
    { breakdown := [], totalAssignments := 0, totalCompleted := 0 }
    ⟨rfl, rfl, fun b hb => by simp at hb⟩
  obtain ⟨v1, v2, v3⟩ := hinv
  refine ⟨{ companyID := companyID,
            companyName := co.name,
            totalEmployees := (db.usersMetadata.filter (fun u => u.companyID == companyID)).length,
            totalQuestionnaires := ((db.companyQuestionnaires.filter
              (fun c => c.companyID == companyID)).insertionSort
                (fun a b => a.assignedAt ≥ b.assignedAt)).length,
            activeQuestionnaires := ((db.companyQuestionnaires.filter
              (fun c => c.companyID == companyID)).insertionSort
                (fun a b => a.assignedAt ≥ b.assignedAt)).foldl
                (fun activeCount cq => if cq.isActive = true then activeCount + 1 else activeCount) 0,
            totalAssignments := (((db.companyQuestionnaires.filter
              (fun c => c.companyID == companyID)).insertionSort
                (fun a b => a.assignedAt ≥ b.assignedAt)).foldl (overviewStep db)
                { breakdown := [], totalAssignments := 0, totalCompleted := 0 }).totalAssignments,
            completedAssignments := (((db.companyQuestionnaires.filter
              (fun c => c.companyID == companyID)).insertionSort
                (fun a b => a.assignedAt ≥ b.assignedAt)).foldl (overviewStep db)
                { breakdown := [], totalAssignments := 0, totalCompleted := 0 }).totalCompleted,
            overallCompletion :=
              (if (((db.companyQuestionnaires.filter
                  (fun c => c.companyID == companyID)).insertionSort
                    (fun a b => a.assignedAt ≥ b.assignedAt)).foldl (overviewStep db)
                    { breakdown := [], totalAssignments := 0, totalCompleted := 0 }).totalAssignments > 0
               then
                ((((db.companyQuestionnaires.filter
                  (fun c => c.companyID == companyID)).insertionSort
                    (fun a b => a.assignedAt ≥ b.assignedAt)).foldl (overviewStep db)
                    { breakdown := [], totalAssignments := 0, totalCompleted := 0 }).totalCompleted : ℚ)
                / ((((db.companyQuestionnaires.filter
                  (fun c => c.companyID == companyID)).insertionSort
                    (fun a b => a.assignedAt ≥ b.assignedAt)).foldl (overviewStep db)
                    { breakdown := [], totalAssignments := 0, totalCompleted := 0 }).totalAssignments : ℚ)
                * 100
               else 0),
            questionnaireBreakdown := (((db.companyQuestionnaires.filter
              (fun c => c.companyID == companyID)).insertionSort
                (fun a b => a.assignedAt ≥ b.assignedAt)).foldl (overviewStep db)
                { breakdown := [], totalAssignments := 0, totalCompleted := 0 }).breakdown },
    ?_, ?_, ?_, ?_, ?_, ?_, ?_, ?_⟩
  · simp only [ReportService.GetCompanyOverview, ha, hco, UserMetadataRepository.CountByCompany,
      CompanyQuestionnaireRepository.GetByCompanyID, hfilter]
  · exact hperm.length_eq
  · show List.foldl _ 0 _ = _
    rw [activeCount_eq, (hperm.filter _).length_eq, List.filter_filter]
    congr 1
    apply List.filter_congr
    intro c _
    exact Bool.and_comm _ _
  · exact v1
  · exact v2
  · exact v3
  · rfl
  · intro hall
    have hall2 : ∀ c ∈ (db.companyQuestionnaires.filter
        (fun c => c.companyID == companyID)).insertionSort (fun a b => a.assignedAt ≥ b.assignedAt),
        ∃ q, QuestionnaireRepository.GetByID db c.questionnaireID = .ok q := by
      intro c hc
      have hc2 := hperm.subset hc
      rw [List.mem_filter] at hc2
      exact hall c hc2.1 (by simpa using hc2.2)
    obtain ⟨f1, f2, f3⟩ := overview_fold_all_found db _
      { breakdown := [], totalAssignments := 0, totalCompleted := 0 } hall2
    refine ⟨?_, ?_, ?_⟩
    · show List.length (OverviewAcc.breakdown _) = _
      rw [f3]
      simp
    · show OverviewAcc.totalAssignments _ = _
      rw [f1]
      simpa using (hperm.map _).sum_eq
    · show OverviewAcc.totalCompleted _ = _
      rw [f2]
      simpa using (hperm.map _).sum_eq

/-- Witness for C17: company 1 has bindings with (assigned, completed) = (10, 10) and (90, 0);
the overall percentage is 10, while the two per-binding percentages, 100 and 0, have mean
50. -/
theorem companyOverview_rollup_witness :
    ∃ ov, ReportService.GetCompanyOverview overviewDB 1 "root" true = .ok ov ∧
      ov.totalQuestionnaires = 2 ∧ ov.totalAssignments = 100 ∧ ov.completedAssignments = 10 ∧
      ov.overallCompletion = 10 ∧ ov.overallCompletion ≠ (100 + 0) / 2 := by
  obtain ⟨ov, hov, h1, _, _, _, _, h6, h7⟩ := companyOverview_rollup overviewDB 1 "root" true
    { id := 1, name := "Acme" } (Or.inl rfl) rfl
  obtain ⟨_, t1, t2⟩ := h7 (by
    intro c hc _
    simp only [overviewDB, twoBindingDB, List.mem_cons, List.mem_singleton, List.not_mem_nil,
      or_false] at hc
    rcases hc with rfl | rfl
    · exact ⟨sampleQuestionnaire, rfl⟩
    · exact ⟨sampleQuestionnaire, rfl⟩)
  have e1 : ov.totalQuestionnaires = 2 := h1.trans (by rfl)
  have e2 : ov.totalAssignments = 100 := t1.trans (by rfl)
  have e3 : ov.completedAssignments = 10 := t2.trans (by rfl)
  have e4 : ov.overallCompletion = 10 := by
    rw [h6, e2, e3]; norm_num
  refine ⟨ov, hov, e1, e2, e3, e4, ?_⟩
  rw [e4]; norm_num

/-! ## Department breakdown -/

theorem bumpStat_department (d : String) (c : Bool) (st : DepartmentCompletionStat) :
    (bumpStat d c st).department = st.department := by
  unfold bumpStat; split <;> rfl

theorem bump_keys (d : String) (c : Bool) (stats : List DepartmentCompletionStat) :
    (stats.map (bumpStat d c)).map (fun st => st.department) =
      stats.map (fun st => st.department) := by
  rw [List.map_map]
  apply List.map_congr_left
  intro st _
  exact bumpStat_department d c st

theorem bump_no_match (d : String) (c : Bool) (stats : List DepartmentCompletionStat)
    (h : d ∉ stats.map (fun st => st.department)) : stats.map (bumpStat d c) = stats := by
  induction stats with
  | nil => rfl
  | cons st sts ih =>
    simp only [List.map_cons, List.mem_cons, not_or] at h
    have hne : ¬ st.department = d := fun e => h.1 e.symm
    simp only [List.map_cons, ih h.2, bumpStat, beq_iff_eq, hne, if_false]

theorem bump_sums (d : String) (c : Bool) (stats : List DepartmentCompletionStat)
    (hn : (stats.map (fun st => st.department)).Nodup)
    (hd : d ∈ stats.map (fun st => st.department)) :
    ((stats.map (bumpStat d c)).map (fun st => st.total)).sum =
      (stats.map (fun st => st.total)).sum + 1 ∧
    ((stats.map (bumpStat d c)).map (fun st => st.completed)).sum =
      (stats.map (fun st => st.completed)).sum + (if c = true then 1 else 0) := by
  induction stats with
  | nil => simp at hd
  | cons st sts ih =>
    simp only [List.map_cons, List.nodup_cons] at hn
    by_cases hst : st.department = d
    · have hnot : d ∉ sts.map (fun st => st.department) := hst ▸ hn.1
      rw [List.map_cons, bump_no_match d c sts hnot]
      simp only [bumpStat, hst, beq_self_eq_true, if_true, List.map_cons, List.sum_cons]
      constructor
      · omega
      · split <;> omega
    · have hd2 : d ∈ sts.map (fun st => st.department) := by
        simp only [List.map_cons, List.mem_cons] at hd
        rcases hd with h | h
        · exact absurd h.symm hst
        · exact h
      obtain ⟨i1, i2⟩ := ih hn.2 hd2
      simp only [List.map_cons, List.sum_cons, i1, i2, bumpStat, beq_iff_eq, hst, if_false]
      constructor <;> omega

theorem filter_snoc_length {α : Type} (p : α → Bool) (l : List α) (a : α) :
    ((l ++ [a]).filter p).length = (l.filter p).length + (if p a = true then 1 else 0) := by
  rw [List.filter_append, List.length_append]
  by_cases h : p a = true
  · simp [h]
  · simp [h]

theorem deptInv_step (label : UserQuestionnaireAssignment → String) (ud : String → String)
    (hlabel : ∀ a, bucketName ud a = label a)
    (pre : List UserQuestionnaireAssignment) (stats : List DepartmentCompletionStat)
    (a : UserQuestionnaireAssignment) (h : DeptInv label pre stats) :
    DeptInv label (pre ++ [a]) (countAssignment ud stats a) := by
  obtain ⟨hn, hcnt, hmem, hsumT, hsumC⟩ := h
  by_cases hkey : label a ∈ stats.map (fun st => st.department)
  · -- the bucket exists
    have hany : stats.any (fun st => st.department == label a) = true := by
      simp only [List.any_eq_true, beq_iff_eq]
      obtain ⟨st, hst, he⟩ := List.mem_map.mp hkey
      exact ⟨st, hst, he⟩
    have hstep : countAssignment ud stats a =
        stats.map (bumpStat (label a) (a.status == AssignmentStatus.completed)) := by
      simp only [countAssignment, hlabel, hany, if_true]
    rw [hstep]
    obtain ⟨s1, s2⟩ := bump_sums (label a) (a.status == AssignmentStatus.completed) stats hn hkey
    refine ⟨?_, ?_, ?_, ?_, ?_⟩
    · rw [bump_keys]; exact hn
    · intro st' hst'
      obtain ⟨st, hst, rfl⟩ := List.mem_map.mp hst'
      obtain ⟨c1, c2, c3⟩ := hcnt st hst
      rw [bumpStat_department, filter_snoc_length, filter_snoc_length]
      by_cases hd : st.department = label a
      · have hb : (label a == st.department) = true := by simp [hd]
        simp only [bumpStat, hd, beq_self_eq_true, if_true, Bool.true_and]
        rw [hd] at c1 c2
        refine ⟨by omega, ?_, by omega⟩
        by_cases hc : (a.status == AssignmentStatus.completed) = true
        · simp only [hc, if_true]; omega
        · simp only [hc]; simpa using c2
      · have hb : (label a == st.department) = false := by
          simp only [beq_eq_false_iff_ne]; exact fun e => hd e.symm
        simp only [bumpStat, beq_iff_eq, hd, if_false, hb, Bool.false_and, Bool.false_eq_true]
        exact ⟨by omega, by omega, c3⟩
    · intro b hb
      rw [bump_keys]
      rcases List.mem_append.mp hb with hb | hb
      · exact hmem b hb
      · rw [List.mem_singleton] at hb; subst hb; exact hkey
    · rw [s1, hsumT]; simp
    · rw [s2, hsumC, filter_snoc_length]
  · -- a new bucket is created
    have hany : stats.any (fun st => st.department == label a) = false := by
      rw [Bool.eq_false_iff]
      intro hin
      simp only [List.any_eq_true, beq_iff_eq] at hin
      obtain ⟨st, hst, he⟩ := hin
      exact hkey (List.mem_map.mpr ⟨st, hst, he⟩)
    have hstep : countAssignment ud stats a =
        stats ++ [{ department := label a,
                    completed := if (a.status == AssignmentStatus.completed) = true then 1 else 0,
                    total := 1, percentage := 0 }] := by
      simp only [countAssignment, hlabel, hany, Bool.false_eq_true, if_false, List.map_append,
        bump_no_match _ _ stats hkey, List.map_cons, List.map_nil, bumpStat, beq_self_eq_true,
        if_true, Nat.zero_add]
    have hzero : (pre.filter (fun b => label b == label a)).length = 0 := by
      rw [List.length_eq_zero, List.filter_eq_nil_iff]
      intro b hb hbe
      have := hmem b hb
      rw [beq_iff_eq] at hbe
      exact hkey (hbe ▸ this)
    have hzero2 : (pre.filter
        (fun b => label b == label a && b.status == AssignmentStatus.completed)).length = 0 := by
      rw [List.length_eq_zero, List.filter_eq_nil_iff]
      intro b hb hbe
      simp only [Bool.and_eq_true, beq_iff_eq] at hbe
      exact hkey (hbe.1 ▸ hmem b hb)
    rw [hstep]
    refine ⟨?_, ?_, ?_, ?_, ?_⟩
    · rw [List.map_append, List.nodup_append]
      refine ⟨hn, by simp, ?_⟩
      intro x hx hx2
      simp only [List.map_cons, List.map_nil, List.mem_singleton] at hx2
      exact hkey (hx2 ▸ hx)
    · intro st hst
      rcases List.mem_append.mp hst with hst | hst
      · obtain ⟨c1, c2, c3⟩ := hcnt st hst
        have hd : ¬ label a = st.department := by
          intro e
          exact hkey (e ▸ List.mem_map.mpr ⟨st, hst, rfl⟩)
        have hb : (label a == st.department) = false := by
          simp only [beq_eq_false_iff_ne]; exact hd
        rw [filter_snoc_length, filter_snoc_length]
        simp only [hb, Bool.false_and, Bool.false_eq_true, if_false]
        exact ⟨by omega, by omega, c3⟩
      · rw [List.mem_singleton] at hst
        subst hst
        rw [filter_snoc_length, filter_snoc_length]
        refine ⟨?_, ?_, ?_⟩
        · simp [hzero]
        · simp [hzero2]
        · simp
    · intro b hb
      rw [List.map_append]
      rcases List.mem_append.mp hb with hb | hb
      · exact List.mem_append_left _ (hmem b hb)
      · rw [List.mem_singleton] at hb; subst hb
        exact List.mem_append_right _ (by simp)
    · simp [hsumT]
    · rw [filter_snoc_length]
      simp [hsumC]

theorem deptInv_fold (label : UserQuestionnaireAssignment → String) (ud : String → String)
    (hlabel : ∀ a, bucketName ud a = label a)
    (l pre : List UserQuestionnaireAssignment) (stats : List DepartmentCompletionStat)
    (h : DeptInv label pre stats) :
    DeptInv label (pre ++ l) (l.foldl (countAssignment ud) stats) := by
  induction l generalizing pre stats with
  | nil => simpa using h
  | cons a as ih =>
    have := ih (pre ++ [a]) (countAssignment ud stats a) (deptInv_step label ud hlabel pre stats a h)
    simpa using this

theorem userDepartments_fold (l : List UserMetadata) (m0 : String → String) (u : String)
    (hn : (l.map (fun x => x.id)).Nodup) :
    l.foldl
      (fun userDepts user =>
        if user.department != "" then
          fun id => if id = user.id then user.department else userDepts id
        else userDepts) m0 u =
    (match l.find? (fun x => x.id == u) with
     | some m => if m.department != "" then m.department else m0 u
     | none => m0 u) := by
  induction l generalizing m0 with
  | nil => rfl
  | cons x xs ih =>
    simp only [List.map_cons, List.nodup_cons] at hn
    simp only [List.foldl_cons, List.find?_cons]
    rw [ih _ hn.2]
    by_cases hx : x.id = u
    · have hnone : xs.find? (fun y => y.id == u) = none := by
        rw [List.find?_eq_none]
        intro y hy hyu
        rw [beq_iff_eq] at hyu
        exact hn.1 (List.mem_map.mpr ⟨y, hy, hyu.trans hx.symm⟩)
      have hb : (x.id == u) = true := by simp [hx]
      simp only [hnone, hb]
      by_cases hd : (x.department != "") = true
      · simp [hd, hx]
      · simp [hd]
    · have hb : (x.id == u) = false := by simp [hx]
      have hux : ¬ u = x.id := fun e => hx e.symm
      simp only [hb]
      cases hf : xs.find? (fun y => y.id == u) with
      | none =>
        simp only
        by_cases hd : (x.department != "") = true
        · simp [hd, hux]
        · simp [hd]
      | some m =>
        simp only
        by_cases hd : (x.department != "") = true
        · simp [hd, hux]
        · simp [hd]

theorem bucketName_eq_label (db : DB) (companyID : ObjectID)
    (hn : (db.usersMetadata.map (fun x => x.id)).Nodup) (a : UserQuestionnaireAssignment) :
    bucketName (userDepartments (db.usersMetadata.filter (fun u => u.companyID == companyID))) a =
      departmentLabel db companyID a.userID := by
  have hn2 : ((db.usersMetadata.filter (fun u => u.companyID == companyID)).map
      (fun x => x.id)).Nodup := hn.sublist ((List.filter_sublist _).map _)
  unfold bucketName userDepartments departmentLabel
  rw [userDepartments_fold _ _ a.userID hn2]
  cases (db.usersMetadata.filter (fun u => u.companyID == companyID)).find?
      (fun x => x.id == a.userID) with
  | none => simp
  | some m =>
    by_cases hd : m.department = ""
    · simp [hd]
    · simp [hd]

theorem withPercentage_fields (st : DepartmentCompletionStat) :
    (withPercentage st).department = st.department ∧ (withPercentage st).total = st.total ∧
    (withPercentage st).completed = st.completed ∧
    (1 ≤ st.total →
      (withPercentage st).percentage = (st.completed : ℚ) / (st.total : ℚ) * 100) := by
  unfold withPercentage
  split
  · exact ⟨rfl, rfl, rfl, fun _ => rfl⟩
  · rename_i h
    exact ⟨rfl, rfl, rfl, fun h1 => absurd h1 (by omega)⟩

/-- C18 (department breakdown): when `GetCompletionMetrics` succeeds on a store with distinct
user ids, the department buckets have pairwise distinct names; every assignment of the
binding has a bucket named by the department of its user among the company's users, or
"Unassigned" when that is empty or the user has no metadata there; each bucket's total is
the number of assignments with its name and is at least 1, its completed count is the
number of those that are completed, and its percentage is `completed / total * 100`; the
totals add up to `assigned` and the completed counts to `completed`. -/
theorem department_breakdown_partitions (db : DB) (cqID : ObjectID) (caller : String)
    (isSuperAdmin : Bool) (cq : CompanyQuestionnaire) (co : Company) (qn : Questionnaire)
    (hcq : CompanyQuestionnaireRepository.GetByID db cqID = .ok cq)
    (hauth : isSuperAdmin = true ∨
      ∃ m, UserMetadataRepository.GetByID db caller = .ok m ∧ m.companyID = cq.companyID)
    (hco : CompanyRepository.GetByID db cq.companyID = .ok co)
    (hqn : QuestionnaireRepository.GetByID db cq.questionnaireID = .ok qn)
    (huniq : (db.usersMetadata.map (fun x => x.id)).Nodup) :
    ∃ m, ReportService.GetCompletionMetrics db cqID caller isSuperAdmin = .ok m ∧
      (m.completionByDepartment.map (fun b => b.department)).Nodup ∧
      (∀ a ∈ db.assignments, a.companyQuestionnaireID = cqID →
        ∃ b ∈ m.completionByDepartment,
          b.department = departmentLabel db cq.companyID a.userID) ∧
      (∀ b ∈ m.completionByDepartment,
        b.total = (db.assignments.filter (fun a => a.companyQuestionnaireID == cqID &&
          departmentLabel db cq.companyID a.userID == b.department)).length ∧
        1 ≤ b.total ∧
        b.completed = (db.assignments.filter (fun a => a.companyQuestionnaireID == cqID &&
          (departmentLabel db cq.companyID a.userID == b.department &&
            a.status == .completed))).length ∧
        b.percentage = (b.completed : ℚ) / (b.total : ℚ) * 100) ∧
      (m.completionByDepartment.map (fun b => b.total)).sum = m.assigned ∧
      (m.completionByDepartment.map (fun b => b.completed)).sum = m.completed ∧
      m.assigned = (db.assignments.filter (fun a => a.companyQuestionnaireID == cqID)).length ∧
      m.completed = (db.assignments.filter
        (fun a => a.companyQuestionnaireID == cqID && a.status == .completed)).length := by
  obtain ⟨avg, havg⟩ := getAverageCompletionTime_ok db cqID
  have hinv := deptInv_fold (fun a => departmentLabel db cq.companyID a.userID)
    (userDepartments (db.usersMetadata.filter (fun u => u.companyID == cq.companyID)))
    (bucketName_eq_label db cq.companyID huniq)
    (db.assignments.filter (fun a => a.companyQuestionnaireID == cqID)) [] []
    ⟨List.nodup_nil, fun st hst => by simp at hst, fun a ha => by simp at ha, rfl, rfl⟩
  rw [List.nil_append] at hinv
  obtain ⟨hn, hcnt, hmem, hsumT, hsumC⟩ := hinv
  have hmapD : ∀ (l : List DepartmentCompletionStat),
      (l.map withPercentage).map (fun b => b.department) = l.map (fun b => b.department) := by
    intro l
    rw [List.map_map]
    exact List.map_congr_left (fun st _ => (withPercentage_fields st).1)
  have hmapT : ∀ (l : List DepartmentCompletionStat),
      (l.map withPercentage).map (fun b => b.total) = l.map (fun b => b.total) := by
    intro l
    rw [List.map_map]
    exact List.map_congr_left (fun st _ => (withPercentage_fields st).2.1)
  have hmapC : ∀ (l : List DepartmentCompletionStat),
      (l.map withPercentage).map (fun b => b.completed) = l.map (fun b => b.completed) := by
    intro l
    rw [List.map_map]
    exact List.map_congr_left (fun st _ => (withPercentage_fields st).2.2.1)
  refine ⟨_, getCompletionMetrics_eq db cqID caller isSuperAdmin cq co qn avg hcq hauth hco hqn
    havg, ?_, ?_, ?_, ?_, ?_, rfl, rfl⟩
  · show ((List.map withPercentage _).map (fun b => b.department)).Nodup
    rw [hmapD]; exact hn
  · intro a ha hacq
    have hain : a ∈ db.assignments.filter (fun a => a.companyQuestionnaireID == cqID) := by
      rw [List.mem_filter]; exact ⟨ha, by simp [hacq]⟩
    obtain ⟨st, hst, he⟩ := List.mem_map.mp (hmem a hain)
    exact ⟨withPercentage st, List.mem_map.mpr ⟨st, hst, rfl⟩,
      (withPercentage_fields st).1.trans he⟩
  · intro b hb
    obtain ⟨st, hst, rfl⟩ := List.mem_map.mp hb
    obtain ⟨c1, c2, c3⟩ := hcnt st hst
    obtain ⟨w1, w2, w3, w4⟩ := withPercentage_fields st
    rw [List.filter_filter] at c1 c2
    rw [w1, w2, w3, w4 c3]
    refine ⟨?_, c3, ?_, rfl⟩
    · rw [c1]; congr 1; apply List.filter_congr; intro a _; exact Bool.and_comm _ _
    · rw [c2]; congr 1; apply List.filter_congr; intro a _; exact Bool.and_comm _ _
  · show ((List.map withPercentage _).map (fun b => b.total)).sum = _
    rw [hmapT]; exact hsumT
  · show ((List.map withPercentage _).map (fun b => b.completed)).sum = _
    rw [hmapC, hsumC, filter_filter_length]

/-- Witness for C18: of four assignments of binding 3, two belong to users of department R&D
and two to a user without department and a user without metadata; the bucket totals add up
to 4 and the completed counts to 2. -/
theorem department_breakdown_partitions_witness :
    ∃ m, ReportService.GetCompletionMetrics deptDB 3 "boss" false = .ok m ∧
      (m.completionByDepartment.map (fun b => b.total)).sum = 4 ∧
      (m.completionByDepartment.map (fun b => b.completed)).sum = 2 ∧
      (∃ b ∈ m.completionByDepartment, b.department = "Unassigned") := by
  obtain ⟨m, hm, _, h2, _, h4, h5, h6, h7⟩ := department_breakdown_partitions deptDB 3 "boss"
    false sampleBinding { id := 1, name := "Acme" } sampleQuestionnaire rfl
    (Or.inr ⟨{ id := "boss", companyID := 1, supervisorID := none, department := "R&D" },
      rfl, rfl⟩) rfl rfl (by decide)
  refine ⟨m, hm, h4.trans (h6.trans (by rfl)), h5.trans (h7.trans (by rfl)), ?_⟩
  obtain ⟨b, hb, he⟩ := h2 (NewUserQuestionnaireAssignment 43 3 "ghost" "boss" jan1)
    (by decide) rfl
  exact ⟨b, hb, he.trans (by rfl)⟩

/-! ## Facts on the user metadata repository -/

theorem exists_eq (db : DB) (s : String) :
    UserMetadataRepository.Exists db s = .ok (db.usersMetadata.any (fun u => u.id == s)) := by
  unfold UserMetadataRepository.Exists
  congr 1
  rw [Bool.eq_iff_iff, decide_eq_true_eq, gt_iff_lt, List.length_pos, ne_eq,
    List.filter_eq_nil_iff]
  simp

theorem userGetByID_ok_find (db : DB) (u : String) (m : UserMetadata)
    (h : UserMetadataRepository.GetByID db u = .ok m) :
    db.usersMetadata.find? (fun x => x.id == u) = some m := by
  unfold UserMetadataRepository.GetByID at h
  split at h
  · rename_i b hb; rw [hb]; cases h; rfl
  · cases h

theorem userGetByID_mem (db : DB) (u : String) (m : UserMetadata)
    (h : UserMetadataRepository.GetByID db u = .ok m) : m ∈ db.usersMetadata ∧ m.id = u := by
  have hf := userGetByID_ok_find db u m h
  exact ⟨List.mem_of_find?_eq_some hf, by simpa using List.find?_some hf⟩

theorem deleteOne_of_find {α : Type} (p : α → Bool) (l : List α) (a : α)
    (h : l.find? p = some a) :
    ∃ l1 l2, l = l1 ++ a :: l2 ∧ (∀ x ∈ l1, p x = false) ∧ deleteOne p l = (l1 ++ l2, 1) := by
  induction l with
  | nil => simp at h
  | cons x xs ih =>
    by_cases hx : p x = true
    · simp only [List.find?_cons, hx] at h
      cases h
      exact ⟨[], xs, rfl, by simp, by simp [deleteOne, hx]⟩
    · simp only [List.find?_cons, hx] at h
      obtain ⟨l1, l2, hl, hfree, hd⟩ := ih h
      refine ⟨x :: l1, l2, by simp [hl], ?_, ?_⟩
      · intro y hy
        rcases List.mem_cons.1 hy with rfl | hy
        · simpa using hx
        · exact hfree y hy
      · simp [deleteOne, hx, hd]

theorem deleteOne_mem {α : Type} (p : α → Bool) (l : List α) (y : α)
    (hy : y ∈ (deleteOne p l).1) : y ∈ l := by
  induction l with
  | nil => simp [deleteOne] at hy
  | cons x xs ih =>
    by_cases hx : p x = true
    · simp only [deleteOne, hx, if_true] at hy
      exact List.mem_cons_of_mem _ hy
    · simp only [deleteOne, hx, Bool.false_eq_true, if_false, List.mem_cons] at hy
      rcases hy with rfl | hy
      · exact List.mem_cons_self _ _
      · exact List.mem_cons_of_mem _ (ih hy)

theorem deleteOne_keeps {α : Type} (p : α → Bool) (l : List α) (y : α)
    (hy : y ∈ l) (hp : p y = false) : y ∈ (deleteOne p l).1 := by
  induction l with
  | nil => simp at hy
  | cons x xs ih =>
    by_cases hx : p x = true
    · simp only [deleteOne, hx, if_true]
      rcases List.mem_cons.1 hy with rfl | hy
      · rw [hp] at hx; cases hx
      · exact hy
    · simp only [deleteOne, hx, Bool.false_eq_true, if_false, List.mem_cons]
      rcases List.mem_cons.1 hy with rfl | hy
      · exact Or.inl rfl
      · exact Or.inr (ih hy)

theorem updateOne_keeps_key {α β : Type} (g : α → β) (p : α → Bool) (f : α → α)
    (hg : ∀ x, g (f x) = g x) (l : List α) (y : α) (hy : y ∈ l) :
    ∃ z ∈ (updateOne p f l).1, g z = g y := by
  induction l with
  | nil => simp at hy
  | cons x xs ih =>
    by_cases hx : p x = true
    · simp only [updateOne, hx, if_true, List.mem_cons]
      rcases List.mem_cons.1 hy with rfl | hy
      · exact ⟨f y, Or.inl rfl, hg y⟩
      · exact ⟨y, Or.inr hy, rfl⟩
    · simp only [updateOne, hx, Bool.false_eq_true, if_false, List.mem_cons]
      rcases List.mem_cons.1 hy with rfl | hy
      · exact ⟨y, Or.inl rfl, rfl⟩
      · obtain ⟨z, hz, hgz⟩ := ih hy
        exact ⟨z, Or.inr hz, hgz⟩

/-! ## Self-supervision -/

/-- C21 (self-supervision rejection): for every store and every non-empty user id `u`,
`AssignSupervisor(u, u)` returns an error, either "supervisor not found" or "user cannot
supervise themselves", and the store, hence every user-metadata record, is unchanged. -/
theorem assignSupervisor_rejects_self (db : DB) (u : String) (hu : u ≠ "") :
    UserMetadataService.AssignSupervisor db u u = (.error "supervisor not found", db) ∨
    UserMetadataService.AssignSupervisor db u u =
      (.error "user cannot supervise themselves", db) := by
  have hne : (u != "") = true := by simpa using hu
  unfold UserMetadataService.AssignSupervisor
  simp only [hne, if_true, exists_eq]
  cases db.usersMetadata.any (fun x => x.id == u)
  · left; rfl
  · right; simp

theorem assignSupervisor_rejects_self_witness :
    "carol" ≠ "" ∧
    (UserMetadataService.AssignSupervisor twoCompanyDB "carol" "carol" =
        (.error "supervisor not found", twoCompanyDB) ∨
     UserMetadataService.AssignSupervisor twoCompanyDB "carol" "carol" =
        (.error "user cannot supervise themselves", twoCompanyDB)) :=
  ⟨by decide, assignSupervisor_rejects_self twoCompanyDB "carol" (by decide)⟩

/-- The store after `CreateUserMetadata`: unchanged, or extended by the new record, whose
supervisor, if any, exists already. -/
theorem createUserMetadata_store (db : DB) (userID : String) (companyID : ObjectID)
    (supervisorID department : String) :
    (UserMetadataService.CreateUserMetadata db userID companyID supervisorID department).2 = db ∨
    (userID ≠ "" ∧ (supervisorID = "" ∨ ∃ m ∈ db.usersMetadata, m.id = supervisorID) ∧
      (∀ m ∈ db.usersMetadata, m.id ≠ userID) ∧
      (UserMetadataService.CreateUserMetadata db userID companyID supervisorID department).2 =
        { db with usersMetadata := db.usersMetadata ++
            [{ id := userID, companyID := companyID,
               supervisorID := if supervisorID = "" then none else some supervisorID,
               department := department }] }) := by
  unfold UserMetadataService.CreateUserMetadata
  by_cases hu : userID = ""
  · left; simp [hu]
  · simp only [hu, if_false, exists_eq]
    cases hex : db.usersMetadata.any (fun u => u.id == userID)
    · simp only [Bool.false_eq_true, if_false]
      have hfresh : ∀ m ∈ db.usersMetadata, m.id ≠ userID := by
        intro m hm hid
        have : db.usersMetadata.any (fun u => u.id == userID) = true :=
          List.any_eq_true.2 ⟨m, hm, by simp [hid]⟩
        rw [hex] at this; cases this
      cases hco : CompanyRepository.GetByID db companyID with
      | error e => left; rfl
      | ok co =>
        by_cases hs : supervisorID = ""
        · subst hs
          right
          refine ⟨hu, Or.inl rfl, hfresh, ?_⟩
          by_cases hd : department = "" <;>
            simp [hd, UserMetadataRepository.Create, NewUserMetadata,
              UserMetadata.SetDepartment, UserMetadata.SupervisorID]
        · have hne : (supervisorID != "") = true := by simpa using hs
          simp only [hne, if_true]
          cases hsx : db.usersMetadata.any (fun u => u.id == supervisorID)
          · left; simp
          · right
            have hsup : ∃ m ∈ db.usersMetadata, m.id = supervisorID := by
              obtain ⟨m, hm, hid⟩ := List.any_eq_true.1 hsx
              exact ⟨m, hm, by simpa using hid⟩
            refine ⟨hu, Or.inr hsup, hfresh, ?_⟩
            by_cases hd : department = "" <;>
              simp [hd, hs, UserMetadataRepository.Create, NewUserMetadata,
                UserMetadata.SetDepartment, UserMetadata.SetSupervisor,
                UserMetadata.SupervisorID]
    · left; simp

/-- The store after `UpdateUserMetadata`: unchanged, or the first record of the user
rewritten with a company, a department, and a supervisor that is either the one the
record had or the id of an existing record. -/
theorem updateUserMetadata_store (db : DB) (userID : String) (companyID : ObjectID)
    (supervisorID department : String) :
    (UserMetadataService.UpdateUserMetadata db userID companyID supervisorID department).2 = db ∨
    ∃ m0 ∈ db.usersMetadata, ∃ c s d,
      (s = m0.SupervisorID ∨ ∃ m ∈ db.usersMetadata, m.id = s) ∧
      (UserMetadataService.UpdateUserMetadata db userID companyID supervisorID department).2 =
        { db with usersMetadata := (updateOne (fun u => u.id == userID)
            (fun u => { u with companyID := c, supervisorID := some s, department := d })
            db.usersMetadata).1 } := by
  have hupd : ∀ m : UserMetadata,
      (UserMetadataRepository.Update db userID m).2 = db ∨
      (UserMetadataRepository.Update db userID m).2 =
        { db with usersMetadata := (updateOne (fun u => u.id == userID)
            (fun u => { u with companyID := m.companyID, supervisorID := some m.SupervisorID,
                               department := m.department })
            db.usersMetadata).1 } := by
    intro m
    unfold UserMetadataRepository.Update
    simp only []
    split
    · left; rfl
    · right; rfl
  unfold UserMetadataService.UpdateUserMetadata
  cases h0 : UserMetadataRepository.GetByID db userID with
  | error e => left; rfl
  | ok m0 =>
    have hm0 := (userGetByID_mem db userID m0 h0).1
    simp only []
    split
    · left; rfl
    · rename_i m1 h1
      have hm1 : m1.SupervisorID = m0.SupervisorID := by
        split at h1
        · split at h1
          · cases h1
          · cases h1; rfl
        · cases h1; rfl
      split
      · left; rfl
      · rename_i m2 h2
        have hm2 : m2.SupervisorID = m0.SupervisorID ∨
            ∃ m ∈ db.usersMetadata, m.id = m2.SupervisorID := by
          split at h2
          · rw [exists_eq] at h2
            simp only [] at h2
            cases hsx : db.usersMetadata.any (fun u => u.id == supervisorID)
            · rw [hsx] at h2; simp at h2
            · rw [hsx] at h2
              simp only [Bool.not_true, Bool.false_eq_true, if_false] at h2
              cases h2
              obtain ⟨m, hm, hid⟩ := List.any_eq_true.1 hsx
              exact Or.inr ⟨m, hm, by simpa [UserMetadata.SetSupervisor,
                UserMetadata.SupervisorID] using hid⟩
          · cases h2; exact Or.inl hm1
        rcases hupd (if (department != "") = true then m2.SetDepartment department else m2)
          with h | h
        · left; exact h
        · right
          refine ⟨m0, hm0, _, _, _, ?_, h⟩
          by_cases hd : department = ""
          · simpa [hd] using hm2
          · simpa [hd, UserMetadata.SetDepartment, UserMetadata.SupervisorID] using hm2

/-- The store after `AssignSupervisor`: unchanged, or the first record of the user
rewritten with the given supervisor, which is empty or the id of an existing record other
than the user. -/
theorem assignSupervisor_store (db : DB) (userID supervisorID : String) :
    (UserMetadataService.AssignSupervisor db userID supervisorID).2 = db ∨
    ((supervisorID = "" ∨
        (userID ≠ supervisorID ∧ ∃ m ∈ db.usersMetadata, m.id = supervisorID)) ∧
      (UserMetadataService.AssignSupervisor db userID supervisorID).2 =
        { db with usersMetadata := (updateOne (fun u => u.id == userID)
            (fun u => { u with supervisorID := some supervisorID }) db.usersMetadata).1 }) := by
  have hupd : (UserMetadataRepository.UpdateSupervisor db userID supervisorID).2 = db ∨
      (UserMetadataRepository.UpdateSupervisor db userID supervisorID).2 =
        { db with usersMetadata := (updateOne (fun u => u.id == userID)
            (fun u => { u with supervisorID := some supervisorID }) db.usersMetadata).1 } := by
    unfold UserMetadataRepository.UpdateSupervisor
    simp only []
    split
    · left; rfl
    · right; rfl
  unfold UserMetadataService.AssignSupervisor
  by_cases hs : supervisorID = ""
  · subst hs
    rcases hupd with h | h
    · left; simpa using h
    · right; exact ⟨Or.inl rfl, by simpa using h⟩
  · have hne : (supervisorID != "") = true := by simpa using hs
    simp only [hne, if_true, exists_eq]
    cases hsx : db.usersMetadata.any (fun u => u.id == supervisorID)
    · left; simp
    · by_cases hself : userID = supervisorID
      · left; simp [hself]
      · rcases hupd with h | h
        · left; simpa [hself] using h
        · right
          obtain ⟨m, hm, hid⟩ := List.any_eq_true.1 hsx
          exact ⟨Or.inr ⟨hself, m, hm, by simpa using hid⟩, by simpa [hself] using h⟩

/-- `CreateUserMetadata` keeps the no-self-supervision invariant: the supervisor must exist
before the user does. -/
theorem createUserMetadata_preserves_noSelfSupervision (db : DB) (userID : String)
    (companyID : ObjectID) (supervisorID department : String) (h : NoSelfSupervision db) :
    NoSelfSupervision
      (UserMetadataService.CreateUserMetadata db userID companyID supervisorID department).2 := by
  rcases createUserMetadata_store db userID companyID supervisorID department with
    he | ⟨_, hsup, hfresh, he⟩
  · rw [he]; exact h
  · rw [he]
    intro m hm
    simp only [List.mem_append, List.mem_singleton] at hm
    rcases hm with hm | rfl
    · exact h m hm
    · simp only
      rcases hsup with rfl | ⟨m', hm', hid⟩
      · simp
      · intro hcontra
        by_cases hs : supervisorID = ""
        · simp [hs] at hcontra
        · simp only [hs, if_false, Option.some.injEq] at hcontra
          exact hfresh m' hm' (hid.trans hcontra)

theorem updateOne_mem_hit {α : Type} (p : α → Bool) (f : α → α) (l : List α) (y : α)
    (hy : y ∈ (updateOne p f l).1) : y ∈ l ∨ ∃ z ∈ l, p z = true ∧ y = f z := by
  induction l with
  | nil => simp [updateOne] at hy
  | cons z zs ih =>
    by_cases hz : p z = true
    · simp only [updateOne, hz, if_true, List.mem_cons] at hy
      rcases hy with rfl | hy
      · exact Or.inr ⟨z, List.mem_cons_self _ _, hz, rfl⟩
      · exact Or.inl (List.mem_cons_of_mem _ hy)
    · simp only [updateOne, hz, Bool.false_eq_true, if_false, List.mem_cons] at hy
      rcases hy with rfl | hy
      · exact Or.inl (List.mem_cons_self _ _)
      · rcases ih hy with h1 | ⟨w, hw, hpw, rfl⟩
        · exact Or.inl (List.mem_cons_of_mem _ h1)
        · exact Or.inr ⟨w, List.mem_cons_of_mem _ hw, hpw, rfl⟩

/-- `AssignSupervisor` keeps the no-self-supervision invariant for a non-empty user id. -/
theorem assignSupervisor_preserves_noSelfSupervision (db : DB) (userID supervisorID : String)
    (hu : userID ≠ "") (h : NoSelfSupervision db) :
    NoSelfSupervision (UserMetadataService.AssignSupervisor db userID supervisorID).2 := by
  rcases assignSupervisor_store db userID supervisorID with he | ⟨hs, he⟩
  · rw [he]; exact h
  · rw [he]
    intro m hm
    have hne : userID ≠ supervisorID := by
      rcases hs with rfl | ⟨hne, _⟩
      · exact hu
      · exact hne
    rcases updateOne_mem_hit _ _ _ m hm with h1 | ⟨z, _, hpz, rfl⟩
    · exact h m h1
    · have hz : z.id = userID := by simpa using hpz
      simp only [ne_eq, Option.some.injEq]
      intro hc
      exact hne (hz.symm.trans hc.symm)

/-- C22 (no-self-supervision invariant), evaluated: in the sample store, where no record
names itself, `UpdateUserMetadata("carol", nil, "carol", "")` succeeds and stores "carol" as
her own supervisor, so the invariant is lost; `AssignSupervisor("carol", "carol")` on the
same store is refused. -/
theorem updateUserMetadata_allows_self_supervision :
    NoSelfSupervision twoCompanyDB ∧
    UserMetadataService.UpdateUserMetadata twoCompanyDB "carol" 0 "carol" "" =
      (.ok (), { twoCompanyDB with usersMetadata :=
        [{ id := "alice", companyID := 1, supervisorID := some "boss", department := "R&D" },
         { id := "boss", companyID := 1, supervisorID := none, department := "R&D" },
         { id := "carol", companyID := 1, supervisorID := some "carol", department := "" },
         { id := "mallory", companyID := 9, supervisorID := none, department := "Ops" }] }) ∧
    ¬ NoSelfSupervision
      (UserMetadataService.UpdateUserMetadata twoCompanyDB "carol" 0 "carol" "").2 ∧
    UserMetadataService.AssignSupervisor twoCompanyDB "carol" "carol" =
      (.error "user cannot supervise themselves", twoCompanyDB) := by
  refine ⟨by decide, by rfl, by decide, by rfl⟩

/-! ## Deletion guard -/

/-- C23 (deletion guard): `DeleteUserMetadata(u)` fails with "cannot delete user who
supervises other users" and leaves the store unchanged whenever some record has
`supervisor_id = u`; when no record references `u` and the lookup of `u` finds record `r`,
it succeeds and the store differs only in the user metadata, from which exactly that
occurrence of `r` is removed. -/
theorem deleteUserMetadata_guard (db : DB) (u : String) :
    ((∃ m ∈ db.usersMetadata, m.supervisorID = some u) →
      UserMetadataService.DeleteUserMetadata db u =
        (.error "cannot delete user who supervises other users", db)) ∧
    ((∀ m ∈ db.usersMetadata, m.supervisorID ≠ some u) →
      ∀ r, UserMetadataRepository.GetByID db u = .ok r →
        ∃ l1 l2, db.usersMetadata = l1 ++ r :: l2 ∧ (∀ x ∈ l1, x.id ≠ u) ∧
          UserMetadataService.DeleteUserMetadata db u =
            (.ok (), { db with usersMetadata := l1 ++ l2 })) := by
  constructor
  · rintro ⟨m, hm, hs⟩
    have hpos : (db.usersMetadata.filter (fun x => x.supervisorID == some u)).length > 0 := by
      rw [gt_iff_lt, List.length_pos, ne_eq, List.filter_eq_nil_iff]
      intro hall
      exact hall m hm (by simp [hs])
    simp [UserMetadataService.DeleteUserMetadata, UserMetadataRepository.GetBySupervisorID,
      hpos]
  · intro hnone r hr
    have hzero : (db.usersMetadata.filter (fun x => x.supervisorID == some u)) = [] := by
      rw [List.filter_eq_nil_iff]
      intro m hm
      simpa using hnone m hm
    obtain ⟨l1, l2, hl, hfree, hd⟩ :=
      deleteOne_of_find (fun x => x.id == u) db.usersMetadata r (userGetByID_ok_find db u r hr)
    refine ⟨l1, l2, hl, fun x hx => by simpa using hfree x hx, ?_⟩
    simp [UserMetadataService.DeleteUserMetadata, UserMetadataRepository.GetBySupervisorID,
      hzero, UserMetadataRepository.Delete, hd]

theorem deleteUserMetadata_guard_witness :
    (∃ m ∈ twoCompanyDB.usersMetadata, m.supervisorID = some "boss") ∧
    UserMetadataService.DeleteUserMetadata twoCompanyDB "boss" =
      (.error "cannot delete user who supervises other users", twoCompanyDB) ∧
    (∀ m ∈ twoCompanyDB.usersMetadata, m.supervisorID ≠ some "carol") ∧
    (∃ l1 l2, twoCompanyDB.usersMetadata =
        l1 ++ { id := "carol", companyID := 1, supervisorID := some "boss", department := "" } :: l2 ∧
      (∀ x ∈ l1, x.id ≠ "carol") ∧
      UserMetadataService.DeleteUserMetadata twoCompanyDB "carol" =
        (.ok (), { twoCompanyDB with usersMetadata := l1 ++ l2 })) :=
  ⟨by decide,
   (deleteUserMetadata_guard twoCompanyDB "boss").1 (by decide),
   by decide,
   (deleteUserMetadata_guard twoCompanyDB "carol").2 (by decide) _ (by rfl)⟩

/-! ## Supervisor referential integrity -/

theorem refersToExisting_updateOne (l : List UserMetadata) (p : UserMetadata → Bool)
    (f : UserMetadata → UserMetadata) (s : String)
    (hid : ∀ x, (f x).id = x.id) (hsup : ∀ x, (f x).supervisorID = some s)
    (hs : s = "" ∨ ∃ m ∈ l, m.id = s) (h : RefersToExisting l) :
    RefersToExisting (updateOne p f l).1 := by
  intro m hm t ht hne
  have key : ∃ m' ∈ l, m'.id = t := by
    rcases updateOne_mem p f l m hm with h1 | ⟨z, _, rfl⟩
    · exact h m h1 t ht hne
    · rw [hsup z] at ht
      cases ht
      rcases hs with rfl | hs
      · exact absurd rfl hne
      · exact hs
  obtain ⟨m', hm', hid'⟩ := key
  obtain ⟨z, hz, hzid⟩ := updateOne_keeps_key (fun x => x.id) p f hid l m' hm'
  exact ⟨z, hz, hzid.trans hid'⟩

/-- C30 (supervisor referential integrity): in the sequential model, if every non-empty
stored `supervisor_id` is the id of an existing record, the same holds after
`CreateUserMetadata`, `UpdateUserMetadata`, `AssignSupervisor` and `DeleteUserMetadata`,
for all arguments and whether or not the call succeeds. -/
theorem supervisor_references_preserved (db : DB) (h : SupervisorsExist db) :
    (∀ userID companyID supervisorID department, SupervisorsExist
      (UserMetadataService.CreateUserMetadata db userID companyID supervisorID department).2) ∧
    (∀ userID companyID supervisorID department, SupervisorsExist
      (UserMetadataService.UpdateUserMetadata db userID companyID supervisorID department).2) ∧
    (∀ userID supervisorID, SupervisorsExist
      (UserMetadataService.AssignSupervisor db userID supervisorID).2) ∧
    (∀ userID, SupervisorsExist (UserMetadataService.DeleteUserMetadata db userID).2) := by
  refine ⟨?_, ?_, ?_, ?_⟩
  · intro userID companyID supervisorID department
    rcases createUserMetadata_store db userID companyID supervisorID department with
      he | ⟨_, hsup, _, he⟩
    · rw [he]; exact h
    · rw [he]
      intro m hm t ht hne
      simp only [List.mem_append, List.mem_singleton] at hm
      have key : ∃ m' ∈ db.usersMetadata, m'.id = t := by
        rcases hm with hm | rfl
        · exact h m hm t ht hne
        · by_cases hs : supervisorID = ""
          · simp [hs] at ht
          · simp only [hs, if_false, Option.some.injEq] at ht
            subst ht
            rcases hsup with h1 | h1
            · exact absurd h1 hs
            · exact h1
      obtain ⟨m', hm', hid'⟩ := key
      exact ⟨m', by simp [hm'], hid'⟩
  · intro userID companyID supervisorID department
    rcases updateUserMetadata_store db userID companyID supervisorID department with
      he | ⟨m0, hm0, c, s, d, hs, he⟩
    · rw [he]; exact h
    · rw [he]
      refine refersToExisting_updateOne db.usersMetadata _ _ s (fun _ => rfl) (fun _ => rfl)
        ?_ h
      rcases hs with hs | hs
      · by_cases hempty : s = ""
        · exact Or.inl hempty
        · right
          cases hsup : m0.supervisorID with
          | none => simp [UserMetadata.SupervisorID, hsup] at hs; exact absurd hs hempty
          | some t =>
            have hst : s = t := by simpa [UserMetadata.SupervisorID, hsup] using hs
            subst hst
            exact h m0 hm0 s hsup hempty
      · exact Or.inr hs
  · intro userID supervisorID
    rcases assignSupervisor_store db userID supervisorID with he | ⟨hs, he⟩
    · rw [he]; exact h
    · rw [he]
      refine refersToExisting_updateOne db.usersMetadata _ _ supervisorID (fun _ => rfl)
        (fun _ => rfl) ?_ h
      rcases hs with hs | ⟨_, hs⟩
      · exact Or.inl hs
      · exact Or.inr hs
  · intro userID
    unfold UserMetadataService.DeleteUserMetadata UserMetadataRepository.GetBySupervisorID
    simp only []
    split
    · exact h
    · rename_i hlen
      have hnone : ∀ m ∈ db.usersMetadata, m.supervisorID ≠ some userID := by
        intro m hm hs
        apply hlen
        rw [gt_iff_lt, List.length_pos, ne_eq, List.filter_eq_nil_iff]
        intro hall
        exact hall m hm (by simp [hs])
      unfold UserMetadataRepository.Delete
      simp only []
      split
      · exact h
      · intro m hm t ht hne
        have hm0 := deleteOne_mem _ _ m hm
        obtain ⟨m', hm', hid'⟩ := h m hm0 t ht hne
        refine ⟨m', deleteOne_keeps _ _ m' hm' ?_, hid'⟩
        have : t ≠ userID := by
          rintro rfl
          exact hnone m hm0 ht
        simpa [hid'] using this

theorem supervisor_references_preserved_witness :
    SupervisorsExist twoCompanyDB ∧
    SupervisorsExist
      (UserMetadataService.CreateUserMetadata twoCompanyDB "dave" 1 "boss" "R&D").2 ∧
    SupervisorsExist
      (UserMetadataService.UpdateUserMetadata twoCompanyDB "carol" 0 "alice" "").2 ∧
    SupervisorsExist (UserMetadataService.AssignSupervisor twoCompanyDB "mallory" "boss").2 ∧
    SupervisorsExist (UserMetadataService.DeleteUserMetadata twoCompanyDB "carol").2 :=
  have h0 : SupervisorsExist twoCompanyDB := by
    intro m hm s hs _
    simp only [twoCompanyDB, List.mem_cons, List.mem_singleton, List.not_mem_nil,
      or_false] at hm
    refine ⟨{ id := "boss", companyID := 1, supervisorID := none, department := "R&D" },
      by simp [twoCompanyDB], ?_⟩
    rcases hm with rfl | rfl | rfl | rfl <;> simp at hs <;> simp [hs]
  ⟨h0,
   (supervisor_references_preserved twoCompanyDB h0).1 "dave" 1 "boss" "R&D",
   (supervisor_references_preserved twoCompanyDB h0).2.1 "carol" 0 "alice" "",
   (supervisor_references_preserved twoCompanyDB h0).2.2.1 "mallory" "boss",
   (supervisor_references_preserved twoCompanyDB h0).2.2.2 "carol"⟩

/-! ## Strict periods -/

/-- The store after `AssignQuestionnaireToCompany`: unchanged, or extended by a binding
whose start is strictly before its end. -/
theorem assignQuestionnaireToCompany_period (db : DB) (companyID questionnaireID : ObjectID)
    (assignedBy : String) (periodStart periodEnd now : Time) :
    (CompanyService.AssignQuestionnaireToCompany db companyID questionnaireID assignedBy
      periodStart periodEnd now).2 = db ∨
    (periodStart < periodEnd ∧
      (CompanyService.AssignQuestionnaireToCompany db companyID questionnaireID assignedBy
        periodStart periodEnd now).2 =
        { db with
          companyQuestionnaires := db.companyQuestionnaires ++
            [NewCompanyQuestionnaire db.nextObjectID companyID questionnaireID assignedBy
              periodStart periodEnd now],
          nextObjectID := db.nextObjectID + 1 }) := by
  by_cases hlt : periodStart < periodEnd
  · rcases assignQuestionnaireToCompany_store db companyID questionnaireID assignedBy
      periodStart periodEnd now with h | ⟨_, h⟩
    · exact Or.inl h
    · exact Or.inr ⟨hlt, h⟩
  · left
    have hc : (Time.After periodStart periodEnd || Time.Equal periodStart periodEnd) = true := by
      rcases lt_or_eq_of_le (not_lt.1 hlt) with h | h
      · simp [Time.After, h]
      · simp [Time.Equal, h]
    unfold CompanyService.AssignQuestionnaireToCompany
    split
    · rfl
    · split
      · rfl
      · split
        · rfl
        · split
          · rfl
          · rfl

/-- The store after `UpdateCompanyQuestionnaire`: unchanged, or the first binding with the
id rewritten with a period that is either the one of a stored binding or a strict one. -/
theorem updateCompanyQuestionnaire_period (db : DB) (id : ObjectID)
    (periodStart periodEnd : Time) (isActive : Bool) :
    (CompanyService.UpdateCompanyQuestionnaire db id periodStart periodEnd isActive).2 = db ∨
    ∃ s e a, ((∃ c ∈ db.companyQuestionnaires, s = c.periodStart ∧ e = c.periodEnd) ∨ s < e) ∧
      (CompanyService.UpdateCompanyQuestionnaire db id periodStart periodEnd isActive).2 =
        { db with companyQuestionnaires := (updateOne (fun c => c.id == id)
            (fun c => { c with periodStart := s, periodEnd := e, isActive := a })
            db.companyQuestionnaires).1 } := by
  have hupd : ∀ cq : CompanyQuestionnaire,
      (CompanyQuestionnaireRepository.Update db id cq).2 = db ∨
      (CompanyQuestionnaireRepository.Update db id cq).2 =
        { db with companyQuestionnaires := (updateOne (fun c => c.id == id)
            (fun c => { c with periodStart := cq.periodStart, periodEnd := cq.periodEnd,
                               isActive := cq.isActive })
            db.companyQuestionnaires).1 } := by
    intro cq
    unfold CompanyQuestionnaireRepository.Update
    simp only []
    split
    · left; rfl
    · right; rfl
  unfold CompanyService.UpdateCompanyQuestionnaire
  cases h0 : CompanyQuestionnaireRepository.GetByID db id with
  | error e => left; rfl
  | ok cq =>
    have hmem : cq ∈ db.companyQuestionnaires := by
      unfold CompanyQuestionnaireRepository.GetByID at h0
      split at h0
      · rename_i b hb
        cases h0
        exact List.mem_of_find?_eq_some hb
      · cases h0
    simp only []
    split
    · split
      · left; rfl
      · rename_i hc
        have hlt : periodStart < periodEnd := by
          by_contra hlt
          apply hc
          rcases lt_or_eq_of_le (not_lt.1 hlt) with h | h
          · simp [Time.After, h]
          · simp [Time.Equal, h]
        rcases hupd { cq with periodStart := periodStart, periodEnd := periodEnd,
                              isActive := isActive } with h | h
        · exact Or.inl h
        · exact Or.inr ⟨_, _, _, Or.inr hlt, h⟩
    · rcases hupd { cq with isActive := isActive } with h | h
      · exact Or.inl h
      · exact Or.inr ⟨_, _, _, Or.inl ⟨cq, hmem, rfl, rfl⟩, h⟩

/-- C24 (strict period invariant): if every binding has `period_start < period_end`, the
same holds after `AssignQuestionnaireToCompany` and after `UpdateCompanyQuestionnaire`, for
all arguments (an update with a zero date or with equal dates included); and a call of
either with both dates supplied and `period_start >= period_end` returns an error and
leaves the store unchanged. -/
theorem strict_periods_preserved (db : DB) :
    (StrictPeriods db →
      ∀ companyID questionnaireID assignedBy periodStart periodEnd now,
        StrictPeriods (CompanyService.AssignQuestionnaireToCompany db companyID questionnaireID
          assignedBy periodStart periodEnd now).2) ∧
    (StrictPeriods db →
      ∀ id periodStart periodEnd isActive,
        StrictPeriods
          (CompanyService.UpdateCompanyQuestionnaire db id periodStart periodEnd isActive).2) ∧
    (∀ companyID questionnaireID assignedBy (periodStart periodEnd now : Time),
      periodStart ≥ periodEnd →
        ∃ e, CompanyService.AssignQuestionnaireToCompany db companyID questionnaireID
          assignedBy periodStart periodEnd now = (.error e, db)) ∧
    (∀ id (periodStart periodEnd : Time) isActive,
      periodStart ≠ 0 → periodEnd ≠ 0 → periodStart ≥ periodEnd →
        ∃ e, CompanyService.UpdateCompanyQuestionnaire db id periodStart periodEnd isActive =
          (.error e, db)) := by
  refine ⟨?_, ?_, ?_, ?_⟩
  · intro h companyID questionnaireID assignedBy periodStart periodEnd now
    rcases assignQuestionnaireToCompany_period db companyID questionnaireID assignedBy
      periodStart periodEnd now with he | ⟨hlt, he⟩
    · rw [he]; exact h
    · rw [he]
      intro c hc
      simp only [List.mem_append, List.mem_singleton] at hc
      rcases hc with hc | rfl
      · exact h c hc
      · exact hlt
  · intro h id periodStart periodEnd isActive
    rcases updateCompanyQuestionnaire_period db id periodStart periodEnd isActive with
      he | ⟨s, e, a, hse, he⟩
    · rw [he]; exact h
    · rw [he]
      intro c hc
      rcases updateOne_mem _ _ _ c hc with h1 | ⟨z, _, rfl⟩
      · exact h c h1
      · rcases hse with ⟨c0, hc0, rfl, rfl⟩ | hlt
        · exact h c0 hc0
        · exact hlt
  · intro companyID questionnaireID assignedBy periodStart periodEnd now hge
    have hc : (Time.After periodStart periodEnd || Time.Equal periodStart periodEnd) = true := by
      rcases lt_or_eq_of_le hge with h | h
      · simp [Time.After, h]
      · simp [Time.Equal, h]
    unfold CompanyService.AssignQuestionnaireToCompany
    split
    · exact ⟨_, rfl⟩
    · split
      · exact ⟨_, rfl⟩
      · split
        · exact ⟨_, rfl⟩
        · split
          · exact ⟨_, rfl⟩
          · exact ⟨_, rfl⟩
  · intro id periodStart periodEnd isActive hs he hge
    have hc : (Time.After periodStart periodEnd || Time.Equal periodStart periodEnd) = true := by
      rcases lt_or_eq_of_le hge with h | h
      · simp [Time.After, h]
      · simp [Time.Equal, h]
    have hz : (!Time.IsZero periodStart && !Time.IsZero periodEnd) = true := by
      simp [Time.IsZero, hs, he]
    unfold CompanyService.UpdateCompanyQuestionnaire
    split
    · exact ⟨_, rfl⟩
    · rw [if_pos hz, if_pos hc]
      exact ⟨_, rfl⟩

theorem strict_periods_preserved_witness :
    StrictPeriods twoBindingDB ∧
    StrictPeriods (CompanyService.AssignQuestionnaireToCompany twoBindingDB 9 2 "root"
      jan1 mar31 jan1).2 ∧
    StrictPeriods (CompanyService.UpdateCompanyQuestionnaire twoBindingDB 3 0 jun30 true).2 ∧
    StrictPeriods (CompanyService.UpdateCompanyQuestionnaire twoBindingDB 3 mar15 mar15 true).2 ∧
    (∃ e, CompanyService.AssignQuestionnaireToCompany twoBindingDB 9 2 "root" mar31 jan1 jan1 =
      (.error e, twoBindingDB)) ∧
    (∃ e, CompanyService.UpdateCompanyQuestionnaire twoBindingDB 3 mar15 mar15 true =
      (.error e, twoBindingDB)) :=
  have h0 : StrictPeriods twoBindingDB := by decide
  ⟨h0,
   (strict_periods_preserved twoBindingDB).1 h0 9 2 "root" jan1 mar31 jan1,
   (strict_periods_preserved twoBindingDB).2.1 h0 3 0 jun30 true,
   (strict_periods_preserved twoBindingDB).2.1 h0 3 mar15 mar15 true,
   (strict_periods_preserved twoBindingDB).2.2.1 9 2 "root" mar31 jan1 jan1 (by decide),
   (strict_periods_preserved twoBindingDB).2.2.2 3 mar15 mar15 true (by decide) (by decide)
     (by decide)⟩

/-! ## Company names -/

set_option maxRecDepth 100000 in
/-- C25 (company name bound), evaluated: `UpdateCompany` stores the two-character name "ab"
and a name of 201 characters, and `CreateCompany` stores a name of 201 characters, although
`CreateCompany` rejects "ab"; the bound `min=3,max=200` of the model's tag is not applied. -/
theorem company_name_bounds_not_enforced :
    CompanyService.UpdateCompany sampleDB 1 "ab" =
      (.ok (), { sampleDB with companies := [{ id := 1, name := "ab" }] }) ∧
    ("ab".utf8ByteSize = 2 ∧ "ab".length = 2) ∧
    (longName.utf8ByteSize = 201 ∧ longName.length = 201) ∧
    CompanyService.UpdateCompany sampleDB 1 longName =
      (.ok (), { sampleDB with companies := [{ id := 1, name := longName }] }) ∧
    CompanyService.CreateCompany sampleDB longName =
      (.ok { id := 5, name := longName },
       { sampleDB with companies := [{ id := 1, name := "Acme" }, { id := 5, name := longName }],
                       nextObjectID := 6 }) ∧
    CompanyService.CreateCompany sampleDB "ab" =
      (.error "company name must be at least 3 characters", sampleDB) := by
  refine ⟨by rfl, ⟨by decide, by decide⟩, ⟨by decide, by decide⟩, by rfl, by rfl, by rfl⟩

/-! ## Role tiers -/

theorem requireRole_iff (roles : List String) (claims : JWTClaims) :
    RequireRole roles claims = true ↔ ∃ r ∈ roles, r ∈ claims.roles := by
  unfold RequireRole
  simp only [List.any_eq_true, beq_iff_eq]
  constructor
  · rintro ⟨r, hr, u, hu, rfl⟩
    exact ⟨u, hr, hu⟩
  · rintro ⟨r, hr, hu⟩
    exact ⟨r, hr, r, hu, rfl⟩

/-- C26 (cumulative role tiers): for every role list of a verified principal,
`RequireSupervisor` and `IsSupervisor` admit it iff it contains super_admin, company_admin
or supervisor; `RequireEmployee` admits it iff it contains one of the four roles; and
whoever passes `RequireSuperAdmin` passes `RequireCompanyAdmin`, whoever passes that passes
`RequireSupervisor`, and whoever passes that passes `RequireEmployee`. -/
theorem role_tiers_cumulative (claims : JWTClaims) :
    (RequireSupervisor claims = true ↔
      "super_admin" ∈ claims.roles ∨ "company_admin" ∈ claims.roles ∨
        "supervisor" ∈ claims.roles) ∧
    (IsSupervisor claims = true ↔
      "super_admin" ∈ claims.roles ∨ "company_admin" ∈ claims.roles ∨
        "supervisor" ∈ claims.roles) ∧
    (RequireEmployee claims = true ↔
      "super_admin" ∈ claims.roles ∨ "company_admin" ∈ claims.roles ∨
        "supervisor" ∈ claims.roles ∨ "employee" ∈ claims.roles) ∧
    (RequireSuperAdmin claims = true → RequireCompanyAdmin claims = true) ∧
    (RequireCompanyAdmin claims = true → RequireSupervisor claims = true) ∧
    (RequireSupervisor claims = true → RequireEmployee claims = true) := by
  have h0 : RequireSuperAdmin claims = true ↔ "super_admin" ∈ claims.roles := by
    simp [RequireSuperAdmin, requireRole_iff]
  have h1 : RequireCompanyAdmin claims = true ↔
      "super_admin" ∈ claims.roles ∨ "company_admin" ∈ claims.roles := by
    simp [RequireCompanyAdmin, requireRole_iff]
  have h2 : RequireSupervisor claims = true ↔
      "super_admin" ∈ claims.roles ∨ "company_admin" ∈ claims.roles ∨
        "supervisor" ∈ claims.roles := by
    simp [RequireSupervisor, requireRole_iff]
  have h3 : RequireEmployee claims = true ↔
      "super_admin" ∈ claims.roles ∨ "company_admin" ∈ claims.roles ∨
        "supervisor" ∈ claims.roles ∨ "employee" ∈ claims.roles := by
    simp [RequireEmployee, requireRole_iff]
  have hsame : IsSupervisor claims = RequireSupervisor claims := rfl
  refine ⟨h2, by rw [hsame]; exact h2, h3, ?_, ?_, ?_⟩
  · intro h
    exact h1.2 (Or.inl (h0.1 h))
  · intro h
    rcases h1.1 h with h | h
    · exact h2.2 (Or.inl h)
    · exact h2.2 (Or.inr (Or.inl h))
  · intro h
    rcases h2.1 h with h | h | h
    · exact h3.2 (Or.inl h)
    · exact h3.2 (Or.inr (Or.inl h))
    · exact h3.2 (Or.inr (Or.inr (Or.inl h)))

theorem role_tiers_cumulative_witness :
    RequireCompanyAdmin { sub := "u1", roles := ["company_admin"] } = true ∧
    RequireSupervisor { sub := "u1", roles := ["company_admin"] } = true ∧
    RequireEmployee { sub := "u1", roles := ["company_admin"] } = true ∧
    RequireSuperAdmin { sub := "u1", roles := ["company_admin"] } = false :=
  have h1 : RequireCompanyAdmin { sub := "u1", roles := ["company_admin"] } = true := by decide
  have h2 := (role_tiers_cumulative { sub := "u1", roles := ["company_admin"] }).2.2.2.2.1 h1
  ⟨h1, h2, (role_tiers_cumulative { sub := "u1", roles := ["company_admin"] }).2.2.2.2.2 h2,
   by decide⟩

/-! ## Classification of the overlap error -/

/-- C28 (conflict classification), evaluated: binding the sample questionnaire to company 1
again for 2024-03-15 to 2024-06-30 fails with the overlapping-period error, and the handler
answers 500 with the generic message, not 409; the message contains neither "duplicate" nor
"already exists", whereas "user metadata already exists" is classified 409. -/
theorem overlap_error_classified_internal :
    CompanyService.AssignQuestionnaireToCompany sampleDB 1 2 "root" mar15 jun30 mar15 =
      (.error "questionnaire already assigned to this company for overlapping period",
       sampleDB) ∧
    CompanyHandler.AssignQuestionnaireToCompany sampleDB
        { sub := "root", roles := ["company_admin"] } 1 2 mar15 jun30 mar15 =
      (.failure 500 "An error occurred while processing your request", sampleDB) ∧
    contains "questionnaire already assigned to this company for overlapping period"
      "duplicate" = false ∧
    contains "questionnaire already assigned to this company for overlapping period"
      "already exists" = false ∧
    (HandleRepositoryError "user metadata already exists" : HTTPResponse Unit) =
      .failure 409 "user metadata already exists" := by
  refine ⟨by rfl, by rfl, by decide, by decide, by rfl⟩

/-! ## Status counts of the completion metrics -/

theorem authorizeReport_ok_inv (db : DB) (companyID : ObjectID) (caller : String)
    (isSuperAdmin : Bool) (h : authorizeReport db companyID caller isSuperAdmin = .ok ()) :
    isSuperAdmin = true ∨
      ∃ m, UserMetadataRepository.GetByID db caller = .ok m ∧ m.companyID = companyID := by
  cases isSuperAdmin with
  | true => exact Or.inl rfl
  | false =>
    right
    unfold authorizeReport at h
    simp only [Bool.not_false, if_true] at h
    cases hm : UserMetadataRepository.GetByID db caller with
    | error e => simp only [hm] at h; cases h
    | ok m =>
      simp only [hm] at h
      by_cases hc : companyID = m.companyID
      · exact ⟨m, rfl, hc.symm⟩
      · simp [hc] at h

theorem getCompletionMetrics_ok_inv (db : DB) (cqID : ObjectID) (caller : String)
    (isSuperAdmin : Bool) (m : CompletionMetrics)
    (h : ReportService.GetCompletionMetrics db cqID caller isSuperAdmin = .ok m) :
    ∃ cq co qn, CompanyQuestionnaireRepository.GetByID db cqID = .ok cq ∧
      (isSuperAdmin = true ∨
        ∃ u, UserMetadataRepository.GetByID db caller = .ok u ∧ u.companyID = cq.companyID) ∧
      CompanyRepository.GetByID db cq.companyID = .ok co ∧
      QuestionnaireRepository.GetByID db cq.questionnaireID = .ok qn := by
  unfold ReportService.GetCompletionMetrics at h
  cases hcq : CompanyQuestionnaireRepository.GetByID db cqID with
  | error e => simp only [hcq] at h; cases h
  | ok cq =>
    simp only [hcq] at h
    cases ha : authorizeReport db cq.companyID caller isSuperAdmin with
    | error e => simp only [ha] at h; cases h
    | ok u =>
      simp only [ha] at h
      cases hco : CompanyRepository.GetByID db cq.companyID with
      | error e => simp only [hco] at h; cases h
      | ok co =>
        simp only [hco] at h
        cases hqn : QuestionnaireRepository.GetByID db cq.questionnaireID with
        | error e => simp only [hqn] at h; cases h
        | ok qn =>
          exact ⟨cq, co, qn, rfl, authorizeReport_ok_inv db cq.companyID caller isSuperAdmin ha,
            hco, hqn⟩

theorem status_partition (l : List UserQuestionnaireAssignment) (cqID : ObjectID) :
    (l.filter (fun a => a.companyQuestionnaireID == cqID &&
        a.status == AssignmentStatus.pending)).length +
      (l.filter (fun a => a.companyQuestionnaireID == cqID &&
        a.status == AssignmentStatus.inProgress)).length +
      (l.filter (fun a => a.companyQuestionnaireID == cqID &&
        a.status == AssignmentStatus.completed)).length =
    (l.filter (fun a => a.companyQuestionnaireID == cqID)).length := by
  induction l with
  | nil => rfl
  | cons a l ih =>
    simp only [List.filter_cons]
    by_cases hc : (a.companyQuestionnaireID == cqID) = true
    · cases hs : a.status <;> simp [hc, hs] <;> omega
    · have hc' : (a.companyQuestionnaireID == cqID) = false := by simpa using hc
      simp only [hc', Bool.false_and, Bool.false_eq_true, if_false]
      exact ih

theorem percentage_bounds (c a : Nat) (h : c ≤ a) :
    (0 : ℚ) ≤ (if a > 0 then (c : ℚ) / (a : ℚ) * 100 else 0) ∧
    (if a > 0 then (c : ℚ) / (a : ℚ) * 100 else 0) ≤ (100 : ℚ) := by
  by_cases ha : a > 0
  · have hpos : (0 : ℚ) < (a : ℚ) := by exact_mod_cast ha
    have hle : (c : ℚ) ≤ (a : ℚ) := by exact_mod_cast h
    have h1 : (c : ℚ) / (a : ℚ) ≤ 1 := (div_le_one hpos).2 hle
    have h0 : (0 : ℚ) ≤ (c : ℚ) / (a : ℚ) := div_nonneg (by positivity) hpos.le
    simp only [ha, if_true]
    constructor
    · positivity
    · linarith
  · simp [ha]

/-- C29 (status counts partition the assignments): whenever `GetCompletionMetrics` returns
metrics, `pending + in_progress + completed = assigned`, `completed <= assigned`, and
`completion_percentage` lies between 0 and 100 inclusive; the status breakdown and the
assignment list are read from the same store state, and a status is one of the three. -/
theorem completionMetrics_counts_partition (db : DB) (cqID : ObjectID) (caller : String)
    (isSuperAdmin : Bool) (m : CompletionMetrics)
    (h : ReportService.GetCompletionMetrics db cqID caller isSuperAdmin = .ok m) :
    m.pending + m.inProgress + m.completed = m.assigned ∧ m.completed ≤ m.assigned ∧
    0 ≤ m.completionPercentage ∧ m.completionPercentage ≤ 100 := by
  obtain ⟨cq, co, qn, hcq, hauth, hco, hqn⟩ :=
    getCompletionMetrics_ok_inv db cqID caller isSuperAdmin m h
  obtain ⟨avg, havg⟩ := getAverageCompletionTime_ok db cqID
  rw [getCompletionMetrics_eq db cqID caller isSuperAdmin cq co qn avg hcq hauth hco hqn
    havg] at h
  have hm := Except.ok.inj h
  subst hm
  have hpart := status_partition db.assignments cqID
  have hle : (db.assignments.filter
      (fun a => a.companyQuestionnaireID == cqID && a.status == .completed)).length ≤
      (db.assignments.filter (fun a => a.companyQuestionnaireID == cqID)).length := by
    omega
  exact ⟨hpart, hle, (percentage_bounds _ _ hle).1, (percentage_bounds _ _ hle).2⟩

theorem completionMetrics_counts_partition_witness :
    ∃ m, ReportService.GetCompletionMetrics metricsDB 3 "boss" false = .ok m ∧
      m.pending + m.inProgress + m.completed = m.assigned ∧ m.completed ≤ m.assigned ∧
      0 ≤ m.completionPercentage ∧ m.completionPercentage ≤ 100 := by
  obtain ⟨avg, havg⟩ := getAverageCompletionTime_ok metricsDB 3
  have hm := getCompletionMetrics_eq metricsDB 3 "boss" false sampleBinding
    { id := 1, name := "Acme" } sampleQuestionnaire avg (by rfl)
    (Or.inr ⟨{ id := "boss", companyID := 1, supervisorID := none, department := "R&D" },
      rfl, rfl⟩) (by rfl) (by rfl) havg
  exact ⟨_, hm, completionMetrics_counts_partition metricsDB 3 "boss" false _ hm⟩

/-! ## The fallible services on the storage model -/

theorem mongo_verifyTargets (db : DB) (c : ObjectID) (us : List String) :
    Fallible.verifyTargets mongoAssignmentService c us db = (verifyTargets db c us, db) := by
  induction us with
  | nil => rfl
  | cons u us ih =>
    have hg : mongoAssignmentService.userMetadataRepo.GetByID db u =
        (UserMetadataRepository.GetByID db u, db) := rfl
    simp only [Fallible.verifyTargets, verifyTargets, hg]
    cases UserMetadataRepository.GetByID db u with
    | error e => rfl
    | ok m =>
      simp only []
      split
      · rfl
      · exact ih

theorem mongo_createAssignments (assignedBy : String) (cqID : ObjectID) (now : Time)
    (us : List String) (db : DB) (acc : List UserQuestionnaireAssignment) :
    Fallible.createAssignments mongoAssignmentService assignedBy cqID now us db acc =
      createAssignments assignedBy cqID now us db acc := by
  induction us generalizing db acc with
  | nil => rfl
  | cons u us ih =>
    have hg : mongoAssignmentService.assignmentRepo.CheckDuplicate db u cqID =
        (AssignmentRepository.CheckDuplicate db u cqID, db) := rfl
    have hn : mongoAssignmentService.newObjectID db = db.newObjectID := rfl
    have hc : ∀ d a, mongoAssignmentService.assignmentRepo.Create d a =
        AssignmentRepository.Create d a := fun _ _ => rfl
    simp only [Fallible.createAssignments, createAssignments, hg, hn, hc]
    cases AssignmentRepository.CheckDuplicate db u cqID with
    | error e => rfl
    | ok d =>
      simp only []
      split
      · exact ih db acc
      · simp only [AssignmentRepository.Create]
        exact ih _ _

theorem mongo_authorizeAssigner (db : DB) (assignedBy : String) (cq : CompanyQuestionnaire)
    (us : List String) (isSuperAdmin : Bool) :
    Fallible.authorizeAssigner mongoAssignmentService assignedBy cq us isSuperAdmin db =
      (authorizeAssigner db assignedBy cq us isSuperAdmin, db) := by
  have hg : mongoAssignmentService.userMetadataRepo.GetByID db assignedBy =
      (UserMetadataRepository.GetByID db assignedBy, db) := rfl
  simp only [Fallible.authorizeAssigner, authorizeAssigner, hg]
  split
  · cases UserMetadataRepository.GetByID db assignedBy with
    | error e => rfl
    | ok m =>
      simp only []
      split
      · rfl
      · exact mongo_verifyTargets db _ us
  · rfl

/-- With the repositories of the storage model, the stateful operations of the fallible
assignment service are the operations of the storage model. -/
theorem mongo_assignmentService_writes (db : DB) :
    (∀ assignedBy cqID userIDs isSuperAdmin now,
      mongoAssignmentService.AssignToUsers db assignedBy cqID userIDs isSuperAdmin now =
        AssignmentService.AssignToUsers db assignedBy cqID userIDs isSuperAdmin now) ∧
    (∀ id userID questionID value now,
      mongoAssignmentService.SaveResponse db id userID questionID value now =
        AssignmentService.SaveResponse db id userID questionID value now) ∧
    (∀ id userID now,
      mongoAssignmentService.SubmitAssignment db id userID now =
        AssignmentService.SubmitAssignment db id userID now) ∧
    (∀ id, mongoAssignmentService.DeleteAssignment db id =
      AssignmentService.DeleteAssignment db id) := by
  refine ⟨?_, ?_, ?_, ?_⟩
  · intro assignedBy cqID userIDs isSuperAdmin now
    have h1 : mongoAssignmentService.companyQuestionnaireRepo.GetByID db cqID =
        (CompanyQuestionnaireRepository.GetByID db cqID, db) := rfl
    have h2 : ∀ q, mongoAssignmentService.questionnaireRepo.GetByID db q =
        (QuestionnaireRepository.GetByID db q, db) := fun _ => rfl
    simp only [Fallible.AssignmentService.AssignToUsers, AssignmentService.AssignToUsers, h1]
    split
    · rfl
    · cases CompanyQuestionnaireRepository.GetByID db cqID with
      | error e => rfl
      | ok cq =>
        simp only [h2]
        split
        · rfl
        · cases QuestionnaireRepository.GetByID db cq.questionnaireID with
          | error e => rfl
          | ok qn =>
            simp only [mongo_authorizeAssigner]
            split
            · rfl
            · cases authorizeAssigner db assignedBy cq userIDs isSuperAdmin with
              | error e => rfl
              | ok u =>
                simp only [mongo_createAssignments]
                rcases createAssignments assignedBy cqID now userIDs db [] with ⟨e | l, st4⟩
                · rfl
                · by_cases hl : l.length = 0 <;> simp [hl]
  · intro id userID questionID value now
    have h1 : mongoAssignmentService.assignmentRepo.GetByID db id =
        (AssignmentRepository.GetByID db id, db) := rfl
    have h2 : ∀ c, mongoAssignmentService.companyQuestionnaireRepo.GetByID db c =
        (CompanyQuestionnaireRepository.GetByID db c, db) := fun _ => rfl
    simp only [Fallible.AssignmentService.SaveResponse, AssignmentService.SaveResponse, h1]
    cases AssignmentRepository.GetByID db id with
    | error e => rfl
    | ok a =>
      simp only [h2]
      split
      · rfl
      · split
        · rfl
        · cases CompanyQuestionnaireRepository.GetByID db a.companyQuestionnaireID with
          | error e => rfl
          | ok cq =>
            simp only []
            split
            · rfl
            · rfl
  · intro id userID now
    have h1 : mongoAssignmentService.assignmentRepo.GetByID db id =
        (AssignmentRepository.GetByID db id, db) := rfl
    have h2 : ∀ c, mongoAssignmentService.companyQuestionnaireRepo.GetByID db c =
        (CompanyQuestionnaireRepository.GetByID db c, db) := fun _ => rfl
    have h3 : ∀ q, mongoAssignmentService.questionnaireRepo.GetByID db q =
        (QuestionnaireRepository.GetByID db q, db) := fun _ => rfl
    simp only [Fallible.AssignmentService.SubmitAssignment, AssignmentService.SubmitAssignment,
      h1]
    cases AssignmentRepository.GetByID db id with
    | error e => rfl
    | ok a =>
      simp only [h2]
      split
      · rfl
      · split
        · rfl
        · cases CompanyQuestionnaireRepository.GetByID db a.companyQuestionnaireID with
          | error e => rfl
          | ok cq =>
            simp only [h3]
            cases QuestionnaireRepository.GetByID db cq.questionnaireID with
            | error e => rfl
            | ok qn =>
              simp only []
              split
              · rfl
              · rfl
  · intro id
    rfl

theorem mongo_teamStep_fold (db : DB) (users : List UserMetadata)
    (acc : List UserQuestionnaireAssignment) :
    users.foldl (Fallible.teamStep mongoAssignmentService) (acc, db) =
      (users.foldl
        (fun allAssignments user =>
          match AssignmentRepository.GetByUserID db user.id none with
          | .error _ => allAssignments
          | .ok assignments => allAssignments ++ assignments) acc, db) := by
  induction users generalizing acc with
  | nil => rfl
  | cons u us ih =>
    simp only [List.foldl_cons]
    have hstep : Fallible.teamStep mongoAssignmentService (acc, db) u =
        ((match AssignmentRepository.GetByUserID db u.id none with
          | .error _ => acc
          | .ok assignments => acc ++ assignments), db) := by
      have hg : mongoAssignmentService.assignmentRepo.GetByUserID db u.id none =
          (AssignmentRepository.GetByUserID db u.id none, db) := rfl
      simp only [Fallible.teamStep, hg]
      cases AssignmentRepository.GetByUserID db u.id none with
      | error e => rfl
      | ok l => rfl
    rw [hstep]
    exact ih _

/-- With the repositories of the storage model, the read operations of the fallible
assignment service return the results of the storage model and leave the store as it is. -/
theorem mongo_assignmentService_reads (db : DB) :
    (∀ id, mongoAssignmentService.GetAssignmentByID db id =
      (AssignmentService.GetAssignmentByID db id, db)) ∧
    (∀ userID status, mongoAssignmentService.GetUserAssignments db userID status =
      (AssignmentService.GetUserAssignments db userID status, db)) ∧
    (∀ cqID, mongoAssignmentService.GetCompanyQuestionnaireAssignments db cqID =
      (AssignmentService.GetCompanyQuestionnaireAssignments db cqID, db)) ∧
    (∀ supervisorID, mongoAssignmentService.GetMyTeamAssignments db supervisorID =
      (AssignmentService.GetMyTeamAssignments db supervisorID, db)) ∧
    (∀ userID, mongoAssignmentService.GetMyCompanyQuestionnaires db userID =
      (AssignmentService.GetMyCompanyQuestionnaires db userID, db)) := by
  refine ⟨fun _ => rfl, fun _ _ => rfl, fun _ => rfl, ?_, ?_⟩
  · intro supervisorID
    have hg : mongoAssignmentService.userMetadataRepo.GetBySupervisorID db supervisorID =
        (UserMetadataRepository.GetBySupervisorID db supervisorID, db) := rfl
    simp only [Fallible.AssignmentService.GetMyTeamAssignments,
      AssignmentService.GetMyTeamAssignments, hg]
    cases UserMetadataRepository.GetBySupervisorID db supervisorID with
    | error e => rfl
    | ok users =>
      simp only [mongo_teamStep_fold]
      split
      · rfl
      · rfl
  · intro userID
    have hg : mongoAssignmentService.userMetadataRepo.GetByID db userID =
        (UserMetadataRepository.GetByID db userID, db) := rfl
    simp only [Fallible.AssignmentService.GetMyCompanyQuestionnaires,
      AssignmentService.GetMyCompanyQuestionnaires, hg]
    cases UserMetadataRepository.GetByID db userID with
    | error e => rfl
    | ok m => rfl

theorem mongo_authorizeReport (db : DB) (companyID : ObjectID) (userID : String)
    (isSuperAdmin : Bool) :
    Fallible.authorizeReport mongoReportService companyID userID isSuperAdmin db =
      (authorizeReport db companyID userID isSuperAdmin, db) := by
  have hg : mongoReportService.userMetadataRepo.GetByID db userID =
      (UserMetadataRepository.GetByID db userID, db) := rfl
  simp only [Fallible.authorizeReport, authorizeReport, hg]
  split
  · cases UserMetadataRepository.GetByID db userID with
    | error e => rfl
    | ok m =>
      simp only []
      split
      · rfl
      · rfl
  · rfl

theorem mongo_overviewStep_fold (db : DB) (l : List CompanyQuestionnaire) (acc : OverviewAcc) :
    l.foldl (Fallible.overviewStep mongoReportService) (acc, db) =
      (l.foldl (overviewStep db) acc, db) := by
  induction l generalizing acc with
  | nil => rfl
  | cons c l ih =>
    simp only [List.foldl_cons]
    have hstep : Fallible.overviewStep mongoReportService (acc, db) c =
        (overviewStep db acc c, db) := by
      have h1 : mongoReportService.questionnaireRepo.GetByID db c.questionnaireID =
          (QuestionnaireRepository.GetByID db c.questionnaireID, db) := rfl
      have h2 : mongoReportService.assignmentRepo.GetByCompanyQuestionnaireID db c.id =
          (AssignmentRepository.GetByCompanyQuestionnaireID db c.id, db) := rfl
      simp only [Fallible.overviewStep, overviewStep, h1]
      cases QuestionnaireRepository.GetByID db c.questionnaireID with
      | error e => rfl
      | ok qn =>
        simp only [h2]
        cases AssignmentRepository.GetByCompanyQuestionnaireID db c.id with
        | error e => rfl
        | ok l => rfl
    rw [hstep]
    exact ih _

theorem mongo_progressStep_fold (db : DB) (l : List UserMetadata)
    (acc : List EmployeeProgress) :
    l.foldl (Fallible.progressStep mongoReportService) (acc, db) =
      (acc ++ l.filterMap (employeeProgress db), db) := by
  induction l generalizing acc with
  | nil => simp
  | cons u l ih =>
    simp only [List.foldl_cons]
    have hstep : Fallible.progressStep mongoReportService (acc, db) u =
        (acc ++ [Fallible.progressEntry u ((db.assignments.filter
          (fun a => a.userID == u.id && true)).insertionSort
            (fun a b => a.assignedAt ≥ b.assignedAt))], db) := rfl
    have hemp : employeeProgress db u =
        some (Fallible.progressEntry u ((db.assignments.filter
          (fun a => a.userID == u.id && true)).insertionSort
            (fun a b => a.assignedAt ≥ b.assignedAt))) := rfl
    rw [hstep, ih, List.filterMap_cons, hemp]
    simp

/-- With the repositories of the storage model, the operations of the fallible report
service return the results of the storage model and leave the store as it is. -/
theorem mongo_reportService (db : DB) :
    (∀ cqID userID isSuperAdmin,
      mongoReportService.GetCompletionMetrics db cqID userID isSuperAdmin =
        (ReportService.GetCompletionMetrics db cqID userID isSuperAdmin, db)) ∧
    (∀ companyID userID isSuperAdmin,
      mongoReportService.GetCompanyOverview db companyID userID isSuperAdmin =
        (ReportService.GetCompanyOverview db companyID userID isSuperAdmin, db)) ∧
    (∀ companyID userID isSuperAdmin,
      mongoReportService.GetEmployeeProgress db companyID userID isSuperAdmin =
        (ReportService.GetEmployeeProgress db companyID userID isSuperAdmin, db)) := by
  refine ⟨?_, ?_, ?_⟩
  · intro cqID userID isSuperAdmin
    have h1 : mongoReportService.companyQuestionnaireRepo.GetByID db cqID =
        (CompanyQuestionnaireRepository.GetByID db cqID, db) := rfl
    have h2 : ∀ c, mongoReportService.companyRepo.GetByID db c =
        (CompanyRepository.GetByID db c, db) := fun _ => rfl
    have h3 : ∀ q, mongoReportService.questionnaireRepo.GetByID db q =
        (QuestionnaireRepository.GetByID db q, db) := fun _ => rfl
    simp only [Fallible.ReportService.GetCompletionMetrics, ReportService.GetCompletionMetrics,
      h1]
    cases CompanyQuestionnaireRepository.GetByID db cqID with
    | error e => rfl
    | ok cq =>
      simp only [mongo_authorizeReport]
      cases authorizeReport db cq.companyID userID isSuperAdmin with
      | error e => rfl
      | ok u =>
        simp only [h2]
        cases CompanyRepository.GetByID db cq.companyID with
        | error e => rfl
        | ok co =>
          simp only [h3]
          cases QuestionnaireRepository.GetByID db cq.questionnaireID with
          | error e => rfl
          | ok qn =>
            have h4 : ∀ c, mongoReportService.userMetadataRepo.CountByCompany db c =
                (.ok (db.usersMetadata.filter (fun u => u.companyID == c)).length, db) :=
              fun _ => rfl
            have h5 : mongoReportService.assignmentRepo.GetByCompanyQuestionnaireID db cqID =
                (.ok (db.assignments.filter (fun a => a.companyQuestionnaireID == cqID)), db) :=
              rfl
            have h6 : mongoReportService.assignmentRepo.GetCompletionStats db cqID =
                (AssignmentRepository.GetCompletionStats db cqID, db) := rfl
            have h7 : mongoReportService.assignmentRepo.GetAverageCompletionTime db cqID =
                (AssignmentRepository.GetAverageCompletionTime db cqID, db) := rfl
            have h8 : ∀ c l, mongoReportService.getCompletionByDepartment db c l =
                (ReportService.getCompletionByDepartment db c l, db) := fun _ _ => rfl
            simp only [h4, h5, h6, h7, h8, UserMetadataRepository.CountByCompany,
              AssignmentRepository.GetByCompanyQuestionnaireID,
              AssignmentRepository.GetCompletionStats]
            cases AssignmentRepository.GetAverageCompletionTime db cqID with
            | error e => rfl
            | ok avg => rfl
  · intro companyID userID isSuperAdmin
    have h2 : mongoReportService.companyRepo.GetByID db companyID =
        (CompanyRepository.GetByID db companyID, db) := rfl
    simp only [Fallible.ReportService.GetCompanyOverview, ReportService.GetCompanyOverview,
      mongo_authorizeReport]
    cases authorizeReport db companyID userID isSuperAdmin with
    | error e => rfl
    | ok u =>
      simp only [h2]
      cases CompanyRepository.GetByID db companyID with
      | error e => rfl
      | ok co =>
        have h3 : mongoReportService.userMetadataRepo.CountByCompany db companyID =
            (.ok (db.usersMetadata.filter (fun u => u.companyID == companyID)).length, db) := rfl
        have h4 : mongoReportService.companyQuestionnaireRepo.GetByCompanyID db companyID false =
            (CompanyQuestionnaireRepository.GetByCompanyID db companyID false, db) := rfl
        simp only [h3, h4, CompanyQuestionnaireRepository.GetByCompanyID,
          UserMetadataRepository.CountByCompany, mongo_overviewStep_fold]
  · intro companyID userID isSuperAdmin
    simp only [Fallible.ReportService.GetEmployeeProgress, ReportService.GetEmployeeProgress,
      mongo_authorizeReport]
    cases authorizeReport db companyID userID isSuperAdmin with
    | error e => rfl
    | ok u =>
      have h3 : mongoReportService.userMetadataRepo.GetByCompanyID db companyID =
          (.ok (db.usersMetadata.filter (fun u => u.companyID == companyID)), db) := rfl
      simp only [h3, UserMetadataRepository.GetByCompanyID, mongo_progressStep_fold,
        List.nil_append]

/-! ## Propagation of repository errors -/

theorem not_failed_ok {α : Type} (a : α) : ¬ Failed (Except.ok a : Except String α) := by
  rintro ⟨e, he⟩
  cases he

theorem fallible_verifyTargets_append {σ : Type} (s : Fallible.AssignmentService σ)
    (c : ObjectID) (pre rest : List String) (st : σ) :
    Fallible.verifyTargets s c (pre ++ rest) st =
      match Fallible.verifyTargets s c pre st with
      | (.error e, st1) => (.error e, st1)
      | (.ok _, st1) => Fallible.verifyTargets s c rest st1 := by
  induction pre generalizing st with
  | nil => rfl
  | cons u pre ih =>
    simp only [List.cons_append, Fallible.verifyTargets]
    rcases s.userMetadataRepo.GetByID st u with ⟨e | m, st1⟩
    · rfl
    · simp only []
      split
      · rfl
      · exact ih st1

theorem fallible_createAssignments_append {σ : Type} (s : Fallible.AssignmentService σ)
    (assignedBy : String) (cqID : ObjectID) (now : Time) (pre rest : List String) (st : σ)
    (acc : List UserQuestionnaireAssignment) :
    Fallible.createAssignments s assignedBy cqID now (pre ++ rest) st acc =
      match Fallible.createAssignments s assignedBy cqID now pre st acc with
      | (.error e, st1) => (.error e, st1)
      | (.ok acc1, st1) => Fallible.createAssignments s assignedBy cqID now rest st1 acc1 := by
  induction pre generalizing st acc with
  | nil => rfl
  | cons u pre ih =>
    simp only [List.cons_append, Fallible.createAssignments]
    rcases s.assignmentRepo.CheckDuplicate st u cqID with ⟨e | d, st1⟩
    · rfl
    · simp only []
      split
      · exact ih st1 acc
      · rcases s.assignmentRepo.Create (s.newObjectID st1).2
            (NewUserQuestionnaireAssignment (s.newObjectID st1).1 cqID u assignedBy now)
          with ⟨e | x, st2⟩
        · rfl
        · exact ih st2 _

/-- A failed lookup of a target fails the verification loop of `AssignToUsers`. -/
theorem fallible_verifyTargets_fails {σ : Type} (s : Fallible.AssignmentService σ)
    (c : ObjectID) (pre : List String) (u : String) (post : List String) (st st1 : σ)
    (hpre : Fallible.verifyTargets s c pre st = (.ok (), st1))
    (hf : Failed (s.userMetadataRepo.GetByID st1 u).1) :
    Failed (Fallible.verifyTargets s c (pre ++ u :: post) st).1 := by
  rw [fallible_verifyTargets_append, hpre]
  simp only [Fallible.verifyTargets]
  rcases hg : s.userMetadataRepo.GetByID st1 u with ⟨e | m, st2⟩
  · exact ⟨_, rfl⟩
  · rw [hg] at hf
    exact absurd hf (not_failed_ok _)

/-- A failed duplicate check or insert fails the creation loop of `AssignToUsers`. -/
theorem fallible_createAssignments_fails {σ : Type} (s : Fallible.AssignmentService σ)
    (assignedBy : String) (cqID : ObjectID) (now : Time) (pre : List String) (u : String)
    (post : List String) (st st1 : σ) (acc acc1 : List UserQuestionnaireAssignment)
    (hpre : Fallible.createAssignments s assignedBy cqID now pre st acc = (.ok acc1, st1))
    (hf : Failed (s.assignmentRepo.CheckDuplicate st1 u cqID).1 ∨
      ∃ st2, s.assignmentRepo.CheckDuplicate st1 u cqID = (.ok false, st2) ∧
        Failed (s.assignmentRepo.Create (s.newObjectID st2).2
          (NewUserQuestionnaireAssignment (s.newObjectID st2).1 cqID u assignedBy now)).1) :
    Failed (Fallible.createAssignments s assignedBy cqID now (pre ++ u :: post) st acc).1 := by
  rw [fallible_createAssignments_append, hpre]
  simp only [Fallible.createAssignments]
  rcases hg : s.assignmentRepo.CheckDuplicate st1 u cqID with ⟨e | d, st2⟩
  · exact ⟨_, rfl⟩
  · rcases hf with h | ⟨st2', h1, h⟩
    · rw [hg] at h
      exact absurd h (not_failed_ok _)
    · rw [hg] at h1
      cases h1
      simp only [Bool.false_eq_true, if_false]
      rcases hc : s.assignmentRepo.Create (s.newObjectID st2).2
            (NewUserQuestionnaireAssignment (s.newObjectID st2).1 cqID u assignedBy now)
          with ⟨e | x, st3⟩
      · exact ⟨_, rfl⟩
      · rw [hc] at h
        exact absurd h (not_failed_ok _)

/-- A failed lookup of the assigner, or a failed verification loop, fails the authorization
block of `AssignToUsers`. -/
theorem fallible_authorizeAssigner_fails {σ : Type} (s : Fallible.AssignmentService σ)
    (assignedBy : String) (cq : CompanyQuestionnaire) (userIDs : List String) (st : σ)
    (H : Failed (s.userMetadataRepo.GetByID st assignedBy).1 ∨
      ∃ m st1, s.userMetadataRepo.GetByID st assignedBy = (.ok m, st1) ∧
        Failed (Fallible.verifyTargets s m.companyID userIDs st1).1) :
    Failed (Fallible.authorizeAssigner s assignedBy cq userIDs false st).1 := by
  simp only [Fallible.authorizeAssigner, Bool.not_false, if_true]
  rcases hg : s.userMetadataRepo.GetByID st assignedBy with ⟨e | m, st1⟩
  · exact ⟨_, rfl⟩
  · simp only []
    split
    · exact ⟨_, rfl⟩
    · rcases H with h | ⟨m', st1', h1, h⟩
      · rw [hg] at h
        exact absurd h (not_failed_ok _)
      · rw [hg] at h1
        cases h1
        exact h

/-- A failed lookup, authorization block or creation loop fails `AssignToUsers`. -/
theorem fallible_assignToUsers_fails {σ : Type} (s : Fallible.AssignmentService σ) (st : σ)
    (assignedBy : String) (cqID : ObjectID) (userIDs : List String) (isSuperAdmin : Bool)
    (now : Time)
    (H : Failed (s.companyQuestionnaireRepo.GetByID st cqID).1 ∨
      ∃ cq st1, s.companyQuestionnaireRepo.GetByID st cqID = (.ok cq, st1) ∧
        (Failed (s.questionnaireRepo.GetByID st1 cq.questionnaireID).1 ∨
          ∃ qn st2, s.questionnaireRepo.GetByID st1 cq.questionnaireID = (.ok qn, st2) ∧
            (Failed (Fallible.authorizeAssigner s assignedBy cq userIDs isSuperAdmin st2).1 ∨
              ∃ st3, Fallible.authorizeAssigner s assignedBy cq userIDs isSuperAdmin st2 =
                  (.ok (), st3) ∧
                Failed (Fallible.createAssignments s assignedBy cqID now userIDs st3 []).1))) :
    Failed (s.AssignToUsers st assignedBy cqID userIDs isSuperAdmin now).1 := by
  unfold Fallible.AssignmentService.AssignToUsers
  split
  · exact ⟨_, rfl⟩
  · rcases hcq : s.companyQuestionnaireRepo.GetByID st cqID with ⟨e | cq, st1⟩
    · exact ⟨_, rfl⟩
    · simp only []
      split
      · exact ⟨_, rfl⟩
      · rcases hqn : s.questionnaireRepo.GetByID st1 cq.questionnaireID with ⟨e | qn, st2⟩
        · exact ⟨_, rfl⟩
        · simp only []
          split
          · exact ⟨_, rfl⟩
          · rcases ha : Fallible.authorizeAssigner s assignedBy cq userIDs isSuperAdmin st2
              with ⟨e | x, st3⟩
            · exact ⟨_, rfl⟩
            · simp only []
              rcases hc : Fallible.createAssignments s assignedBy cqID now userIDs st3 []
                with ⟨e | l, st4⟩
              · exact ⟨_, rfl⟩
              · exfalso
                rcases H with h | ⟨cq', st1', h1, h | ⟨qn', st2', h2, h | ⟨st3', h3, h⟩⟩⟩
                · rw [hcq] at h
                  exact not_failed_ok _ h
                · rw [hcq] at h1
                  cases h1
                  rw [hqn] at h
                  exact not_failed_ok _ h
                · rw [hcq] at h1
                  cases h1
                  rw [hqn] at h2
                  cases h2
                  rw [ha] at h
                  exact not_failed_ok _ h
                · rw [hcq] at h1
                  cases h1
                  rw [hqn] at h2
                  cases h2
                  rw [ha] at h3
                  cases h3
                  rw [hc] at h
                  exact not_failed_ok _ h

/-- A failed lookup or a failed write fails `SaveResponse`. -/
theorem fallible_saveResponse_fails {σ : Type} (s : Fallible.AssignmentService σ) (st : σ)
    (id : ObjectID) (userID questionID : String) (value : JsonValue) (now : Time)
    (H : Failed (s.assignmentRepo.GetByID st id).1 ∨
      ∃ a st1, s.assignmentRepo.GetByID st id = (.ok a, st1) ∧
        (Failed (s.companyQuestionnaireRepo.GetByID st1 a.companyQuestionnaireID).1 ∨
          ∃ cq st2, s.companyQuestionnaireRepo.GetByID st1 a.companyQuestionnaireID =
              (.ok cq, st2) ∧
            Failed (s.assignmentRepo.AddOrUpdateResponse st2 id
              (NewResponse questionID value now) now).1)) :
    Failed (s.SaveResponse st id userID questionID value now).1 := by
  unfold Fallible.AssignmentService.SaveResponse
  rcases ha : s.assignmentRepo.GetByID st id with ⟨e | a, st1⟩
  · exact ⟨_, rfl⟩
  · simp only []
    split
    · exact ⟨_, rfl⟩
    · split
      · exact ⟨_, rfl⟩
      · rcases hcq : s.companyQuestionnaireRepo.GetByID st1 a.companyQuestionnaireID
          with ⟨e | cq, st2⟩
        · exact ⟨_, rfl⟩
        · simp only []
          split
          · exact ⟨_, rfl⟩
          · rcases H with h | ⟨a', st1', h1, h | ⟨cq', st2', h2, h⟩⟩
            · rw [ha] at h
              exact absurd h (not_failed_ok _)
            · rw [ha] at h1
              cases h1
              rw [hcq] at h
              exact absurd h (not_failed_ok _)
            · rw [ha] at h1
              cases h1
              rw [hcq] at h2
              cases h2
              exact h

/-- A failed lookup or a failed write fails `SubmitAssignment`. -/
theorem fallible_submitAssignment_fails {σ : Type} (s : Fallible.AssignmentService σ) (st : σ)
    (id : ObjectID) (userID : String) (now : Time)
    (H : Failed (s.assignmentRepo.GetByID st id).1 ∨
      ∃ a st1, s.assignmentRepo.GetByID st id = (.ok a, st1) ∧
        (Failed (s.companyQuestionnaireRepo.GetByID st1 a.companyQuestionnaireID).1 ∨
          ∃ cq st2, s.companyQuestionnaireRepo.GetByID st1 a.companyQuestionnaireID =
              (.ok cq, st2) ∧
            (Failed (s.questionnaireRepo.GetByID st2 cq.questionnaireID).1 ∨
              ∃ qn st3, s.questionnaireRepo.GetByID st2 cq.questionnaireID = (.ok qn, st3) ∧
                Failed (s.assignmentRepo.UpdateStatus st3 id .completed now).1))) :
    Failed (s.SubmitAssignment st id userID now).1 := by
  unfold Fallible.AssignmentService.SubmitAssignment
  rcases ha : s.assignmentRepo.GetByID st id with ⟨e | a, st1⟩
  · exact ⟨_, rfl⟩
  · simp only []
    split
    · exact ⟨_, rfl⟩
    · split
      · exact ⟨_, rfl⟩
      · rcases hcq : s.companyQuestionnaireRepo.GetByID st1 a.companyQuestionnaireID
          with ⟨e | cq, st2⟩
        · exact ⟨_, rfl⟩
        · simp only []
          rcases hqn : s.questionnaireRepo.GetByID st2 cq.questionnaireID with ⟨e | qn, st3⟩
          · exact ⟨_, rfl⟩
          · simp only []
            split
            · exact ⟨_, rfl⟩
            · rcases H with h | ⟨a', st1', h1, h | ⟨cq', st2', h2, h | ⟨qn', st3', h3, h⟩⟩⟩
              · rw [ha] at h
                exact absurd h (not_failed_ok _)
              · rw [ha] at h1
                cases h1
                rw [hcq] at h
                exact absurd h (not_failed_ok _)
              · rw [ha] at h1
                cases h1
                rw [hcq] at h2
                cases h2
                rw [hqn] at h
                exact absurd h (not_failed_ok _)
              · rw [ha] at h1
                cases h1
                rw [hcq] at h2
                cases h2
                rw [hqn] at h3
                cases h3
                exact h

/-- A failed lookup or a failed list query fails `GetMyCompanyQuestionnaires`. -/
theorem fallible_getMyCompanyQuestionnaires_fails {σ : Type}
    (s : Fallible.AssignmentService σ) (st : σ) (userID : String)
    (H : Failed (s.userMetadataRepo.GetByID st userID).1 ∨
      ∃ m st1, s.userMetadataRepo.GetByID st userID = (.ok m, st1) ∧
        Failed (s.companyQuestionnaireRepo.GetByCompanyID st1 m.companyID true).1) :
    Failed (s.GetMyCompanyQuestionnaires st userID).1 := by
  unfold Fallible.AssignmentService.GetMyCompanyQuestionnaires
  rcases hm : s.userMetadataRepo.GetByID st userID with ⟨e | m, st1⟩
  · exact ⟨_, rfl⟩
  · rcases H with h | ⟨m', st1', h1, h⟩
    · rw [hm] at h
      exact absurd h (not_failed_ok _)
    · rw [hm] at h1
      cases h1
      exact h

/-- `GetMyTeamAssignments` fails when the query for the supervised users fails, and
otherwise succeeds whatever the per-user lookups return; a failed per-user lookup leaves
the collected list as it is. -/
theorem fallible_getMyTeamAssignments {σ : Type} (s : Fallible.AssignmentService σ) (st : σ)
    (supervisorID : String) :
    (Failed (s.userMetadataRepo.GetBySupervisorID st supervisorID).1 →
      Failed (s.GetMyTeamAssignments st supervisorID).1) ∧
    (∀ users st1, s.userMetadataRepo.GetBySupervisorID st supervisorID = (.ok users, st1) →
      ∃ r, (s.GetMyTeamAssignments st supervisorID).1 = .ok r) ∧
    (∀ (p : List UserQuestionnaireAssignment × σ) (user : UserMetadata),
      Failed (s.assignmentRepo.GetByUserID p.2 user.id none).1 →
      (Fallible.teamStep s p user).1 = p.1) := by
  refine ⟨?_, ?_, ?_⟩
  · intro h
    unfold Fallible.AssignmentService.GetMyTeamAssignments
    rcases hu : s.userMetadataRepo.GetBySupervisorID st supervisorID with ⟨e | users, st1⟩
    · exact ⟨_, rfl⟩
    · rw [hu] at h
      exact absurd h (not_failed_ok _)
  · intro users st1 hu
    unfold Fallible.AssignmentService.GetMyTeamAssignments
    rw [hu]
    simp only []
    split
    · exact ⟨_, rfl⟩
    · exact ⟨_, rfl⟩
  · intro p user h
    unfold Fallible.teamStep
    rcases hg : s.assignmentRepo.GetByUserID p.2 user.id none with ⟨e | l, st1⟩
    · rfl
    · rw [hg] at h
      exact absurd h (not_failed_ok _)

/-- A failed lookup of the caller fails the authorization block of the reports. -/
theorem fallible_authorizeReport_fails {σ : Type} (s : Fallible.ReportService σ)
    (companyID : ObjectID) (userID : String) (st : σ)
    (h : Failed (s.userMetadataRepo.GetByID st userID).1) :
    Failed (Fallible.authorizeReport s companyID userID false st).1 := by
  simp only [Fallible.authorizeReport, Bool.not_false, if_true]
  rcases hg : s.userMetadataRepo.GetByID st userID with ⟨e | m, st1⟩
  · exact ⟨_, rfl⟩
  · rw [hg] at h
    exact absurd h (not_failed_ok _)

/-- A failed call other than the department lookup fails `GetCompletionMetrics`. -/
theorem fallible_getCompletionMetrics_fails {σ : Type} (s : Fallible.ReportService σ) (st : σ)
    (cqID : ObjectID) (userID : String) (isSuperAdmin : Bool)
    (H : Failed (s.companyQuestionnaireRepo.GetByID st cqID).1 ∨
      ∃ cq st1, s.companyQuestionnaireRepo.GetByID st cqID = (.ok cq, st1) ∧
        (Failed (Fallible.authorizeReport s cq.companyID userID isSuperAdmin st1).1 ∨
          ∃ st2, Fallible.authorizeReport s cq.companyID userID isSuperAdmin st1 =
              (.ok (), st2) ∧
            (Failed (s.companyRepo.GetByID st2 cq.companyID).1 ∨
              ∃ co st3, s.companyRepo.GetByID st2 cq.companyID = (.ok co, st3) ∧
                (Failed (s.questionnaireRepo.GetByID st3 cq.questionnaireID).1 ∨
                  ∃ qn st4, s.questionnaireRepo.GetByID st3 cq.questionnaireID =
                      (.ok qn, st4) ∧
                    (Failed (s.userMetadataRepo.CountByCompany st4 cq.companyID).1 ∨
                      ∃ n st5, s.userMetadataRepo.CountByCompany st4 cq.companyID =
                          (.ok n, st5) ∧
                        (Failed (s.assignmentRepo.GetByCompanyQuestionnaireID st5 cqID).1 ∨
                          ∃ l st6, s.assignmentRepo.GetByCompanyQuestionnaireID st5 cqID =
                              (.ok l, st6) ∧
                            (Failed (s.assignmentRepo.GetCompletionStats st6 cqID).1 ∨
                              ∃ f st7, s.assignmentRepo.GetCompletionStats st6 cqID =
                                  (.ok f, st7) ∧
                                Failed (s.assignmentRepo.GetAverageCompletionTime st7
                                  cqID).1))))))) :
    Failed (s.GetCompletionMetrics st cqID userID isSuperAdmin).1 := by
  unfold Fallible.ReportService.GetCompletionMetrics
  rcases hcq : s.companyQuestionnaireRepo.GetByID st cqID with ⟨e | cq, st1⟩
  · exact ⟨_, rfl⟩
  simp only []
  rcases hau : Fallible.authorizeReport s cq.companyID userID isSuperAdmin st1
    with ⟨e | x, st2⟩
  · exact ⟨_, rfl⟩
  simp only []
  rcases hco : s.companyRepo.GetByID st2 cq.companyID with ⟨e | co, st3⟩
  · exact ⟨_, rfl⟩
  simp only []
  rcases hqn : s.questionnaireRepo.GetByID st3 cq.questionnaireID with ⟨e | qn, st4⟩
  · exact ⟨_, rfl⟩
  simp only []
  rcases hn : s.userMetadataRepo.CountByCompany st4 cq.companyID with ⟨e | n, st5⟩
  · exact ⟨_, rfl⟩
  simp only []
  rcases hl : s.assignmentRepo.GetByCompanyQuestionnaireID st5 cqID with ⟨e | l, st6⟩
  · exact ⟨_, rfl⟩
  simp only []
  rcases hf : s.assignmentRepo.GetCompletionStats st6 cqID with ⟨e | f, st7⟩
  · exact ⟨_, rfl⟩
  simp only []
  rcases hav : s.assignmentRepo.GetAverageCompletionTime st7 cqID with ⟨e | avg, st8⟩
  · exact ⟨_, rfl⟩
  exfalso
  rcases H with h | ⟨cq', st1', h1, H⟩
  · rw [hcq] at h
    exact not_failed_ok _ h
  rw [hcq] at h1
  cases h1
  rcases H with h | ⟨st2', h2, H⟩
  · rw [hau] at h
    exact not_failed_ok _ h
  rw [hau] at h2
  cases h2
  rcases H with h | ⟨co', st3', h3, H⟩
  · rw [hco] at h
    exact not_failed_ok _ h
  rw [hco] at h3
  cases h3
  rcases H with h | ⟨qn', st4', h4, H⟩
  · rw [hqn] at h
    exact not_failed_ok _ h
  rw [hqn] at h4
  cases h4
  rcases H with h | ⟨n', st5', h5, H⟩
  · rw [hn] at h
    exact not_failed_ok _ h
  rw [hn] at h5
  cases h5
  rcases H with h | ⟨l', st6', h6, H⟩
  · rw [hl] at h
    exact not_failed_ok _ h
  rw [hl] at h6
  cases h6
  rcases H with h | ⟨f', st7', h7, h⟩
  · rw [hf] at h
    exact not_failed_ok _ h
  rw [hf] at h7
  cases h7
  rw [hav] at h
  exact not_failed_ok _ h

/-- When its other calls succeed, `GetCompletionMetrics` succeeds although the department
lookup fails, and returns the metrics with an empty department breakdown. -/
theorem fallible_getCompletionMetrics_skips {σ : Type} (s : Fallible.ReportService σ) (st : σ)
    (cqID : ObjectID) (userID : String) (isSuperAdmin : Bool)
    (cq : CompanyQuestionnaire) (co : Company) (qn : Questionnaire) (n : Nat)
    (l : List UserQuestionnaireAssignment) (f : AssignmentStatus → Nat) (avg : ℚ)
    (st1 st2 st3 st4 st5 st6 st7 st8 : σ)
    (hcq : s.companyQuestionnaireRepo.GetByID st cqID = (.ok cq, st1))
    (hau : Fallible.authorizeReport s cq.companyID userID isSuperAdmin st1 = (.ok (), st2))
    (hco : s.companyRepo.GetByID st2 cq.companyID = (.ok co, st3))
    (hqn : s.questionnaireRepo.GetByID st3 cq.questionnaireID = (.ok qn, st4))
    (hn : s.userMetadataRepo.CountByCompany st4 cq.companyID = (.ok n, st5))
    (hl : s.assignmentRepo.GetByCompanyQuestionnaireID st5 cqID = (.ok l, st6))
    (hf : s.assignmentRepo.GetCompletionStats st6 cqID = (.ok f, st7))
    (hav : s.assignmentRepo.GetAverageCompletionTime st7 cqID = (.ok avg, st8))
    (hdept : Failed (s.userMetadataRepo.GetByCompanyID st8 cq.companyID).1) :
    ∃ m, (s.GetCompletionMetrics st cqID userID isSuperAdmin).1 = .ok m ∧
      m.completionByDepartment = [] ∧ m.assigned = l.length ∧
      m.completed = f AssignmentStatus.completed := by
  unfold Fallible.ReportService.GetCompletionMetrics
  simp only [hcq, hau, hco, hqn, hn, hl, hf, hav,
    Fallible.ReportService.getCompletionByDepartment]
  rcases hg : s.userMetadataRepo.GetByCompanyID st8 cq.companyID with ⟨e | users, st9⟩
  · exact ⟨_, rfl, rfl, rfl, rfl⟩
  · rw [hg] at hdept
    exact absurd hdept (not_failed_ok _)

/-- `GetCompanyOverview` fails when the authorization block, the company lookup, the employee
count or the binding query fails; otherwise it succeeds whatever the per-binding lookups
return, and a binding whose questionnaire or assignment lookup fails leaves the breakdown and
the totals as they are. -/
theorem fallible_getCompanyOverview {σ : Type} (s : Fallible.ReportService σ) (st : σ)
    (companyID : ObjectID) (userID : String) (isSuperAdmin : Bool) :
    ((Failed (Fallible.authorizeReport s companyID userID isSuperAdmin st).1 ∨
      ∃ st1, Fallible.authorizeReport s companyID userID isSuperAdmin st = (.ok (), st1) ∧
        (Failed (s.companyRepo.GetByID st1 companyID).1 ∨
          ∃ co st2, s.companyRepo.GetByID st1 companyID = (.ok co, st2) ∧
            (Failed (s.userMetadataRepo.CountByCompany st2 companyID).1 ∨
              ∃ n st3, s.userMetadataRepo.CountByCompany st2 companyID = (.ok n, st3) ∧
                Failed (s.companyQuestionnaireRepo.GetByCompanyID st3 companyID false).1))) →
      Failed (s.GetCompanyOverview st companyID userID isSuperAdmin).1) ∧
    (∀ st1 co st2 n st3 l st4,
      Fallible.authorizeReport s companyID userID isSuperAdmin st = (.ok (), st1) →
      s.companyRepo.GetByID st1 companyID = (.ok co, st2) →
      s.userMetadataRepo.CountByCompany st2 companyID = (.ok n, st3) →
      s.companyQuestionnaireRepo.GetByCompanyID st3 companyID false = (.ok l, st4) →
      ∃ o, (s.GetCompanyOverview st companyID userID isSuperAdmin).1 = .ok o) ∧
    (∀ (p : OverviewAcc × σ) (cq : CompanyQuestionnaire),
      (Failed (s.questionnaireRepo.GetByID p.2 cq.questionnaireID).1 ∨
        ∃ qn st1, s.questionnaireRepo.GetByID p.2 cq.questionnaireID = (.ok qn, st1) ∧
          Failed (s.assignmentRepo.GetByCompanyQuestionnaireID st1 cq.id).1) →
      (Fallible.overviewStep s p cq).1 = p.1) := by
  refine ⟨?_, ?_, ?_⟩
  · intro H
    unfold Fallible.ReportService.GetCompanyOverview
    rcases hau : Fallible.authorizeReport s companyID userID isSuperAdmin st with ⟨e | x, st1⟩
    · exact ⟨_, rfl⟩
    simp only []
    rcases hco : s.companyRepo.GetByID st1 companyID with ⟨e | co, st2⟩
    · exact ⟨_, rfl⟩
    simp only []
    rcases hn : s.userMetadataRepo.CountByCompany st2 companyID with ⟨e | n, st3⟩
    · exact ⟨_, rfl⟩
    simp only []
    rcases hl : s.companyQuestionnaireRepo.GetByCompanyID st3 companyID false
      with ⟨e | l, st4⟩
    · exact ⟨_, rfl⟩
    exfalso
    rcases H with h | ⟨st1', h1, H⟩
    · rw [hau] at h
      exact not_failed_ok _ h
    rw [hau] at h1
    cases h1
    rcases H with h | ⟨co', st2', h2, H⟩
    · rw [hco] at h
      exact not_failed_ok _ h
    rw [hco] at h2
    cases h2
    rcases H with h | ⟨n', st3', h3, h⟩
    · rw [hn] at h
      exact not_failed_ok _ h
    rw [hn] at h3
    cases h3
    rw [hl] at h
    exact not_failed_ok _ h
  · intro st1 co st2 n st3 l st4 hau hco hn hl
    unfold Fallible.ReportService.GetCompanyOverview
    simp only [hau, hco, hn, hl]
    exact ⟨_, rfl⟩
  · intro p cq H
    unfold Fallible.overviewStep
    rcases hq : s.questionnaireRepo.GetByID p.2 cq.questionnaireID with ⟨e | qn, st1⟩
    · rfl
    · simp only []
      rcases ha : s.assignmentRepo.GetByCompanyQuestionnaireID st1 cq.id with ⟨e | l, st2⟩
      · rfl
      · exfalso
        rcases H with h | ⟨qn', st1', h1, h⟩
        · rw [hq] at h
          exact not_failed_ok _ h
        · rw [hq] at h1
          cases h1
          rw [ha] at h
          exact not_failed_ok _ h

/-- `GetEmployeeProgress` fails when the authorization block or the employee query fails;
otherwise it succeeds whatever the per-employee lookups return, and an employee whose
assignment lookup fails is left out of the result. -/
theorem fallible_getEmployeeProgress {σ : Type} (s : Fallible.ReportService σ) (st : σ)
    (companyID : ObjectID) (userID : String) (isSuperAdmin : Bool) :
    ((Failed (Fallible.authorizeReport s companyID userID isSuperAdmin st).1 ∨
      ∃ st1, Fallible.authorizeReport s companyID userID isSuperAdmin st = (.ok (), st1) ∧
        Failed (s.userMetadataRepo.GetByCompanyID st1 companyID).1) →
      Failed (s.GetEmployeeProgress st companyID userID isSuperAdmin).1) ∧
    (∀ st1 employees st2,
      Fallible.authorizeReport s companyID userID isSuperAdmin st = (.ok (), st1) →
      s.userMetadataRepo.GetByCompanyID st1 companyID = (.ok employees, st2) →
      ∃ r, (s.GetEmployeeProgress st companyID userID isSuperAdmin).1 = .ok r) ∧
    (∀ (p : List EmployeeProgress × σ) (employee : UserMetadata),
      Failed (s.assignmentRepo.GetByUserID p.2 employee.id none).1 →
      (Fallible.progressStep s p employee).1 = p.1) := by
  refine ⟨?_, ?_, ?_⟩
  · intro H
    unfold Fallible.ReportService.GetEmployeeProgress
    rcases hau : Fallible.authorizeReport s companyID userID isSuperAdmin st with ⟨e | x, st1⟩
    · exact ⟨_, rfl⟩
    simp only []
    rcases he : s.userMetadataRepo.GetByCompanyID st1 companyID with ⟨e | l, st2⟩
    · exact ⟨_, rfl⟩
    exfalso
    rcases H with h | ⟨st1', h1, h⟩
    · rw [hau] at h
      exact not_failed_ok _ h
    rw [hau] at h1
    cases h1
    rw [he] at h
    exact not_failed_ok _ h
  · intro st1 employees st2 hau he
    unfold Fallible.ReportService.GetEmployeeProgress
    simp only [hau, he]
    exact ⟨_, rfl⟩
  · intro p employee h
    unfold Fallible.progressStep
    rcases hg : s.assignmentRepo.GetByUserID p.2 employee.id none with ⟨e | l, st1⟩
    · rfl
    · rw [hg] at h
      exact absurd h (not_failed_ok _)

/-- C27 (no swallowed errors), refuted: in a store where company 1 has the sample binding
and a binding whose questionnaire 77 is missing, the lookup of questionnaire 77 made by
`GetCompanyOverview` fails, yet the operation succeeds: it counts two bindings and reports
a breakdown with the sample questionnaire only. -/
theorem getCompanyOverview_swallows_lookup_error :
    QuestionnaireRepository.GetByID orphanDB orphanBinding.questionnaireID =
      .error "questionnaire not found" ∧
    (ReportService.GetCompanyOverview orphanDB 1 "boss" false).toOption.map
        (fun o => (o.totalQuestionnaires,
          o.questionnaireBreakdown.map (fun b => b.questionnaireID))) =
      some (2, [2]) := by
  refine ⟨by rfl, by rfl⟩

/-- C27 (amended): over repositories whose every call may fail, whatever the store holds,
an error returned by a repository call that an operation of the assignment or report
service makes is returned by the operation, except for the skips of three loops and of the
department breakdown.  In order: `AssignToUsers` fails when the binding lookup, the
questionnaire lookup, the authorization block or the creation loop fails; the authorization
block fails when the assigner lookup or the verification loop fails; the verification loop
fails when a target lookup fails; the creation loop fails when a duplicate check or an
insert fails, and a reported duplicate is skipped without failure.  `SaveResponse` and
`SubmitAssignment` fail when a lookup or the final write fails.  `GetAssignmentByID`,
`GetUserAssignments`, `GetCompanyQuestionnaireAssignments` and `DeleteAssignment` return
what their repository call returns.  `GetMyCompanyQuestionnaires` fails when the user
lookup or the binding query fails.  `GetMyTeamAssignments` fails when the query for the
supervised users fails, and otherwise succeeds, skipping a user whose lookup fails.  The
authorization block of the reports fails when the caller lookup fails.
`GetCompletionMetrics` fails when any of its eight calls before the department lookup
fails, and succeeds with an empty breakdown when only the department lookup fails.
`GetCompanyOverview` and `GetEmployeeProgress` fail when a call before their loop fails,
and otherwise succeed, skipping a binding or an employee whose lookup fails. -/
theorem repository_errors_propagate {σ : Type} (a : Fallible.AssignmentService σ)
    (r : Fallible.ReportService σ) :
    (∀ st assignedBy cqID userIDs isSuperAdmin now,
      (Failed (a.companyQuestionnaireRepo.GetByID st cqID).1 ∨
        ∃ cq st1, a.companyQuestionnaireRepo.GetByID st cqID = (.ok cq, st1) ∧
          (Failed (a.questionnaireRepo.GetByID st1 cq.questionnaireID).1 ∨
            ∃ qn st2, a.questionnaireRepo.GetByID st1 cq.questionnaireID = (.ok qn, st2) ∧
              (Failed (Fallible.authorizeAssigner a assignedBy cq userIDs isSuperAdmin st2).1 ∨
                ∃ st3, Fallible.authorizeAssigner a assignedBy cq userIDs isSuperAdmin st2 =
                    (.ok (), st3) ∧
                  Failed (Fallible.createAssignments a assignedBy cqID now userIDs st3
                    []).1))) →
      Failed (a.AssignToUsers st assignedBy cqID userIDs isSuperAdmin now).1) ∧
    (∀ st assignedBy cq userIDs,
      (Failed (a.userMetadataRepo.GetByID st assignedBy).1 ∨
        ∃ m st1, a.userMetadataRepo.GetByID st assignedBy = (.ok m, st1) ∧
          Failed (Fallible.verifyTargets a m.companyID userIDs st1).1) →
      Failed (Fallible.authorizeAssigner a assignedBy cq userIDs false st).1) ∧
    (∀ c pre u post st st1,
      Fallible.verifyTargets a c pre st = (.ok (), st1) →
      Failed (a.userMetadataRepo.GetByID st1 u).1 →
      Failed (Fallible.verifyTargets a c (pre ++ u :: post) st).1) ∧
    (∀ assignedBy cqID now pre u post st st1 acc acc1,
      Fallible.createAssignments a assignedBy cqID now pre st acc = (.ok acc1, st1) →
      (Failed (a.assignmentRepo.CheckDuplicate st1 u cqID).1 ∨
        ∃ st2, a.assignmentRepo.CheckDuplicate st1 u cqID = (.ok false, st2) ∧
          Failed (a.assignmentRepo.Create (a.newObjectID st2).2
            (NewUserQuestionnaireAssignment (a.newObjectID st2).1 cqID u assignedBy now)).1) →
      Failed (Fallible.createAssignments a assignedBy cqID now (pre ++ u :: post) st acc).1) ∧
    (∀ assignedBy cqID now u rest st st1 acc,
      a.assignmentRepo.CheckDuplicate st u cqID = (.ok true, st1) →
      Fallible.createAssignments a assignedBy cqID now (u :: rest) st acc =
        Fallible.createAssignments a assignedBy cqID now rest st1 acc) ∧
    (∀ st id userID questionID value now,
      (Failed (a.assignmentRepo.GetByID st id).1 ∨
        ∃ x st1, a.assignmentRepo.GetByID st id = (.ok x, st1) ∧
          (Failed (a.companyQuestionnaireRepo.GetByID st1 x.companyQuestionnaireID).1 ∨
            ∃ cq st2, a.companyQuestionnaireRepo.GetByID st1 x.companyQuestionnaireID =
                (.ok cq, st2) ∧
              Failed (a.assignmentRepo.AddOrUpdateResponse st2 id
                (NewResponse questionID value now) now).1)) →
      Failed (a.SaveResponse st id userID questionID value now).1) ∧
    (∀ st id userID now,
      (Failed (a.assignmentRepo.GetByID st id).1 ∨
        ∃ x st1, a.assignmentRepo.GetByID st id = (.ok x, st1) ∧
          (Failed (a.companyQuestionnaireRepo.GetByID st1 x.companyQuestionnaireID).1 ∨
            ∃ cq st2, a.companyQuestionnaireRepo.GetByID st1 x.companyQuestionnaireID =
                (.ok cq, st2) ∧
              (Failed (a.questionnaireRepo.GetByID st2 cq.questionnaireID).1 ∨
                ∃ qn st3, a.questionnaireRepo.GetByID st2 cq.questionnaireID = (.ok qn, st3) ∧
                  Failed (a.assignmentRepo.UpdateStatus st3 id .completed now).1))) →
      Failed (a.SubmitAssignment st id userID now).1) ∧
    (∀ st id, a.GetAssignmentByID st id = a.assignmentRepo.GetByID st id) ∧
    (∀ st userID status,
      a.GetUserAssignments st userID status = a.assignmentRepo.GetByUserID st userID status) ∧
    (∀ st cqID, a.GetCompanyQuestionnaireAssignments st cqID =
      a.assignmentRepo.GetByCompanyQuestionnaireID st cqID) ∧
    (∀ st id, a.DeleteAssignment st id = a.assignmentRepo.Delete st id) ∧
    (∀ st userID,
      (Failed (a.userMetadataRepo.GetByID st userID).1 ∨
        ∃ m st1, a.userMetadataRepo.GetByID st userID = (.ok m, st1) ∧
          Failed (a.companyQuestionnaireRepo.GetByCompanyID st1 m.companyID true).1) →
      Failed (a.GetMyCompanyQuestionnaires st userID).1) ∧
    (∀ st supervisorID,
      (Failed (a.userMetadataRepo.GetBySupervisorID st supervisorID).1 →
        Failed (a.GetMyTeamAssignments st supervisorID).1) ∧
      (∀ users st1, a.userMetadataRepo.GetBySupervisorID st supervisorID = (.ok users, st1) →
        ∃ l, (a.GetMyTeamAssignments st supervisorID).1 = .ok l) ∧
      (∀ (p : List UserQuestionnaireAssignment × σ) (user : UserMetadata),
        Failed (a.assignmentRepo.GetByUserID p.2 user.id none).1 →
        (Fallible.teamStep a p user).1 = p.1)) ∧
    (∀ st companyID userID,
      Failed (r.userMetadataRepo.GetByID st userID).1 →
      Failed (Fallible.authorizeReport r companyID userID false st).1) ∧
    (∀ st cqID userID isSuperAdmin,
      (Failed (r.companyQuestionnaireRepo.GetByID st cqID).1 ∨
        ∃ cq st1, r.companyQuestionnaireRepo.GetByID st cqID = (.ok cq, st1) ∧
          (Failed (Fallible.authorizeReport r cq.companyID userID isSuperAdmin st1).1 ∨
            ∃ st2, Fallible.authorizeReport r cq.companyID userID isSuperAdmin st1 =
                (.ok (), st2) ∧
              (Failed (r.companyRepo.GetByID st2 cq.companyID).1 ∨
                ∃ co st3, r.companyRepo.GetByID st2 cq.companyID = (.ok co, st3) ∧
                  (Failed (r.questionnaireRepo.GetByID st3 cq.questionnaireID).1 ∨
                    ∃ qn st4, r.questionnaireRepo.GetByID st3 cq.questionnaireID =
                        (.ok qn, st4) ∧
                      (Failed (r.userMetadataRepo.CountByCompany st4 cq.companyID).1 ∨
                        ∃ n st5, r.userMetadataRepo.CountByCompany st4 cq.companyID =
                            (.ok n, st5) ∧
                          (Failed (r.assignmentRepo.GetByCompanyQuestionnaireID st5 cqID).1 ∨
                            ∃ l st6, r.assignmentRepo.GetByCompanyQuestionnaireID st5 cqID =
                                (.ok l, st6) ∧
                              (Failed (r.assignmentRepo.GetCompletionStats st6 cqID).1 ∨
                                ∃ f st7, r.assignmentRepo.GetCompletionStats st6 cqID =
                                    (.ok f, st7) ∧
                                  Failed (r.assignmentRepo.GetAverageCompletionTime st7
                                    cqID).1))))))) →
      Failed (r.GetCompletionMetrics st cqID userID isSuperAdmin).1) ∧
    (∀ st cqID userID isSuperAdmin cq co qn n l f avg st1 st2 st3 st4 st5 st6 st7 st8,
      r.companyQuestionnaireRepo.GetByID st cqID = (.ok cq, st1) →
      Fallible.authorizeReport r cq.companyID userID isSuperAdmin st1 = (.ok (), st2) →
      r.companyRepo.GetByID st2 cq.companyID = (.ok co, st3) →
      r.questionnaireRepo.GetByID st3 cq.questionnaireID = (.ok qn, st4) →
      r.userMetadataRepo.CountByCompany st4 cq.companyID = (.ok n, st5) →
      r.assignmentRepo.GetByCompanyQuestionnaireID st5 cqID = (.ok l, st6) →
      r.assignmentRepo.GetCompletionStats st6 cqID = (.ok f, st7) →
      r.assignmentRepo.GetAverageCompletionTime st7 cqID = (.ok avg, st8) →
      Failed (r.userMetadataRepo.GetByCompanyID st8 cq.companyID).1 →
      ∃ m, (r.GetCompletionMetrics st cqID userID isSuperAdmin).1 = .ok m ∧
        m.completionByDepartment = [] ∧ m.assigned = l.length ∧
        m.completed = f AssignmentStatus.completed) ∧
    (∀ st companyID userID isSuperAdmin,
      ((Failed (Fallible.authorizeReport r companyID userID isSuperAdmin st).1 ∨
        ∃ st1, Fallible.authorizeReport r companyID userID isSuperAdmin st = (.ok (), st1) ∧
          (Failed (r.companyRepo.GetByID st1 companyID).1 ∨
            ∃ co st2, r.companyRepo.GetByID st1 companyID = (.ok co, st2) ∧
              (Failed (r.userMetadataRepo.CountByCompany st2 companyID).1 ∨
                ∃ n st3, r.userMetadataRepo.CountByCompany st2 companyID = (.ok n, st3) ∧
                  Failed (r.companyQuestionnaireRepo.GetByCompanyID st3 companyID
                    false).1))) →
        Failed (r.GetCompanyOverview st companyID userID isSuperAdmin).1) ∧
      (∀ st1 co st2 n st3 l st4,
        Fallible.authorizeReport r companyID userID isSuperAdmin st = (.ok (), st1) →
        r.companyRepo.GetByID st1 companyID = (.ok co, st2) →
        r.userMetadataRepo.CountByCompany st2 companyID = (.ok n, st3) →
        r.companyQuestionnaireRepo.GetByCompanyID st3 companyID false = (.ok l, st4) →
        ∃ o, (r.GetCompanyOverview st companyID userID isSuperAdmin).1 = .ok o) ∧
      (∀ (p : OverviewAcc × σ) (cq : CompanyQuestionnaire),
        (Failed (r.questionnaireRepo.GetByID p.2 cq.questionnaireID).1 ∨
          ∃ qn st1, r.questionnaireRepo.GetByID p.2 cq.questionnaireID = (.ok qn, st1) ∧
            Failed (r.assignmentRepo.GetByCompanyQuestionnaireID st1 cq.id).1) →
        (Fallible.overviewStep r p cq).1 = p.1)) ∧
    (∀ st companyID userID isSuperAdmin,
      ((Failed (Fallible.authorizeReport r companyID userID isSuperAdmin st).1 ∨
        ∃ st1, Fallible.authorizeReport r companyID userID isSuperAdmin st = (.ok (), st1) ∧
          Failed (r.userMetadataRepo.GetByCompanyID st1 companyID).1) →
        Failed (r.GetEmployeeProgress st companyID userID isSuperAdmin).1) ∧
      (∀ st1 employees st2,
        Fallible.authorizeReport r companyID userID isSuperAdmin st = (.ok (), st1) →
        r.userMetadataRepo.GetByCompanyID st1 companyID = (.ok employees, st2) →
        ∃ l, (r.GetEmployeeProgress st companyID userID isSuperAdmin).1 = .ok l) ∧
      (∀ (p : List EmployeeProgress × σ) (employee : UserMetadata),
        Failed (r.assignmentRepo.GetByUserID p.2 employee.id none).1 →
        (Fallible.progressStep r p employee).1 = p.1)) := by
  refine ⟨?_, ?_, ?_, ?_, ?_, ?_, ?_, ?_, ?_, ?_, ?_, ?_, ?_, ?_, ?_, ?_, ?_, ?_⟩
  · intro st assignedBy cqID userIDs isSuperAdmin now H
    exact fallible_assignToUsers_fails a st assignedBy cqID userIDs isSuperAdmin now H
  · intro st assignedBy cq userIDs H
    exact fallible_authorizeAssigner_fails a assignedBy cq userIDs st H
  · intro c pre u post st st1 hpre hf
    exact fallible_verifyTargets_fails a c pre u post st st1 hpre hf
  · intro assignedBy cqID now pre u post st st1 acc acc1 hpre hf
    exact fallible_createAssignments_fails a assignedBy cqID now pre u post st st1 acc acc1
      hpre hf
  · intro assignedBy cqID now u rest st st1 acc h
    simp only [Fallible.createAssignments, h, if_true]
  · intro st id userID questionID value now H
    exact fallible_saveResponse_fails a st id userID questionID value now H
  · intro st id userID now H
    exact fallible_submitAssignment_fails a st id userID now H
  · intro st id
    rfl
  · intro st userID status
    rfl
  · intro st cqID
    rfl
  · intro st id
    rfl
  · intro st userID H
    exact fallible_getMyCompanyQuestionnaires_fails a st userID H
  · intro st supervisorID
    exact fallible_getMyTeamAssignments a st supervisorID
  · intro st companyID userID h
    exact fallible_authorizeReport_fails r companyID userID st h
  · intro st cqID userID isSuperAdmin H
    exact fallible_getCompletionMetrics_fails r st cqID userID isSuperAdmin H
  · intro st cqID userID isSuperAdmin cq co qn n l f avg st1 st2 st3 st4 st5 st6 st7 st8
      hcq hau hco hqn hn hl hf hav hdept
    exact fallible_getCompletionMetrics_skips r st cqID userID isSuperAdmin cq co qn n l f avg
      st1 st2 st3 st4 st5 st6 st7 st8 hcq hau hco hqn hn hl hf hav hdept
  · intro st companyID userID isSuperAdmin
    exact fallible_getCompanyOverview r st companyID userID isSuperAdmin
  · intro st companyID userID isSuperAdmin
    exact fallible_getEmployeeProgress r st companyID userID isSuperAdmin

/-- Witness for C27 (amended), on the storage model behind failing connections: with inserts
refused `AssignToUsers` fails for a new target; with per-user queries failing
`GetMyTeamAssignments` still succeeds; with the employee count failing both
`GetCompletionMetrics` and `GetCompanyOverview` fail; with the employee list failing
`GetEmployeeProgress` fails while `GetCompletionMetrics` succeeds with an empty department
breakdown; and on the storage model itself a missing binding fails `SaveResponse` and a
missing questionnaire fails `SubmitAssignment`. -/
theorem repository_errors_propagate_witness :
    Failed (readOnlyAssignmentService.AssignToUsers twoCompanyDB "boss" 3 ["carol"] false
      jan1).1 ∧
    Failed (Fallible.createAssignments readOnlyAssignmentService "boss" 3 jan1
      ([] ++ "carol" :: []) twoCompanyDB []).1 ∧
    (∃ l, (readOnlyAssignmentService.GetMyTeamAssignments twoCompanyDB "boss").1 = .ok l) ∧
    Failed (droppedCountReportService.GetCompletionMetrics metricsDB 3 "boss" false).1 ∧
    Failed (droppedCountReportService.GetCompanyOverview metricsDB 1 "boss" false).1 ∧
    Failed (noEmployeeListReportService.GetEmployeeProgress metricsDB 1 "boss" false).1 ∧
    (∃ m, (noEmployeeListReportService.GetCompletionMetrics metricsDB 3 "boss" false).1 =
        .ok m ∧ m.completionByDepartment = [] ∧ m.assigned = 10 ∧ m.completed = 4) ∧
    Failed (mongoAssignmentService.SaveResponse orphanDB 14 "alice" "q-req" (.num 4) jan1).1 ∧
    Failed (mongoAssignmentService.SubmitAssignment orphanDB 13 "alice" jan1).1 := by
  obtain ⟨t1, _, _, t4, _, _, _, _, _, _, _, _, t13, _, _, _, _, _⟩ :=
    repository_errors_propagate readOnlyAssignmentService mongoReportService
  obtain ⟨_, _, _, _, _, _, _, _, _, _, _, _, _, _, d15, _, d17, _⟩ :=
    repository_errors_propagate mongoAssignmentService droppedCountReportService
  obtain ⟨_, _, _, _, _, _, _, _, _, _, _, _, _, _, _, n16, _, n18⟩ :=
    repository_errors_propagate mongoAssignmentService noEmployeeListReportService
  obtain ⟨_, _, _, _, _, m6, m7, _, _, _, _, _, _, _, _, _, _, _⟩ :=
    repository_errors_propagate mongoAssignmentService mongoReportService
  obtain ⟨avg, havg⟩ := getAverageCompletionTime_ok metricsDB 3
  have hav : noEmployeeListReportService.assignmentRepo.GetAverageCompletionTime metricsDB 3 =
      (.ok avg, metricsDB) := by
    show (AssignmentRepository.GetAverageCompletionTime metricsDB 3, metricsDB) = _
    rw [havg]
  refine ⟨?_, ?_, ?_, ?_, ?_, ?_, ?_, ?_, ?_⟩
  · exact t1 twoCompanyDB "boss" 3 ["carol"] false jan1
      (Or.inr ⟨sampleBinding, twoCompanyDB, rfl,
        Or.inr ⟨sampleQuestionnaire, twoCompanyDB, rfl,
          Or.inr ⟨twoCompanyDB, rfl, ⟨_, rfl⟩⟩⟩⟩)
  · exact t4 "boss" 3 jan1 [] "carol" [] twoCompanyDB twoCompanyDB [] [] rfl
      (Or.inr ⟨twoCompanyDB, rfl, ⟨_, rfl⟩⟩)
  · exact (t13 twoCompanyDB "boss").2.1 _ twoCompanyDB rfl
  · exact d15 metricsDB 3 "boss" false
      (Or.inr ⟨sampleBinding, metricsDB, rfl,
        Or.inr ⟨metricsDB, rfl,
          Or.inr ⟨{ id := 1, name := "Acme" }, metricsDB, rfl,
            Or.inr ⟨sampleQuestionnaire, metricsDB, rfl, Or.inl ⟨_, rfl⟩⟩⟩⟩⟩)
  · exact (d17 metricsDB 1 "boss" false).1
      (Or.inr ⟨metricsDB, rfl,
        Or.inr ⟨{ id := 1, name := "Acme" }, metricsDB, rfl, Or.inl ⟨_, rfl⟩⟩⟩)
  · exact (n18 metricsDB 1 "boss" false).1 (Or.inr ⟨metricsDB, rfl, ⟨_, rfl⟩⟩)
  · obtain ⟨m, hm, h1, h2, h3⟩ := n16 metricsDB 3 "boss" false sampleBinding
      { id := 1, name := "Acme" } sampleQuestionnaire _ _ _ avg metricsDB metricsDB metricsDB
      metricsDB metricsDB metricsDB metricsDB metricsDB rfl rfl rfl rfl rfl rfl rfl hav
      ⟨_, rfl⟩
    exact ⟨m, hm, h1, h2.trans (by rfl), h3.trans (by rfl)⟩
  · exact m6 orphanDB 14 "alice" "q-req" (.num 4) jan1
      (Or.inr ⟨danglingAssignment, orphanDB, rfl, Or.inl ⟨_, rfl⟩⟩)
  · exact m7 orphanDB 13 "alice" jan1
      (Or.inr ⟨orphanAssignment, orphanDB, rfl,
        Or.inr ⟨orphanBinding, orphanDB, rfl, Or.inl ⟨_, rfl⟩⟩⟩)


end Questionarie
